import Mathlib

/-!
# liblabpro: the raw transfer layer of `core.c`

A shallow embedding of `LabPro_send_raw`, `LabPro_read_raw`,
`LabPro_trim_response` and `LabPro_close_labpro` from
`old-abondoned-c-lib/core.c`.

Conventions of the embedding:

* a byte is a `Nat`; a C string is a list of bytes read up to its first NUL;
* the USB host stack is an oracle: the outcome of the `n`-th call of
  `libusb_bulk_transfer` made by one library call is `usb n`;
* every library call returns, next to its C results, the log of the external
  calls it made (`LabPro_sleep`, `libusb_bulk_transfer`,
  `LabPro_handle_device_disconnect`), in program order;
* the C `int` counters are unbounded integers (commands and responses are
  taken to be shorter than 2^31 bytes).
-/

namespace Liblabpro

/-! ## Constants -/

/-- Value of `LIBUSB_SUCCESS` in libusb-1.0. -/
def LIBUSB_SUCCESS : Int := 0
/-- Value of `LIBUSB_ERROR_IO` in libusb-1.0. -/
def LIBUSB_ERROR_IO : Int := -1
/-- Value of `LIBUSB_ERROR_NO_DEVICE` in libusb-1.0. -/
def LIBUSB_ERROR_NO_DEVICE : Int := -4
/-- Value of `LIBUSB_ERROR_TIMEOUT` in libusb-1.0. -/
def LIBUSB_ERROR_TIMEOUT : Int := -7
/-- Value of `LIBUSB_ERROR_PIPE` in libusb-1.0. -/
def LIBUSB_ERROR_PIPE : Int := -9

/-- First enumerator of `enum LabPro_Errors` (liblabpro.h). -/
def LABPRO_OK : Int := 0
/-- Second enumerator of `enum LabPro_Errors`. -/
def LABPRO_ERR_NO_MEM : Int := 1
/-- Third enumerator of `enum LabPro_Errors`. -/
def LABPRO_ERR_NOT_OPEN : Int := 2

/-- The carriage return byte, `'\r'`. -/
def CR : Nat := 13

/-! ## Data model -/

/-- The fields of `struct LabPro` (liblabpro.h) that `core.c` reads or writes. -/
structure LabPro where
  device_handle : Nat
  is_open : Bool
  is_busy : Bool
  is_fastmode_running : Bool
  is_collecting_data : Bool
  in_endpt_addr : Nat
  out_endpt_addr : Nat
  timeout : Nat
  deriving DecidableEq, Repr

/-- One call of `libusb_bulk_transfer` as it appears in the call log: the
endpoint, the offset of the data pointer inside the library's buffer, the
requested length, the bytes handed over (outgoing) or stored in the buffer
(incoming), and the returned status. -/
structure BulkCall where
  endpoint : Nat
  offset : Nat
  numbytes : Nat
  bytes : List Nat
  status : Int
  deriving DecidableEq, Repr

/-- One external call made by the library: `LabPro_sleep`, an outgoing or an
incoming `libusb_bulk_transfer`, or `LabPro_handle_device_disconnect`. -/
inductive Event where
  | sleep (milliseconds : Nat)
  | bulk_out (c : BulkCall)
  | bulk_in (c : BulkCall)
  | disconnect
  deriving DecidableEq, Repr

/-- What the host stack answers to one outgoing `libusb_bulk_transfer`. -/
structure OutXfer where
  status : Int
  transferred : Int
  deriving DecidableEq, Repr

/-- What the host stack answers to one incoming `libusb_bulk_transfer`:
`data` are the bytes it stored at the start of the frame (at most the 64
requested ones are kept), and `transferred` is their number. -/
structure InXfer where
  status : Int
  data : List Nat
  deriving DecidableEq, Repr

/-- The results of `LabPro_send_raw`: return value, `*length_transferred`, and
the call log. -/
structure SendResult where
  retval : Int
  length_transferred : Int
  trace : List Event
  deriving DecidableEq, Repr

/-! ## C string helpers -/

/-- The text of a C string: the bytes before the first NUL. -/
def c_str (s : List Nat) : List Nat := s.takeWhile (fun b => b != 0)

/-- The C function `strlen`. -/
def strlen (s : List Nat) : Nat := (c_str s).length

/-- The C function `strcpy` into a fresh buffer: the text and its terminator. -/
def strcpy (src : List Nat) : List Nat := c_str src ++ [0]

/-- The C function `strcat`: the text of `dest`, the text of `src`, a terminator. -/
def strcat (dest src : List Nat) : List Nat := c_str dest ++ c_str src ++ [0]

/-! ## `LabPro_send_raw` -/

/-- The `for` loop of `LabPro_send_raw` (core.c 262-296), entered with loop
variable `i`, `numerrors` failures so far, `n` transfers made so far, the
running `*length_transferred` and the call log. A failed transfer leaves `i`
unchanged (`--i` followed by the loop's `++i`). -/
def send_loop (labpro : LabPro) (usb : Nat → OutXfer) (real_command : List Nat)
    (len numpackets : Nat) (i numerrors n : Nat) (length_transferred : Int)
    (trace : List Event) : SendResult :=
  if i ≤ numpackets then
    let numbytes := if i = numpackets ∧ len % 64 ≠ 0 then len % 64 else 64
    let x := usb n
    let trace1 := trace ++ [Event.sleep 50,
      Event.bulk_out
        { endpoint := labpro.out_endpt_addr, offset := 64 * (i - 1), numbytes := numbytes,
          bytes := (real_command.drop (64 * (i - 1))).take numbytes, status := x.status }]
    let length1 := length_transferred + x.transferred
    if x.status = LIBUSB_ERROR_NO_DEVICE then
      { retval := LIBUSB_ERROR_NO_DEVICE, length_transferred := length1,
        trace := trace1 ++ [Event.disconnect] }
    else if x.status ≠ LIBUSB_SUCCESS then
      if numerrors + 1 > 5 then
        { retval := x.status, length_transferred := length1, trace := trace1 }
      else
        send_loop labpro usb real_command len numpackets i (numerrors + 1) (n + 1) length1 trace1
    else
      send_loop labpro usb real_command len numpackets (i + 1) numerrors (n + 1) length1 trace1
  else
    { retval := LABPRO_OK, length_transferred := length_transferred, trace := trace }
termination_by (numpackets + 1 - i) + (6 - numerrors)
decreasing_by
  all_goals simp_wf
  all_goals omega

/-- The function `LabPro_send_raw` (core.c 242-300). `malloc_ok` tells whether
the allocation of `real_command` succeeds. -/
def LabPro_send_raw (labpro : LabPro) (malloc_ok : Bool) (usb : Nat → OutXfer)
    (command : List Nat) : SendResult :=
  if !labpro.is_open then
    { retval := LABPRO_ERR_NOT_OPEN, length_transferred := 0, trace := [] }
  else if !malloc_ok then
    { retval := LABPRO_ERR_NO_MEM, length_transferred := 0, trace := [] }
  else
    let real_command := strcat (strcpy command) [CR, 0]
    let len := strlen real_command
    let numpackets := if len % 64 > 0 then len / 64 + 1 else len / 64
    send_loop labpro usb real_command len numpackets 1 0 0 0 []

/-! ## `LabPro_read_raw` -/

/-- The C library allocator as seen by `LabPro_read_raw`: whether the initial
`calloc` succeeds, whether the `realloc` to `numpackets` frames succeeds, and
the indeterminate content `junk p` of the byte at offset `p` of the buffer when
`realloc` has just grown the buffer over that offset. -/
structure Heap where
  calloc_ok : Bool
  realloc_ok : Nat → Bool
  junk : Nat → Nat

/-- The results of `LabPro_read_raw`: return value, `*length`, the buffer
stored in `*string` (`none` when the function returns before storing it), and
the call log. -/
structure ReadResult where
  retval : Int
  length : Int
  string : Option (List Nat)
  trace : List Event
  deriving DecidableEq, Repr

/-- Storing `bytes` in a buffer from offset `off` on. -/
def write_at (buf : List Nat) (off : Nat) (bytes : List Nat) : List Nat :=
  buf.take off ++ bytes ++ buf.drop (off + bytes.length)

/-- The call `memset(data + off, 0, 64)`. -/
def memset_frame (buf : List Nat) (off : Nat) : List Nat :=
  write_at buf off (List.replicate 64 0)

/-- The 64 bytes that `realloc` adds to a buffer of `numpackets` frames. -/
def fresh_frame (heap : Heap) (numpackets : Nat) : List Nat :=
  (List.range 64).map (fun k => heap.junk (64 * numpackets + k))

/-- The call of `libusb_bulk_transfer` made by `LabPro_read_raw` for frame
`numpackets`, answered by `x`: 64 bytes are requested at `data + 64 *
(numpackets - 1)`. -/
def read_call (labpro : LabPro) (x : InXfer) (numpackets : Nat) : BulkCall :=
  { endpoint := labpro.in_endpt_addr, offset := 64 * (numpackets - 1), numbytes := 64,
    bytes := x.data.take 64, status := x.status }

/-- The `do ... while` loop of `LabPro_read_raw` (core.c 316-364), entered
with `numpackets`, `numerrors`, `n` transfers made so far, the running
`*length`, the buffer `data` and the call log; `fuel` bounds the number of
iterations and `none` means that the bound was reached. The `continue` of the
error branch jumps to the loop condition, which is evaluated as written. The
statement `*string = data; return retval;` after the loop is folded into each
exit. -/
def read_loop (labpro : LabPro) (usb : Nat → InXfer) (heap : Heap) :
    Nat → Nat → Nat → Nat → Int → List Nat → List Event → Option ReadResult
  | 0, _, _, _, _, _, _ => none
  | fuel + 1, numpackets, numerrors, n, length, data, trace =>
    let x := usb n
    let off := 64 * (numpackets - 1)
    let received := x.data.take 64
    let transferred : Int := received.length
    let trace1 := trace ++ [Event.sleep 50, Event.bulk_in (read_call labpro x numpackets)]
    let data1 := write_at data off received
    if x.status = LIBUSB_ERROR_NO_DEVICE then
      some { retval := LIBUSB_ERROR_NO_DEVICE, length := length,
             string := some (memset_frame data1 off),
             trace := trace1 ++ [Event.disconnect] }
    else if x.status ≠ LIBUSB_SUCCESS ∧ x.status ≠ LIBUSB_ERROR_TIMEOUT then
      if numerrors + 1 > 5 then
        some { retval := x.status, length := length, string := some (memset_frame data1 off),
               trace := trace1 }
      else if transferred = 64 ∧ x.status = LIBUSB_SUCCESS then
        read_loop labpro usb heap fuel numpackets (numerrors + 1) (n + 1) length data1 trace1
      else
        some { retval := LABPRO_OK, length := length, string := some data1, trace := trace1 }
    else if x.status = LIBUSB_ERROR_TIMEOUT then
      some { retval := LABPRO_OK, length := length, string := some (memset_frame data1 off),
             trace := trace1 }
    else if heap.realloc_ok (numpackets + 1) then
      if transferred = 64 ∧ x.status = LIBUSB_SUCCESS then
        read_loop labpro usb heap fuel (numpackets + 1) numerrors (n + 1) (length + transferred)
          (data1 ++ fresh_frame heap numpackets) trace1
      else
        some { retval := LABPRO_OK, length := length + transferred,
               string := some (data1 ++ fresh_frame heap numpackets), trace := trace1 }
    else
      some { retval := LABPRO_ERR_NO_MEM, length := length + transferred, string := some data1,
             trace := trace1 }

/-- The function `LabPro_read_raw` (core.c 302-369), run for at most `fuel`
iterations of its loop. -/
def LabPro_read_raw (fuel : Nat) (labpro : LabPro) (heap : Heap) (usb : Nat → InXfer) :
    Option ReadResult :=
  if !labpro.is_open then
    some { retval := LABPRO_ERR_NOT_OPEN, length := 0, string := none, trace := [] }
  else if !heap.calloc_ok then
    some { retval := LABPRO_ERR_NO_MEM, length := 0, string := none, trace := [] }
  else
    read_loop labpro usb heap fuel 1 0 0 0 (List.replicate 64 0) []

/-- The bytes received in the first `k` transfers of a read, in arrival order. -/
def frames_upto (usb : Nat → InXfer) (k : Nat) : List Nat :=
  ((List.range k).map (fun m => (usb m).data.take 64)).flatten

/-- The call log of a read whose first `k` transfers each filled a frame. -/
def log_upto (labpro : LabPro) (usb : Nat → InXfer) (k : Nat) : List Event :=
  ((List.range k).map (fun m =>
    [Event.sleep 50, Event.bulk_in (read_call labpro (usb m) (m + 1))])).flatten

/-- The frame at the end of the buffer before transfer `k` of a read: zeroed
by `calloc` for the first transfer, left indeterminate by `realloc` later. -/
def open_frame (heap : Heap) (k : Nat) : List Nat :=
  if k = 0 then List.replicate 64 0 else fresh_frame heap k

/-! ## `LabPro_close_labpro` and `LabPro_trim_response` -/

/-- The function `LabPro_close_labpro` (core.c 197-201): the interface is
released and the handle closed (two calls into libusb that do not touch the
record), and `is_open` is cleared. -/
def LabPro_close_labpro (labpro : LabPro) : LabPro :=
  { labpro with is_open := false }

/-- The search of `strstr` from offset `k` of the haystack text on. -/
def strstr_from (needle : List Nat) : List Nat → Nat → Option Nat
  | [], k => if needle = [] then some k else none
  | h :: t, k => if needle.isPrefixOf (h :: t) then some k else strstr_from needle t (k + 1)

/-- The C function `strstr`: the offset of the first occurrence of the text of
`needle` in the text of `haystack`, `none` for a `NULL` result. -/
def strstr (haystack needle : List Nat) : Option Nat :=
  strstr_from (c_str needle) (c_str haystack) 0

/-- The function `LabPro_trim_response` (core.c 371-378): the return value and
the buffer after the call. -/
def LabPro_trim_response (string : List Nat) : Int × List Nat :=
  match strstr string [CR, 0] with
  | none => (1, string)
  | some cr => (0, string.set cr 0)

/-! ## Observations on a call log -/

/-- The bulk transfers of a call log, in the order they were made. -/
def bulk_calls : List Event → List BulkCall
  | [] => []
  | Event.bulk_out c :: es => c :: bulk_calls es
  | Event.bulk_in c :: es => c :: bulk_calls es
  | _ :: es => bulk_calls es

/-- The number of invocations of `LabPro_handle_device_disconnect` in a call log. -/
def disconnects : List Event → Nat
  | [] => 0
  | Event.disconnect :: es => disconnects es + 1
  | _ :: es => disconnects es

/-- The transfers of a list that did not return `LIBUSB_SUCCESS`. -/
def failed (cs : List BulkCall) : List BulkCall :=
  cs.filter (fun c => decide (c.status ≠ LIBUSB_SUCCESS))

/-- The transfers of a list that returned `LIBUSB_SUCCESS`. -/
def succeeded (cs : List BulkCall) : List BulkCall :=
  cs.filter (fun c => decide (c.status = LIBUSB_SUCCESS))

/-- The bytes of a list of transfers, concatenated in order. -/
def wire_bytes (cs : List BulkCall) : List Nat :=
  (cs.map (fun c => c.bytes)).flatten

/-- Two consecutive transfers of a send: after a failed one the same packet
is transmitted again. -/
def same_packet_after_failure (c1 c2 : BulkCall) : Prop :=
  c1.status ≠ LIBUSB_SUCCESS →
    c2.endpoint = c1.endpoint ∧ c2.offset = c1.offset ∧ c2.numbytes = c1.numbytes ∧
      c2.bytes = c1.bytes

/-- How a call treated a device-absent transfer, read off its return value
and call log: no transfer before the last one of the log returned
`LIBUSB_ERROR_NO_DEVICE`, and if the last one did, then the disconnect hook
was invoked exactly once, it is the last entry of the log, and the return value
is `LIBUSB_ERROR_NO_DEVICE`. -/
def absent_handled (retval : Int) (trace : List Event) : Prop :=
  (∀ c ∈ (bulk_calls trace).dropLast, c.status ≠ LIBUSB_ERROR_NO_DEVICE) ∧
  (∀ c, (bulk_calls trace).getLast? = some c → c.status = LIBUSB_ERROR_NO_DEVICE →
    disconnects trace = 1 ∧ trace.getLast? = some Event.disconnect ∧
    retval = LIBUSB_ERROR_NO_DEVICE)

/-- A call log in which no transfer returned `LIBUSB_ERROR_NO_DEVICE` and the
disconnect hook was not invoked. -/
def no_absent (trace : List Event) : Prop :=
  (∀ c ∈ bulk_calls trace, c.status ≠ LIBUSB_ERROR_NO_DEVICE) ∧ disconnects trace = 0

/-! ## Sample devices, transports and allocators -/

/-- A sample open device. -/
def dev0 : LabPro :=
  { device_handle := 1, is_open := true, is_busy := false, is_fastmode_running := false,
    is_collecting_data := false, in_endpt_addr := 130, out_endpt_addr := 2, timeout := 5000 }

/-- The command text `s{7}`. -/
def cmd_status : List Nat := [115, 123, 55, 125]

/-- A command text of 64 bytes (64 times the letter `A`). -/
def cmd_64 : List Nat := List.replicate 64 65

/-- A transport on which every outgoing transfer succeeds. -/
def usb_ok : Nat → OutXfer := fun _ => { status := LIBUSB_SUCCESS, transferred := 0 }

/-- A transport whose first `k` outgoing transfers fail with `LIBUSB_ERROR_IO`
and whose later ones succeed. -/
def usb_fail_first (k : Nat) : Nat → OutXfer := fun n =>
  if n < k then { status := LIBUSB_ERROR_IO, transferred := 0 }
  else { status := LIBUSB_SUCCESS, transferred := 0 }

/-- A transport whose first `k` outgoing transfers fail with `LIBUSB_ERROR_IO`
and on which the device is gone afterwards. -/
def usb_gone_after (k : Nat) : Nat → OutXfer := fun n =>
  if n < k then { status := LIBUSB_ERROR_IO, transferred := 0 }
  else { status := LIBUSB_ERROR_NO_DEVICE, transferred := 0 }

/-- An allocator that never fails and hands out memory filled with `0xAA`. -/
def heap_ok : Heap := { calloc_ok := true, realloc_ok := fun _ => true, junk := fun _ => 170 }

/-- An allocator whose `realloc` fails when asked for `j` frames. -/
def heap_fail_at (j : Nat) : Heap :=
  { calloc_ok := true, realloc_ok := fun np => decide (np ≠ j), junk := fun _ => 170 }

/-- A device that answers with `k` full frames (frame `m` is 64 times the byte
`65 + m`) and then lets the transfer time out. -/
def usb_in_frames (k : Nat) : Nat → InXfer := fun n =>
  if n < k then { status := LIBUSB_SUCCESS, data := List.replicate 64 (65 + n) }
  else { status := LIBUSB_ERROR_TIMEOUT, data := [] }

/-- A device whose first incoming transfer fails with `LIBUSB_ERROR_IO`, which
then delivers one full frame and then lets the transfer time out. -/
def usb_in_glitch : Nat → InXfer := fun n =>
  if n = 0 then { status := LIBUSB_ERROR_IO, data := [] }
  else if n = 1 then { status := LIBUSB_SUCCESS, data := List.replicate 64 65 }
  else { status := LIBUSB_ERROR_TIMEOUT, data := [] }

/-- A device that delivers one full frame and then a short packet of 3 bytes. -/
def usb_in_short : Nat → InXfer := fun n =>
  if n = 0 then { status := LIBUSB_SUCCESS, data := List.replicate 64 65 }
  else if n = 1 then { status := LIBUSB_SUCCESS, data := [66, 67, 68] }
  else { status := LIBUSB_ERROR_TIMEOUT, data := [] }

/-- A device that delivers one full frame and is gone afterwards. -/
def usb_in_gone : Nat → InXfer := fun n =>
  if n = 0 then { status := LIBUSB_SUCCESS, data := List.replicate 64 65 }
  else { status := LIBUSB_ERROR_NO_DEVICE, data := [] }

/-- The response `DATA`, a carriage return, and padding. -/
def resp_data : List Nat := [68, 65, 84, 65, 13, 0, 0, 0]

/-- The response `DATA` without a carriage return. -/
def resp_no_cr : List Nat := [68, 65, 84, 65, 0, 0, 0, 0]

/-! ## `LabPro_check_data_session` -/

/-- Seventh enumerator of `enum LabPro_Errors` (liblabpro.h). -/
def LABPRO_ERR_OP_MISMATCH : Int := 6
/-- Eighth enumerator of `enum LabPro_Errors`. -/
def LABPRO_ERR_POSTPROC_ON_SONIC : Int := 7
/-- Ninth enumerator of `enum LabPro_Errors`. -/
def LABPRO_ERR_POSTPROC_ON_REALTIME : Int := 8

/-- Second enumerator of `enum LabPro_Sampling_Modes`. -/
def LABPRO_SAMPMODE_REALTIME : Int := 1

/-- Enumerators of `enum LabPro_Channels` (liblabpro.h). -/
def LABPRO_CHAN_ALL : Int := 0
def LABPRO_CHAN_ANALOG_1 : Int := 1
def LABPRO_CHAN_ANALOG_2 : Int := 2
def LABPRO_CHAN_ANALOG_3 : Int := 3
def LABPRO_CHAN_ANALOG_4 : Int := 4
def LABPRO_CHAN_SONIC_1 : Int := 11
def LABPRO_CHAN_SONIC_2 : Int := 12
def LABPRO_CHAN_DIGITAL_1 : Int := 21
def LABPRO_CHAN_DIGITAL_2 : Int := 22
def LABPRO_CHAN_DIGITAL_OUT_1 : Int := 31
def LABPRO_CHAN_DIGITAL_OUT_2 : Int := 32

/-- The values of `enum LabPro_Channels`. -/
def channel_values : List Int := [0, 1, 2, 3, 4, 11, 12, 21, 22, 31, 32]

/-- An analog-class channel: analog 1 to analog 4. -/
def analog_class (channel : Int) : Prop :=
  channel = LABPRO_CHAN_ANALOG_1 ∨ channel = LABPRO_CHAN_ANALOG_2 ∨
  channel = LABPRO_CHAN_ANALOG_3 ∨ channel = LABPRO_CHAN_ANALOG_4

/-- A sonic-class channel: sonic 1 or sonic 2. -/
def sonic_class (channel : Int) : Prop :=
  channel = LABPRO_CHAN_SONIC_1 ∨ channel = LABPRO_CHAN_SONIC_2

/-- A digital-class channel: digital 1, digital 2, digital out 1 or digital out 2. -/
def digital_class (channel : Int) : Prop :=
  channel = LABPRO_CHAN_DIGITAL_1 ∨ channel = LABPRO_CHAN_DIGITAL_2 ∨
  channel = LABPRO_CHAN_DIGITAL_OUT_1 ∨ channel = LABPRO_CHAN_DIGITAL_OUT_2

/-- The fields of `LabPro_Data_Session` (liblabpro.h) that
`LabPro_check_data_session` reads; the enumerations are C integers. -/
structure LabPro_Data_Session where
  channel : Int
  analog_op : Int
  sonic_op : Int
  postproc : Int
  sampling_mode : Int
  deriving DecidableEq, Repr

/-- The function `LabPro_check_data_session` (core.c 221-240): the returned
count and the array stored in `*errors`, five integers zeroed by `calloc` (the
C code does not test the result of `calloc`, which is taken to succeed). -/
def LabPro_check_data_session (session : LabPro_Data_Session) : Nat × List Int :=
  let s0 : Nat × List Int := (0, List.replicate 5 0)
  let s1 : Nat × List Int :=
    if (session.analog_op ≠ 0 ∧ session.channel > 4) ∨
        (session.sonic_op ≠ 0 ∧ session.channel ≤ 4) then
      (s0.1 + 1, s0.2.set s0.1 LABPRO_ERR_OP_MISMATCH)
    else s0
  let s2 : Nat × List Int :=
    if session.postproc ≠ 0 ∧ session.sampling_mode = LABPRO_SAMPMODE_REALTIME then
      (s1.1 + 1, s1.2.set s1.1 LABPRO_ERR_POSTPROC_ON_REALTIME)
    else s1
  let s3 : Nat × List Int :=
    if session.postproc ≠ 0 ∧ session.channel > 4 then
      (s2.1 + 1, s2.2.set s2.1 LABPRO_ERR_POSTPROC_ON_SONIC)
    else s2
  s3

/-- The findings of a check: the first `count` entries of the array. -/
def findings (r : Nat × List Int) : List Int := r.2.take r.1

/-- The condition of the rule behind `LABPRO_ERR_OP_MISMATCH`, as the header
documents it: a sonic or digital channel with a nonzero analog operation, or an
analog channel with a nonzero sonic operation; the code tells the two groups
apart by comparing the channel number with 4. -/
def rule_op_mismatch (s : LabPro_Data_Session) : Prop :=
  (s.analog_op ≠ 0 ∧ s.channel > 4) ∨ (s.sonic_op ≠ 0 ∧ s.channel ≤ 4)

/-- The condition of the rule behind `LABPRO_ERR_POSTPROC_ON_REALTIME`. -/
def rule_postproc_realtime (s : LabPro_Data_Session) : Prop :=
  s.postproc ≠ 0 ∧ s.sampling_mode = LABPRO_SAMPMODE_REALTIME

/-- The condition of the rule behind `LABPRO_ERR_POSTPROC_ON_SONIC`: post
processing on a channel that is not numbered as an analog one. -/
def rule_postproc_sonic (s : LabPro_Data_Session) : Prop :=
  s.postproc ≠ 0 ∧ s.channel > 4

instance (s : LabPro_Data_Session) : Decidable (rule_op_mismatch s) := by
  unfold rule_op_mismatch
  infer_instance

instance (s : LabPro_Data_Session) : Decidable (rule_postproc_realtime s) := by
  unfold rule_postproc_realtime
  infer_instance

instance (s : LabPro_Data_Session) : Decidable (rule_postproc_sonic s) := by
  unfold rule_postproc_sonic
  infer_instance

/-- A session on digital channel 1 with a sonic operation and no post processing. -/
def session_digital_sonic_op : LabPro_Data_Session :=
  { channel := 21, analog_op := 0, sonic_op := 1, postproc := 0, sampling_mode := 0 }

/-- A session on digital channel 1 with post processing and no operation. -/
def session_digital_postproc : LabPro_Data_Session :=
  { channel := 21, analog_op := 0, sonic_op := 0, postproc := 1, sampling_mode := 0 }

/-- A session on sonic channel 1 with an analog operation and post processing
in realtime sampling: it breaks all three rules. -/
def session_all_wrong : LabPro_Data_Session :=
  { channel := 11, analog_op := 1, sonic_op := 0, postproc := 1, sampling_mode := 1 }

/-- A session on analog channel 1 with a sonic operation and post processing in
realtime sampling: it breaks the first two rules. -/
def session_two_wrong : LabPro_Data_Session :=
  { channel := 1, analog_op := 0, sonic_op := 1, postproc := 1, sampling_mode := 1 }

/-! ## `LabPro_parse_list` -/

/-- The results of `LabPro_parse_list`: return value, `*argc_list`, and the
elements stored in `*argv_list` so far, each given by its text (the buffer of
an element is zeroed by `calloc` and one byte longer than its text). -/
structure ParseResult where
  retval : Int
  argc_list : Nat
  argv_list : List (List Nat)
  deriving DecidableEq, Repr

/-- The `for` loop of `LabPro_parse_list` (core.c 393-423), entered with the
pointer `string`, the loop variable `i` and the elements stored so far.
`bad_list` is the value of `LABPRO_ERR_BAD_LIST`, which no header of the
repository declares; `alloc_ok n` tells whether the `n`-th allocation of the
call succeeds (`malloc` is number 0, the `calloc` and the `realloc` of
iteration `i` are numbers `2 * i + 1` and `2 * i + 2`). -/
def parse_loop (bad_list : Int) (alloc_ok : Nat → Bool) (string : List Nat) (i : Nat)
    (argv : List (List Nat)) : ParseResult :=
  match h : strstr string [44, 0] with
  | some comma =>
    if !alloc_ok (2 * i + 1) then
      { retval := LABPRO_ERR_NO_MEM, argc_list := 0, argv_list := argv }
    else if !alloc_ok (2 * i + 2) then
      { retval := LABPRO_ERR_NO_MEM, argc_list := 0, argv_list := argv ++ [string.take comma] }
    else
      parse_loop bad_list alloc_ok (string.drop (comma + 1)) (i + 1)
        (argv ++ [string.take comma])
  | none =>
    match strstr string [125, 0] with
    | none => { retval := bad_list, argc_list := 0, argv_list := argv }
    | some brace =>
      if !alloc_ok (2 * i + 1) then
        { retval := LABPRO_ERR_NO_MEM, argc_list := 0, argv_list := argv }
      else
        { retval := LABPRO_OK, argc_list := i + 1, argv_list := argv ++ [string.take brace] }
termination_by string.length
decreasing_by
  cases string with
  | nil => simp [strstr, strstr_from, c_str] at h
  | cons x xs =>
    simp only [List.drop_succ_cons, List.length_drop, List.length_cons]
    omega

/-- The function `LabPro_parse_list` (core.c 380-425). The pointer is advanced
past the `{` found by `strstr`, which is the first byte at that point. -/
def LabPro_parse_list (bad_list : Int) (alloc_ok : Nat → Bool) (string : List Nat) :
    ParseResult :=
  if string.headD 0 ≠ 123 ∨ strstr string [125, 0] = none then
    { retval := bad_list, argc_list := 0, argv_list := [] }
  else if !alloc_ok 0 then
    { retval := LABPRO_ERR_NO_MEM, argc_list := 0, argv_list := [] }
  else
    parse_loop bad_list alloc_ok (string.drop ((strstr string [123, 0]).getD 0 + 1)) 0 []

/-- A sample value for `LABPRO_ERR_BAD_LIST`. -/
def sample_bad_list : Int := 9

/-- An allocator on which every allocation of `LabPro_parse_list` succeeds. -/
def alloc_always : Nat → Bool := fun _ => true

/-- The C string `{1,2,3}`. -/
def list_123 : List Nat := [123, 49, 44, 50, 44, 51, 125, 0]

/-- The C string `{x}`. -/
def list_x : List Nat := [123, 120, 125, 0]

/-- The C string `1,2,3}`. -/
def list_no_open : List Nat := [49, 44, 50, 44, 51, 125, 0]

/-- The C string `{1,2,3`. -/
def list_no_close : List Nat := [123, 49, 44, 50, 44, 51, 0]

/-- The C string `{1,2}xy`. -/
def list_trailing : List Nat := [123, 49, 44, 50, 125, 120, 121, 0]

/-- The C string `{a},b`. -/
def list_comma_after : List Nat := [123, 97, 125, 44, 98, 0]

/-- The C string `{a}b,c}`. -/
def list_two_braces : List Nat := [123, 97, 125, 98, 44, 99, 125, 0]

/-! ## `LabPro_list_labpros` -/

/-- Value of `LIBUSB_TRANSFER_TYPE_BULK` in libusb-1.0. -/
def LIBUSB_TRANSFER_TYPE_BULK : Nat := 2
/-- Value of `LIBUSB_ENDPOINT_IN` in libusb-1.0. -/
def LIBUSB_ENDPOINT_IN : Nat := 128

/-- The fields of `struct libusb_endpoint_descriptor` that `core.c` reads. -/
structure EndpointDesc where
  bEndpointAddress : Nat
  bmAttributes : Nat
  deriving DecidableEq, Repr

/-- What the host stack answers about one device of the enumeration: its
identity, the status of each libusb call made on it, the handle stored by
`libusb_open`, and the endpoints of interface 0, alternate setting 0 of its
first configuration. -/
structure UsbDevice where
  idVendor : Nat
  idProduct : Nat
  open_status : Int
  handle : Nat
  kernel_driver_active : Int
  detach_status : Int
  set_configuration_status : Int
  claim_status : Int
  config_descriptor_status : Int
  endpoints : List EndpointDesc
  deriving DecidableEq, Repr

/-- One call into libusb made by `LabPro_list_labpros`; the argument is the
position of the device in the enumeration. -/
inductive UsbOp where
  | libusb_get_device_list
  | libusb_get_device_descriptor (i : Nat)
  | libusb_open (i : Nat)
  | libusb_kernel_driver_active (i : Nat)
  | libusb_detach_kernel_driver (i : Nat)
  | libusb_set_configuration (i : Nat)
  | libusb_claim_interface (i : Nat)
  | libusb_get_config_descriptor (i : Nat)
  | libusb_free_config_descriptor (i : Nat)
  | libusb_release_interface (i : Nat)
  | libusb_close (i : Nat)
  | libusb_free_device_list
  deriving DecidableEq, Repr

/-- The struct `LabPro_List` (liblabpro.h): the count and the entries of the
array that have been filled. -/
structure LabPro_List where
  num : Nat
  labpros : List LabPro
  deriving DecidableEq, Repr

/-- The test `(ep_desc.bmAttributes & 0b00000011) != LIBUSB_TRANSFER_TYPE_BULK`
of core.c 144, negated. -/
def is_bulk (ep : EndpointDesc) : Bool :=
  ep.bmAttributes &&& 3 == LIBUSB_TRANSFER_TYPE_BULK

/-- The test `(ep_desc.bEndpointAddress & 0b10000000) == LIBUSB_ENDPOINT_IN` of
core.c 156. -/
def is_in (ep : EndpointDesc) : Bool :=
  ep.bEndpointAddress &&& 128 == LIBUSB_ENDPOINT_IN

/-- The loop over the endpoint descriptors (core.c 138-170): the address of the
bulk-in endpoint and of the bulk-out endpoint found last, `none` standing for
`in_endpt_found` or `out_endpt_found` being false. -/
def scan_endpoints : List EndpointDesc → Option Nat × Option Nat → Option Nat × Option Nat
  | [], found => found
  | ep :: eps, found =>
    if !is_bulk ep then scan_endpoints eps found
    else if is_in ep then scan_endpoints eps (some ep.bEndpointAddress, found.2)
    else scan_endpoints eps (found.1, some ep.bEndpointAddress)

/-- The body of the device loop for a device with the LabPro identity (core.c
87-188): the libusb calls made on device `i`, and the endpoint addresses when
the device is accepted. -/
def probe_device (d : UsbDevice) (i : Nat) : Option (Nat × Nat) × List UsbOp :=
  if d.open_status ≠ LIBUSB_SUCCESS then
    (none, [UsbOp.libusb_open i])
  else
    let log1 := [UsbOp.libusb_open i, UsbOp.libusb_kernel_driver_active i]
    if d.kernel_driver_active = 1 ∧ d.detach_status ≠ 0 then
      (none, log1 ++ [UsbOp.libusb_detach_kernel_driver i, UsbOp.libusb_close i])
    else
      let log2 := if d.kernel_driver_active = 1
        then log1 ++ [UsbOp.libusb_detach_kernel_driver i] else log1
      if d.set_configuration_status ≠ 0 then
        (none, log2 ++ [UsbOp.libusb_set_configuration i, UsbOp.libusb_close i])
      else if d.claim_status ≠ 0 then
        (none, log2 ++ [UsbOp.libusb_set_configuration i, UsbOp.libusb_claim_interface i,
          UsbOp.libusb_close i])
      else if d.config_descriptor_status ≠ 0 then
        (none, log2 ++ [UsbOp.libusb_set_configuration i, UsbOp.libusb_claim_interface i,
          UsbOp.libusb_get_config_descriptor i, UsbOp.libusb_close i])
      else
        let log3 := log2 ++ [UsbOp.libusb_set_configuration i, UsbOp.libusb_claim_interface i,
          UsbOp.libusb_get_config_descriptor i, UsbOp.libusb_free_config_descriptor i]
        match scan_endpoints d.endpoints (none, none) with
        | (some in_addr, some out_addr) => (some (in_addr, out_addr), log3)
        | _ => (none, log3 ++ [UsbOp.libusb_release_interface i, UsbOp.libusb_close i])

/-- The device loop of `LabPro_list_labpros` (core.c 83-191) from device `i`
on. `stale k` is the content of the memory that `malloc` returns for the record
of the `k`-th accepted device: the fields that the code does not assign
(`is_busy`, `is_fastmode_running`, `is_collecting_data`) keep it. -/
def list_loop (stale : Nat → LabPro) :
    List UsbDevice → Nat → LabPro_List → List UsbOp → LabPro_List × List UsbOp
  | [], _, lp_list, log => (lp_list, log)
  | d :: ds, i, lp_list, log =>
    if lp_list.num < 5 then
      if d.idVendor = 0x08f7 ∧ d.idProduct = 1 then
        match (probe_device d i).1 with
        | none =>
          list_loop stale ds (i + 1) lp_list
            (log ++ [UsbOp.libusb_get_device_descriptor i] ++ (probe_device d i).2)
        | some addrs =>
          list_loop stale ds (i + 1)
            { num := lp_list.num + 1,
              labpros := lp_list.labpros ++
                [{ stale lp_list.num with
                   device_handle := d.handle, is_open := true, in_endpt_addr := addrs.1,
                   out_endpt_addr := addrs.2, timeout := 5000 }] }
            (log ++ [UsbOp.libusb_get_device_descriptor i] ++ (probe_device d i).2)
      else
        list_loop stale ds (i + 1) lp_list (log ++ [UsbOp.libusb_get_device_descriptor i])
    else (lp_list, log)

/-- The function `LabPro_list_labpros` (core.c 70-195). `bus` is the device
list of `libusb_get_device_list`, `none` when that call returns a negative
value. -/
def LabPro_list_labpros (stale : Nat → LabPro) (bus : Option (List UsbDevice)) :
    LabPro_List × List UsbOp :=
  match bus with
  | none =>
    ({ num := 0, labpros := [] }, [UsbOp.libusb_get_device_list, UsbOp.libusb_free_device_list])
  | some devices =>
    let r := list_loop stale devices 0 { num := 0, labpros := [] } [UsbOp.libusb_get_device_list]
    (r.1, r.2 ++ [UsbOp.libusb_free_device_list])

/-- A device has the identity of a LabPro (core.c 85). -/
def matches_identity (d : UsbDevice) : Bool :=
  d.idVendor == 0x08f7 && d.idProduct == 1

/-- A device exposes a bulk-in endpoint on interface 0, alternate setting 0. -/
def has_bulk_in (d : UsbDevice) : Bool := d.endpoints.any (fun ep => is_bulk ep && is_in ep)

/-- A device exposes a bulk-out endpoint on interface 0, alternate setting 0. -/
def has_bulk_out (d : UsbDevice) : Bool := d.endpoints.any (fun ep => is_bulk ep && !is_in ep)

/-- Every libusb call that opens, configures and claims the device succeeds. -/
def steps_succeed (d : UsbDevice) : Bool :=
  d.open_status == LIBUSB_SUCCESS &&
  (d.kernel_driver_active != 1 || d.detach_status == 0) &&
  d.set_configuration_status == 0 && d.claim_status == 0 && d.config_descriptor_status == 0

/-- The address of the last endpoint of a list that passes the test `p`. -/
def last_addr (p : EndpointDesc → Bool) (eps : List EndpointDesc) : Option Nat :=
  ((eps.filter p).getLast?).map (fun ep => ep.bEndpointAddress)

/-- The address of the last bulk-in endpoint of interface 0, alternate setting
0 of a device, in the order of its descriptors. -/
def last_bulk_in (d : UsbDevice) : Option Nat :=
  last_addr (fun ep => is_bulk ep && is_in ep) d.endpoints

/-- The address of the last bulk-out endpoint of interface 0, alternate setting
0 of a device, in the order of its descriptors. -/
def last_bulk_out (d : UsbDevice) : Option Nat :=
  last_addr (fun ep => is_bulk ep && !is_in ep) d.endpoints

/-- An acceptable matching candidate: a device with the LabPro identity that
can be opened, configured and claimed and exposes a bulk endpoint in each
direction. -/
def acceptable (d : UsbDevice) : Bool :=
  matches_identity d && steps_succeed d && has_bulk_in d && has_bulk_out d

/-- A stale record: the memory that `malloc` hands out. -/
def stale0 : Nat → LabPro := fun _ =>
  { device_handle := 0, is_open := false, is_busy := true, is_fastmode_running := true,
    is_collecting_data := true, in_endpt_addr := 0, out_endpt_addr := 0, timeout := 0 }

/-- A LabPro on the bus: handle `h`, a bulk-in endpoint `0x81` and a bulk-out
endpoint `0x02`. -/
def usb_labpro (h : Nat) : UsbDevice :=
  { idVendor := 0x08f7, idProduct := 1, open_status := 0, handle := h,
    kernel_driver_active := 0, detach_status := 0, set_configuration_status := 0,
    claim_status := 0, config_descriptor_status := 0,
    endpoints := [{ bEndpointAddress := 0x81, bmAttributes := 2 },
                  { bEndpointAddress := 0x02, bmAttributes := 2 }] }

/-- Another device on the bus (a hub). -/
def usb_other : UsbDevice :=
  { idVendor := 0x1d6b, idProduct := 2, open_status := 0, handle := 99,
    kernel_driver_active := 1, detach_status := 0, set_configuration_status := 0,
    claim_status := 0, config_descriptor_status := 0, endpoints := [] }

/-- A LabPro with two bulk-in endpoints, `0x81` and `0x83`, and one bulk-out
endpoint. -/
def usb_two_in : UsbDevice :=
  { usb_labpro 7 with
    endpoints := [{ bEndpointAddress := 0x81, bmAttributes := 2 },
                  { bEndpointAddress := 0x83, bmAttributes := 2 },
                  { bEndpointAddress := 0x02, bmAttributes := 2 }] }

/-- A LabPro without bulk-out endpoint. -/
def usb_no_out : UsbDevice :=
  { usb_labpro 8 with endpoints := [{ bEndpointAddress := 0x81, bmAttributes := 2 }] }

/-- A LabPro whose configuration descriptor cannot be read. -/
def usb_no_descriptor : UsbDevice :=
  { usb_labpro 9 with config_descriptor_status := LIBUSB_ERROR_IO }

/-! ## `LabPro_query_status` -/

/-- The enumerator `LABPRO_SYS_STATUS` of `enum LabPro_Commands` (liblabpro.h). -/
def LABPRO_SYS_STATUS : Nat := 7

/-- The text that `printf` produces for `%d` and a value that is not negative. -/
def decimal (n : Nat) : List Nat := (Nat.toDigits 10 n).map Char.toNat

/-- The value read from `labpro->is_fastmode_running` after `k` calls of
`LabPro_sleep`: the field of the record on entry, and afterwards whatever the
thread that runs the acquisition has stored there, given by `flag`. -/
def fastmode_after (labpro : LabPro) (flag : Nat → Bool) (k : Nat) : Bool :=
  if k = 0 then labpro.is_fastmode_running else flag k

/-- The loop `while (labpro->is_fastmode_running) LabPro_sleep(1);` (core.c
434-436) after `k` sleeps, run for at most `fuel` tests of the flag: whether
the flag was seen clear, and the call log so far. -/
def poll_fastmode (labpro : LabPro) (flag : Nat → Bool) :
    Nat → Nat → List Event → Bool × List Event
  | 0, _, trace => (false, trace)
  | fuel + 1, k, trace =>
    if fastmode_after labpro flag k then
      poll_fastmode labpro flag fuel (k + 1) (trace ++ [Event.sleep 1])
    else (true, trace)

/-- The function `LabPro_query_status` (core.c 427-444), its polling loop run
for at most `fuel` tests of the flag: the return value (`none` while the
function is still polling when the budget ends) and the call log. The command
is the text that `sprintf` builds from `"{%d}"`. -/
def LabPro_query_status (fuel : Nat) (labpro : LabPro) (flag : Nat → Bool) (malloc_ok : Bool)
    (usb : Nat → OutXfer) : Option Int × List Event :=
  let polled := poll_fastmode labpro flag fuel 0 []
  if polled.1 then
    let command := [123] ++ decimal LABPRO_SYS_STATUS ++ [125, 0]
    let sent := LabPro_send_raw { labpro with is_fastmode_running := false } malloc_ok usb command
    (some LABPRO_OK, polled.2 ++ sent.trace)
  else (none, polled.2)

/-- The sample device while a fast-mode acquisition runs. -/
def dev_fastmode : LabPro := { dev0 with is_fastmode_running := true }

/-- An acquisition that clears the flag during the third sleep. -/
def flag_clears_at_3 : Nat → Bool := fun k => decide (k < 3)

/-! ## `LabPro_reset` and the error codes -/

/-- Fourth enumerator of `enum LabPro_Errors` (liblabpro.h). -/
def LABPRO_ERR_BUSY : Int := 3
/-- Fifth enumerator of `enum LabPro_Errors`. -/
def LABPRO_ERR_BUSY_COLLECT : Int := 4
/-- Sixth enumerator of `enum LabPro_Errors`. -/
def LABPRO_ERR_BUSY_FASTMODE : Int := 5

/-- Value of `LIBUSB_ERROR_ACCESS` in libusb-1.0. -/
def LIBUSB_ERROR_ACCESS : Int := -3
/-- Value of `LIBUSB_ERROR_INTERRUPTED` in libusb-1.0. -/
def LIBUSB_ERROR_INTERRUPTED : Int := -10
/-- Value of `LIBUSB_ERROR_NO_MEM` in libusb-1.0. -/
def LIBUSB_ERROR_NO_MEM : Int := -11
/-- Value of `LIBUSB_ERROR_OTHER` in libusb-1.0. -/
def LIBUSB_ERROR_OTHER : Int := -99

/-- The enumerators of `enum LabPro_Errors` (liblabpro.h) other than
`LABPRO_OK`, in the order of their declaration. -/
def LabPro_Errors : List Int :=
  [LABPRO_ERR_NO_MEM, LABPRO_ERR_NOT_OPEN, LABPRO_ERR_BUSY, LABPRO_ERR_BUSY_COLLECT,
   LABPRO_ERR_BUSY_FASTMODE, LABPRO_ERR_OP_MISMATCH, LABPRO_ERR_POSTPROC_ON_SONIC,
   LABPRO_ERR_POSTPROC_ON_REALTIME]

/-- The enumerators of `enum LabPro_USB_Errors` (liblabpro.h), in the order of
their declaration. -/
def LabPro_USB_Errors : List Int :=
  [ LIBUSB_ERROR_IO, LIBUSB_ERROR_ACCESS, LIBUSB_ERROR_NO_DEVICE, LIBUSB_ERROR_PIPE,
   LIBUSB_ERROR_INTERRUPTED, LIBUSB_ERROR_NO_MEM, LIBUSB_ERROR_OTHER]

/-- The enumerator `LABPRO_RESET` of `enum LabPro_Commands` (liblabpro.h). -/
def LABPRO_RESET : Nat := 0

/-- The C function `snprintf` for an output `text` already formatted: at most
`size - 1` bytes of it are stored, followed by a terminator. -/
def snprintf (size : Nat) (text : List Nat) : List Nat := text.take (size - 1) ++ [0]

/-- The function `LabPro_reset` (core.c 203-219): the return value and the call
log. The command is what `snprintf` builds from `"s{%d}\r"` in the 6 bytes of
`cmd_str` (the C code does not test the result of that `malloc`, which is taken
to succeed); `malloc_ok` and `usb` are handed to `LabPro_send_raw`. -/
def LabPro_reset (labpro : LabPro) (force : Bool) (malloc_ok : Bool) (usb : Nat → OutXfer) :
    Int × List Event :=
  if !labpro.is_open then (LABPRO_ERR_NOT_OPEN, [])
  else if labpro.is_busy && !force then (LABPRO_ERR_BUSY, [])
  else if labpro.is_collecting_data && !force then (LABPRO_ERR_BUSY_COLLECT, [])
  else
    let cmd_str := snprintf 6 ([115, 123] ++ decimal LABPRO_RESET ++ [125, 13])
    let sent := LabPro_send_raw labpro malloc_ok usb cmd_str
    (sent.retval, sent.trace)

/-- A transport on which the device is gone from the first transfer on. -/
def usb_gone : Nat → OutXfer := fun _ => { status := LIBUSB_ERROR_NO_DEVICE, transferred := 0 }

/-- A transport on which every outgoing transfer fails with `LIBUSB_ERROR_IO`. -/
def usb_broken : Nat → OutXfer := fun _ => { status := LIBUSB_ERROR_IO, transferred := 0 }

/-- A transport whose transfers fail with `LIBUSB_ERROR_IO`, the fourth one
excepted: three failures, one success, and failures again. -/
def usb_three_and_three : Nat → OutXfer := fun n =>
  if n = 3 then { status := LIBUSB_SUCCESS, transferred := 64 }
  else { status := LIBUSB_ERROR_IO, transferred := 0 }

/-- A transport for a wire command of `len` bytes whose first transfer fails
with `LIBUSB_ERROR_IO` after `k` bytes went out, and whose later transfers
succeed and report the whole packet: transfer `n` then carries packet `n`. -/
def usb_double_count (k : Int) (len : Nat) : Nat → OutXfer := fun n =>
  if n = 0 then { status := LIBUSB_ERROR_IO, transferred := k }
  else { status := LIBUSB_SUCCESS, transferred := ((min 64 (len - 64 * (n - 1)) : Nat) : Int) }

/-- The sample device, busy and collecting data. -/
def dev_busy : LabPro := { dev0 with is_busy := true, is_collecting_data := true }

/-- The sample device, collecting data. -/
def dev_collecting : LabPro := { dev0 with is_collecting_data := true }

/-- The sample device, not open, busy and collecting data. -/
def dev_closed_busy : LabPro :=
  { dev0 with is_open := false, is_busy := true, is_collecting_data := true }

/-- The sum of the byte counts that the transport reports for its first `k`
transfers. -/
def reported_total (usb : Nat → OutXfer) (k : Nat) : Int :=
  ((List.range k).map (fun m => (usb m).transferred)).sum

/-- On the transfers of a call, listed in order, the transport reports the
whole packet for a transfer that succeeds and no byte for one that fails. -/
def reports_whole_packets (usb : Nat → OutXfer) (cs : List BulkCall) : Prop :=
  ∀ m c, cs[m]? = some c →
    (usb m).transferred = if (usb m).status = LIBUSB_SUCCESS then (c.numbytes : Int) else 0

/-! ## The fields of a list text -/

/-- The text after the last comma of `t`, which is `t` itself when it has no
comma: the last of the pieces into which the commas cut `t`. -/
def text_after_last_comma (t : List Nat) : List Nat := ((t.splitOn 44).getLast?).getD []

/-- The pieces into which the commas cut `t`, the last one left out: each is
the text between two consecutive separators. -/
def fields_before_last (t : List Nat) : List (List Nat) := (t.splitOn 44).dropLast

/-- The C string `{}`. -/
def list_empty : List Nat := [123, 125, 0]

/-! ## Proofs -/

@[simp] theorem bulk_calls_nil : bulk_calls [] = [] := rfl

theorem bulk_calls_append (a b : List Event) :
    bulk_calls (a ++ b) = bulk_calls a ++ bulk_calls b := by
  induction a with
  | nil => rfl
  | cons e es ih => cases e <;> simp [bulk_calls, ih]

theorem disconnects_append (a b : List Event) :
    disconnects (a ++ b) = disconnects a + disconnects b := by
  induction a with
  | nil => simp [disconnects]
  | cons e es ih =>
    cases e
    all_goals simp [disconnects, ih]
    all_goals omega

/-- Hoare-style rule for the loop of `LabPro_send_raw`: an invariant of the
loop variables that every iteration keeps, and a postcondition that every exit
establishes. -/
theorem send_loop_rule (labpro : LabPro) (usb : Nat → OutXfer) (real_command : List Nat)
    (len numpackets : Nat)
    (Inv : Nat → Nat → Nat → Int → List Event → Prop) (Post : SendResult → Prop)
    (h_absent : ∀ i e n lt tr, Inv i e n lt tr → i ≤ numpackets →
      (usb n).status = LIBUSB_ERROR_NO_DEVICE →
      Post { retval := LIBUSB_ERROR_NO_DEVICE, length_transferred := lt + (usb n).transferred,
             trace := tr ++ [Event.sleep 50, Event.bulk_out
               { endpoint := labpro.out_endpt_addr, offset := 64 * (i - 1),
                 numbytes := if i = numpackets ∧ len % 64 ≠ 0 then len % 64 else 64,
                 bytes := (real_command.drop (64 * (i - 1))).take
                   (if i = numpackets ∧ len % 64 ≠ 0 then len % 64 else 64),
                 status := (usb n).status }] ++ [Event.disconnect] })
    (h_abort : ∀ i e n lt tr, Inv i e n lt tr → i ≤ numpackets →
      (usb n).status ≠ LIBUSB_ERROR_NO_DEVICE → (usb n).status ≠ LIBUSB_SUCCESS → e + 1 > 5 →
      Post { retval := (usb n).status, length_transferred := lt + (usb n).transferred,
             trace := tr ++ [Event.sleep 50, Event.bulk_out
               { endpoint := labpro.out_endpt_addr, offset := 64 * (i - 1),
                 numbytes := if i = numpackets ∧ len % 64 ≠ 0 then len % 64 else 64,
                 bytes := (real_command.drop (64 * (i - 1))).take
                   (if i = numpackets ∧ len % 64 ≠ 0 then len % 64 else 64),
                 status := (usb n).status }] })
    (h_retry : ∀ i e n lt tr, Inv i e n lt tr → i ≤ numpackets →
      (usb n).status ≠ LIBUSB_ERROR_NO_DEVICE → (usb n).status ≠ LIBUSB_SUCCESS → ¬ e + 1 > 5 →
      Inv i (e + 1) (n + 1) (lt + (usb n).transferred)
        (tr ++ [Event.sleep 50, Event.bulk_out
               { endpoint := labpro.out_endpt_addr, offset := 64 * (i - 1),
                 numbytes := if i = numpackets ∧ len % 64 ≠ 0 then len % 64 else 64,
                 bytes := (real_command.drop (64 * (i - 1))).take
                   (if i = numpackets ∧ len % 64 ≠ 0 then len % 64 else 64),
                 status := (usb n).status }]))
    (h_next : ∀ i e n lt tr, Inv i e n lt tr → i ≤ numpackets →
      (usb n).status = LIBUSB_SUCCESS →
      Inv (i + 1) e (n + 1) (lt + (usb n).transferred)
        (tr ++ [Event.sleep 50, Event.bulk_out
               { endpoint := labpro.out_endpt_addr, offset := 64 * (i - 1),
                 numbytes := if i = numpackets ∧ len % 64 ≠ 0 then len % 64 else 64,
                 bytes := (real_command.drop (64 * (i - 1))).take
                   (if i = numpackets ∧ len % 64 ≠ 0 then len % 64 else 64),
                 status := (usb n).status }]))
    (h_done : ∀ i e n lt tr, Inv i e n lt tr → ¬ i ≤ numpackets →
      Post { retval := LABPRO_OK, length_transferred := lt, trace := tr })
    (i e n : Nat) (lt : Int) (tr : List Event) (h : Inv i e n lt tr) :
    Post (send_loop labpro usb real_command len numpackets i e n lt tr) := by
  generalize hm : (numpackets + 1 - i) + (6 - e) = m
  induction m using Nat.strong_induction_on generalizing i e n lt tr with
  | _ m ih =>
    rw [send_loop]
    by_cases hi : i ≤ numpackets
    · rw [if_pos hi]
      by_cases h1 : (usb n).status = LIBUSB_ERROR_NO_DEVICE
      · dsimp only
        rw [if_pos h1]
        exact h_absent i e n lt tr h hi h1
      · dsimp only
        rw [if_neg h1]
        by_cases h2 : (usb n).status = LIBUSB_SUCCESS
        · rw [if_neg (fun hc => hc h2)]
          exact ih _ (by omega) _ _ _ _ _ (h_next i e n lt tr h hi h2) rfl
        · rw [if_pos h2]
          by_cases h3 : e + 1 > 5
          · rw [if_pos h3]
            exact h_abort i e n lt tr h hi h1 h2 h3
          · rw [if_neg h3]
            exact ih _ (by omega) _ _ _ _ _ (h_retry i e n lt tr h hi h1 h2 h3) rfl
    · rw [if_neg hi]
      exact h_done i e n lt tr h hi

/-! ### The wire command -/

theorem c_str_ne_zero (s : List Nat) : ∀ b ∈ c_str s, b ≠ 0 := by
  intro b hb
  have := List.mem_takeWhile_imp hb
  simpa using this

theorem c_str_append_nul (a rest : List Nat) (ha : ∀ b ∈ a, b ≠ 0) :
    c_str (a ++ 0 :: rest) = a := by
  induction a with
  | nil => simp [c_str]
  | cons x xs ih =>
    have hx : x ≠ 0 := ha x (List.mem_cons_self _ _)
    have hxs : ∀ b ∈ xs, b ≠ 0 := fun b hb => ha b (List.mem_cons_of_mem _ hb)
    have ih2 := ih hxs
    simp only [c_str] at ih2
    simp [c_str, hx, ih2]

/-- The buffer `real_command` built by `strcpy` and `strcat`: the command text,
one carriage return, and the terminator. -/
theorem real_command_eq (command : List Nat) :
    strcat (strcpy command) [CR, 0] = c_str command ++ [CR, 0] := by
  have h1 : c_str (strcpy command) = c_str command := by
    unfold strcpy
    exact c_str_append_nul _ [] (c_str_ne_zero command)
  have h2 : c_str [CR, 0] = [CR] := by decide
  simp [strcat, h1, h2]

theorem strlen_real_command (command : List Nat) :
    strlen (strcat (strcpy command) [CR, 0]) = strlen command + 1 := by
  rw [real_command_eq]
  have h : c_str (c_str command ++ [CR, 0]) = c_str command ++ [CR] := by
    have := c_str_append_nul (c_str command ++ [CR]) [] (by
      intro b hb
      rcases List.mem_append.mp hb with h | h
      · exact c_str_ne_zero command b h
      · simp [CR] at h
        omega)
    simpa using this
  simp [strlen, h]

/-- On an open device with a successful allocation, `LabPro_send_raw` is its
loop started at `i = 1` on the wire command. -/
theorem send_raw_open (labpro : LabPro) (usb : Nat → OutXfer) (command : List Nat)
    (hopen : labpro.is_open = true) :
    LabPro_send_raw labpro true usb command =
      send_loop labpro usb (c_str command ++ [CR, 0]) (strlen command + 1)
        ((strlen command + 1 + 63) / 64) 1 0 0 0 [] := by
  unfold LabPro_send_raw
  simp only [hopen, Bool.not_true, Bool.false_eq_true, if_false]
  rw [strlen_real_command, real_command_eq]
  have : (if (strlen command + 1) % 64 > 0 then (strlen command + 1) / 64 + 1
      else (strlen command + 1) / 64) = (strlen command + 1 + 63) / 64 := by
    split <;> omega
  simp only [this]

/-- The length requested for packet `i` of `numpackets`. -/
theorem numbytes_cases (len numpackets i : Nat) (hnp : numpackets = (len + 63) / 64)
    (hi : 1 ≤ i) (hile : i ≤ numpackets) :
    (if i = numpackets ∧ len % 64 ≠ 0 then len % 64 else 64) = min 64 (len - 64 * (i - 1)) := by
  split <;> omega

/-- C1. On an open device, with a transport that never fails (and the
allocation of the wire buffer succeeding), `LabPro_send_raw` issues exactly
`ceil((L+1)/64)` bulk transfers for a command text of length `L`; every one
before the last requests 64 bytes and the last requests `(L+1) mod 64` bytes,
or 64 when that remainder is 0. -/
theorem send_raw_packet_framing (labpro : LabPro) (usb : Nat → OutXfer) (command : List Nat)
    (hopen : labpro.is_open = true) (hok : ∀ n, (usb n).status = LIBUSB_SUCCESS) :
    (bulk_calls (LabPro_send_raw labpro true usb command).trace).length
        = (strlen command + 1 + 63) / 64 ∧
    (bulk_calls (LabPro_send_raw labpro true usb command).trace).map (fun c => c.numbytes)
        = List.replicate ((strlen command + 1 + 63) / 64 - 1) 64 ++
          [if (strlen command + 1) % 64 = 0 then 64 else (strlen command + 1) % 64] := by
  rw [send_raw_open labpro usb command hopen]
  have key : (bulk_calls (send_loop labpro usb (c_str command ++ [CR, 0]) (strlen command + 1)
        ((strlen command + 1 + 63) / 64) 1 0 0 0 []).trace).map (fun c => c.numbytes)
        = List.replicate ((strlen command + 1 + 63) / 64 - 1) 64 ++
          [if (strlen command + 1) % 64 = 0 then 64 else (strlen command + 1) % 64] := by
    refine send_loop_rule labpro usb _ _ _
      (fun i _ _ _ tr => 1 ≤ i ∧ i ≤ (strlen command + 1 + 63) / 64 + 1 ∧
        (bulk_calls tr).map (fun c => c.numbytes) =
          if i ≤ (strlen command + 1 + 63) / 64 then List.replicate (i - 1) 64
          else List.replicate ((strlen command + 1 + 63) / 64 - 1) 64 ++
            [if (strlen command + 1) % 64 = 0 then 64 else (strlen command + 1) % 64])
      (fun r => (bulk_calls r.trace).map (fun c => c.numbytes)
        = List.replicate ((strlen command + 1 + 63) / 64 - 1) 64 ++
          [if (strlen command + 1) % 64 = 0 then 64 else (strlen command + 1) % 64])
      ?_ ?_ ?_ ?_ ?_ 1 0 0 0 [] ?_
    · intro i e n lt tr _ _ h
      rw [hok n] at h
      exact absurd h (by decide)
    · intro i e n lt tr _ _ _ h
      exact absurd (hok n) h
    · intro i e n lt tr _ _ _ h
      exact absurd (hok n) h
    · intro i e n lt tr hinv hi _
      obtain ⟨h1, _, h3⟩ := hinv
      rw [if_pos hi] at h3
      refine ⟨by omega, by omega, ?_⟩
      simp only [bulk_calls_append, bulk_calls, List.map_append, List.map_cons, List.map_nil, h3,
        List.append_nil]
      by_cases hlast : i = (strlen command + 1 + 63) / 64
      · have hn : ¬ (i + 1 ≤ (strlen command + 1 + 63) / 64) := by omega
        rw [if_neg hn]
        subst hlast
        congr 2
        split <;> split <;> omega
      · have hn : i + 1 ≤ (strlen command + 1 + 63) / 64 := by omega
        rw [if_pos hn, if_neg (fun hc => hlast hc.1)]
        simp only [Nat.add_sub_cancel]
        obtain ⟨k, rfl⟩ : ∃ k, i = k + 1 := ⟨i - 1, by omega⟩
        exact (List.replicate_succ' _ _).symm
    · intro i e n lt tr hinv hi
      obtain ⟨_, h2, h3⟩ := hinv
      rw [if_neg hi] at h3
      exact h3
    · refine ⟨le_refl _, by omega, ?_⟩
      have : 1 ≤ (strlen command + 1 + 63) / 64 := by omega
      simp [this]
  refine ⟨?_, key⟩
  have := congrArg List.length key
  simp only [List.length_map, List.length_append, List.length_replicate, List.length_singleton]
    at this
  omega

theorem wire_bytes_append (a b : List BulkCall) :
    wire_bytes (a ++ b) = wire_bytes a ++ wire_bytes b := by
  simp [wire_bytes]

theorem take_wire_command (text : List Nat) :
    (text ++ [CR, 0]).take (text.length + 1) = text ++ [CR] := by
  have h : text ++ [CR, 0] = (text ++ [CR]) ++ [0] := by simp
  rw [h, List.take_left' (by simp)]

/-- C2. On an open device, with a transport that never fails (and the
allocation of the wire buffer succeeding), the payloads of the transfers issued
by `LabPro_send_raw`, concatenated in transmission order, are the command text
followed by exactly one carriage return, and the call returns `LABPRO_OK`. -/
theorem send_raw_payloads (labpro : LabPro) (usb : Nat → OutXfer) (command : List Nat)
    (hopen : labpro.is_open = true) (hok : ∀ n, (usb n).status = LIBUSB_SUCCESS) :
    wire_bytes (bulk_calls (LabPro_send_raw labpro true usb command).trace)
        = c_str command ++ [CR] ∧
    (LabPro_send_raw labpro true usb command).retval = LABPRO_OK := by
  rw [send_raw_open labpro usb command hopen]
  have hlen : strlen command = (c_str command).length := rfl
  have key := send_loop_rule labpro usb (c_str command ++ [CR, 0]) (strlen command + 1)
      ((strlen command + 1 + 63) / 64)
      (fun i _ _ _ tr => 1 ≤ i ∧ i ≤ (strlen command + 1 + 63) / 64 + 1 ∧
        wire_bytes (bulk_calls tr) =
          (c_str command ++ [CR, 0]).take (min (64 * (i - 1)) (strlen command + 1)))
      (fun r => wire_bytes (bulk_calls r.trace) = c_str command ++ [CR] ∧ r.retval = LABPRO_OK)
      ?_ ?_ ?_ ?_ ?_ 1 0 0 0 [] ?_
  · exact key
  · intro i e n lt tr _ _ h
    rw [hok n] at h
    exact absurd h (by decide)
  · intro i e n lt tr _ _ _ h
    exact absurd (hok n) h
  · intro i e n lt tr _ _ _ h
    exact absurd (hok n) h
  · intro i e n lt tr hinv hi _
    obtain ⟨h1, _, h3⟩ := hinv
    refine ⟨by omega, by omega, ?_⟩
    simp only [bulk_calls_append, bulk_calls, wire_bytes_append, h3]
    rw [numbytes_cases (strlen command + 1) _ i rfl h1 hi]
    have e1 : min (64 * (i - 1)) (strlen command + 1) = 64 * (i - 1) := by omega
    have e2 : min (64 * (i + 1 - 1)) (strlen command + 1)
        = 64 * (i - 1) + min 64 (strlen command + 1 - 64 * (i - 1)) := by omega
    rw [e1, e2, List.take_add]
    simp [wire_bytes]
  · intro i e n lt tr hinv hi
    obtain ⟨_, h2, h3⟩ := hinv
    refine ⟨?_, rfl⟩
    have e1 : min (64 * (i - 1)) (strlen command + 1) = (c_str command).length + 1 := by
      rw [← hlen]
      omega
    rw [h3, e1]
    exact take_wire_command _
  · refine ⟨le_refl _, by omega, ?_⟩
    simp [wire_bytes]

/-! ### Retries -/

theorem failed_append (a b : List BulkCall) : failed (a ++ b) = failed a ++ failed b := by
  simp [failed]

theorem succeeded_append (a b : List BulkCall) :
    succeeded (a ++ b) = succeeded a ++ succeeded b := by
  simp [succeeded]

theorem failed_single_of_ne (c : BulkCall) (h : c.status ≠ LIBUSB_SUCCESS) :
    failed [c] = [c] := by
  simp [failed, h]

theorem failed_single_of_eq (c : BulkCall) (h : c.status = LIBUSB_SUCCESS) :
    failed [c] = [] := by
  simp [failed, h]

theorem succeeded_single_of_ne (c : BulkCall) (h : c.status ≠ LIBUSB_SUCCESS) :
    succeeded [c] = [] := by
  simp [succeeded, h]

theorem succeeded_single_of_eq (c : BulkCall) (h : c.status = LIBUSB_SUCCESS) :
    succeeded [c] = [c] := by
  simp [succeeded, h]

theorem send_loop_same_packet (labpro : LabPro) (usb : Nat → OutXfer) (rc : List Nat)
    (len np : Nat) :
    List.Chain' same_packet_after_failure
      (bulk_calls (send_loop labpro usb rc len np 1 0 0 0 []).trace) := by
  refine send_loop_rule labpro usb rc len np
    (fun i _ _ _ tr => List.Chain' same_packet_after_failure (bulk_calls tr) ∧
      ∀ c ∈ (bulk_calls tr).getLast?, c.status ≠ LIBUSB_SUCCESS →
        labpro.out_endpt_addr = c.endpoint ∧ 64 * (i - 1) = c.offset ∧
        (if i = np ∧ len % 64 ≠ 0 then len % 64 else 64) = c.numbytes ∧
        (rc.drop (64 * (i - 1))).take (if i = np ∧ len % 64 ≠ 0 then len % 64 else 64)
          = c.bytes)
    (fun r => List.Chain' same_packet_after_failure (bulk_calls r.trace))
    ?_ ?_ ?_ ?_ ?_ 1 0 0 0 [] ?_
  · intro i e n lt tr hinv _ _
    simp only [bulk_calls_append, bulk_calls, List.append_nil]
    rw [List.chain'_append]
    refine ⟨hinv.1, List.chain'_singleton _, ?_⟩
    intro x hx y hy hfail
    simp only [List.head?_cons, Option.mem_def, Option.some.injEq] at hy
    subst hy
    exact hinv.2 x hx hfail
  · intro i e n lt tr hinv _ _ _ _
    simp only [bulk_calls_append, bulk_calls]
    rw [List.chain'_append]
    refine ⟨hinv.1, List.chain'_singleton _, ?_⟩
    intro x hx y hy hfail
    simp only [List.head?_cons, Option.mem_def, Option.some.injEq] at hy
    subst hy
    exact hinv.2 x hx hfail
  · intro i e n lt tr hinv _ _ _ _
    simp only [bulk_calls_append, bulk_calls]
    refine ⟨?_, ?_⟩
    · rw [List.chain'_append]
      refine ⟨hinv.1, List.chain'_singleton _, ?_⟩
      intro x hx y hy hfail
      simp only [List.head?_cons, Option.mem_def, Option.some.injEq] at hy
      subst hy
      exact hinv.2 x hx hfail
    · intro c hc _
      rw [List.getLast?_concat] at hc
      simp only [Option.mem_def, Option.some.injEq] at hc
      subst hc
      exact ⟨rfl, rfl, rfl, rfl⟩
  · intro i e n lt tr hinv _ hs
    simp only [bulk_calls_append, bulk_calls]
    refine ⟨?_, ?_⟩
    · rw [List.chain'_append]
      refine ⟨hinv.1, List.chain'_singleton _, ?_⟩
      intro x hx y hy hfail
      simp only [List.head?_cons, Option.mem_def, Option.some.injEq] at hy
      subst hy
      exact hinv.2 x hx hfail
    · intro c hc hfail
      rw [List.getLast?_concat] at hc
      simp only [Option.mem_def, Option.some.injEq] at hc
      subst hc
      exact absurd hs hfail
  · intro i e n lt tr hinv _
    exact hinv.1
  · refine ⟨by simp, ?_⟩
    intro c hc
    simp at hc

theorem send_loop_sixth_failure (labpro : LabPro) (usb : Nat → OutXfer) (rc : List Nat)
    (len np : Nat) :
    (failed (bulk_calls (send_loop labpro usb rc len np 1 0 0 0 []).trace)).length ≤ 6 ∧
    ((failed (bulk_calls (send_loop labpro usb rc len np 1 0 0 0 []).trace)).length = 6 →
      ∃ c, (bulk_calls (send_loop labpro usb rc len np 1 0 0 0 []).trace).getLast? = some c ∧
        c.status ≠ LIBUSB_SUCCESS ∧
        (send_loop labpro usb rc len np 1 0 0 0 []).retval = c.status) ∧
    (∀ c, (bulk_calls (send_loop labpro usb rc len np 1 0 0 0 []).trace).getLast? = some c →
      c.status ≠ LIBUSB_SUCCESS →
      c.status = LIBUSB_ERROR_NO_DEVICE ∨
      (failed (bulk_calls (send_loop labpro usb rc len np 1 0 0 0 []).trace)).length = 6) := by
  refine send_loop_rule labpro usb rc len np
    (fun i e _ _ tr => (failed (bulk_calls tr)).length = e ∧ e ≤ 5 ∧
      ∀ c, (bulk_calls tr).getLast? = some c → c.status ≠ LIBUSB_SUCCESS → i ≤ np)
    (fun r => (failed (bulk_calls r.trace)).length ≤ 6 ∧
      ((failed (bulk_calls r.trace)).length = 6 →
        ∃ c, (bulk_calls r.trace).getLast? = some c ∧ c.status ≠ LIBUSB_SUCCESS ∧
          r.retval = c.status) ∧
      (∀ c, (bulk_calls r.trace).getLast? = some c → c.status ≠ LIBUSB_SUCCESS →
        c.status = LIBUSB_ERROR_NO_DEVICE ∨ (failed (bulk_calls r.trace)).length = 6))
    ?_ ?_ ?_ ?_ ?_ 1 0 0 0 [] ?_
  · intro i e n lt tr hinv _ hs
    simp only [bulk_calls_append, bulk_calls, List.append_nil, failed_append, List.length_append]
    have hne : (usb n).status ≠ LIBUSB_SUCCESS := by
      rw [hs]
      decide
    rw [failed_single_of_ne _ hne]
    refine ⟨by simp; omega, fun _ => ⟨_, List.getLast?_concat _, hne, hs.symm⟩, ?_⟩
    intro c hc _
    rw [List.getLast?_concat] at hc
    cases hc
    exact Or.inl hs
  · intro i e n lt tr hinv _ _ hs _
    simp only [bulk_calls_append, bulk_calls, failed_append, List.length_append]
    rw [failed_single_of_ne _ hs]
    refine ⟨by simp; omega, fun _ => ⟨_, List.getLast?_concat _, hs, rfl⟩, ?_⟩
    intro c _ _
    refine Or.inr ?_
    simp only [List.length_singleton]
    omega
  · intro i e n lt tr hinv hi _ hs _
    simp only [bulk_calls_append, bulk_calls, failed_append, List.length_append]
    rw [failed_single_of_ne _ hs]
    exact ⟨by simp; omega, by omega, fun _ _ _ => hi⟩
  · intro i e n lt tr hinv _ hs
    simp only [bulk_calls_append, bulk_calls, failed_append, List.length_append]
    rw [failed_single_of_eq _ hs]
    refine ⟨by simpa using hinv.1, hinv.2.1, ?_⟩
    intro c hc hne
    rw [List.getLast?_concat] at hc
    cases hc
    exact absurd hs hne
  · intro i e n lt tr hinv hi
    obtain ⟨h1, h2, h3⟩ := hinv
    dsimp only
    refine ⟨by omega, fun h => by omega, ?_⟩
    intro c hc hne
    exact absurd (h3 c hc hne) hi
  · simp [failed]

theorem send_loop_few_failures (labpro : LabPro) (usb : Nat → OutXfer) (text : List Nat) :
    (failed (bulk_calls (send_loop labpro usb (text ++ [CR, 0]) (text.length + 1)
        ((text.length + 1 + 63) / 64) 1 0 0 0 []).trace)).length ≤ 5 →
    (∀ c ∈ bulk_calls (send_loop labpro usb (text ++ [CR, 0]) (text.length + 1)
        ((text.length + 1 + 63) / 64) 1 0 0 0 []).trace, c.status ≠ LIBUSB_ERROR_NO_DEVICE) →
    (send_loop labpro usb (text ++ [CR, 0]) (text.length + 1)
        ((text.length + 1 + 63) / 64) 1 0 0 0 []).retval = LABPRO_OK ∧
    wire_bytes (succeeded (bulk_calls (send_loop labpro usb (text ++ [CR, 0]) (text.length + 1)
        ((text.length + 1 + 63) / 64) 1 0 0 0 []).trace)) = text ++ [CR] := by
  refine send_loop_rule labpro usb (text ++ [CR, 0]) (text.length + 1)
    ((text.length + 1 + 63) / 64)
    (fun i e _ _ tr => (failed (bulk_calls tr)).length = e ∧ 1 ≤ i ∧
      i ≤ (text.length + 1 + 63) / 64 + 1 ∧
      wire_bytes (succeeded (bulk_calls tr)) =
        (text ++ [CR, 0]).take (min (64 * (i - 1)) (text.length + 1)))
    (fun r => (failed (bulk_calls r.trace)).length ≤ 5 →
      (∀ c ∈ bulk_calls r.trace, c.status ≠ LIBUSB_ERROR_NO_DEVICE) →
      r.retval = LABPRO_OK ∧ wire_bytes (succeeded (bulk_calls r.trace)) = text ++ [CR])
    ?_ ?_ ?_ ?_ ?_ 1 0 0 0 [] ?_
  · intro i e n lt tr _ _ hs _ hall
    simp only [bulk_calls_append, bulk_calls, List.append_nil] at hall
    exact absurd hs (hall _ (List.mem_append_right _ (List.mem_singleton_self _)))
  · intro i e n lt tr hinv _ _ hs he hle
    simp only [bulk_calls_append, bulk_calls, failed_append, List.length_append] at hle
    rw [failed_single_of_ne _ hs] at hle
    simp only [List.length_singleton] at hle
    omega
  · intro i e n lt tr hinv hi _ hs _
    obtain ⟨h1, h2, h3, h4⟩ := hinv
    simp only [bulk_calls_append, bulk_calls, failed_append, succeeded_append,
      List.length_append]
    rw [failed_single_of_ne _ hs, succeeded_single_of_ne _ hs]
    refine ⟨by simp [h1], h2, h3, ?_⟩
    simpa using h4
  · intro i e n lt tr hinv hi hs
    obtain ⟨h1, h2, h3, h4⟩ := hinv
    simp only [bulk_calls_append, bulk_calls, failed_append, succeeded_append,
      List.length_append]
    rw [failed_single_of_eq _ hs, succeeded_single_of_eq _ hs]
    refine ⟨by simp [h1], by omega, by omega, ?_⟩
    rw [wire_bytes_append, h4, numbytes_cases (text.length + 1) _ i rfl h2 hi]
    have e1 : min (64 * (i - 1)) (text.length + 1) = 64 * (i - 1) := by omega
    have e2 : min (64 * (i + 1 - 1)) (text.length + 1)
        = 64 * (i - 1) + min 64 (text.length + 1 - 64 * (i - 1)) := by omega
    rw [e1, e2, List.take_add]
    simp [wire_bytes]
  · intro i e n lt tr hinv hi _ _
    obtain ⟨_, h2, h3, h4⟩ := hinv
    refine ⟨rfl, ?_⟩
    have e1 : min (64 * (i - 1)) (text.length + 1) = text.length + 1 := by omega
    dsimp only
    rw [h4, e1]
    exact take_wire_command _
  · refine ⟨by simp [failed], le_refl _, by omega, ?_⟩
    simp [wire_bytes, succeeded]

/-- C3. Retry policy of `LabPro_send_raw` on an open device (the allocation of
the wire buffer succeeding), read off the log of its bulk transfers:
after a transfer that did not succeed, the next transfer of the call (if the
call makes one) carries the same packet, with the same offset, length and bytes;
a call whose log shows at most five failed transfers (in particular exactly
five), none of them device-absent, returns `LABPRO_OK` and the packets that
went through are, in order, the whole wire command;
a log never shows more than six failed transfers, and when it shows six the
sixth is the last transfer of the call and its status is the return value;
and a call ends on a failed transfer only if that transfer is device-absent or
is the sixth failure, so that every other failed transfer is followed by its
retransmission. -/
theorem send_raw_retry_policy (labpro : LabPro) (usb : Nat → OutXfer) (command : List Nat)
    (hopen : labpro.is_open = true) :
    List.Chain' same_packet_after_failure
      (bulk_calls (LabPro_send_raw labpro true usb command).trace) ∧
    ((failed (bulk_calls (LabPro_send_raw labpro true usb command).trace)).length ≤ 5 →
      (∀ c ∈ bulk_calls (LabPro_send_raw labpro true usb command).trace,
        c.status ≠ LIBUSB_ERROR_NO_DEVICE) →
      (LabPro_send_raw labpro true usb command).retval = LABPRO_OK ∧
      wire_bytes (succeeded (bulk_calls (LabPro_send_raw labpro true usb command).trace))
        = c_str command ++ [CR]) ∧
    (failed (bulk_calls (LabPro_send_raw labpro true usb command).trace)).length ≤ 6 ∧
    ((failed (bulk_calls (LabPro_send_raw labpro true usb command).trace)).length = 6 →
      ∃ c, (bulk_calls (LabPro_send_raw labpro true usb command).trace).getLast? = some c ∧
        c.status ≠ LIBUSB_SUCCESS ∧
        (LabPro_send_raw labpro true usb command).retval = c.status) ∧
    (∀ c, (bulk_calls (LabPro_send_raw labpro true usb command).trace).getLast? = some c →
      c.status ≠ LIBUSB_SUCCESS →
      c.status = LIBUSB_ERROR_NO_DEVICE ∨
      (failed (bulk_calls (LabPro_send_raw labpro true usb command).trace)).length = 6) := by
  rw [send_raw_open labpro usb command hopen]
  exact ⟨send_loop_same_packet _ _ _ _ _, send_loop_few_failures labpro usb (c_str command),
    send_loop_sixth_failure _ _ _ _ _⟩

/-! ### The read loop -/

/-- Hoare-style rule for the loop of `LabPro_read_raw`: an invariant kept by
every iteration that goes round again, and a postcondition established at each
of the six exits, hold of every result the loop produces. -/
theorem read_loop_rule (labpro : LabPro) (usb : Nat → InXfer) (heap : Heap)
    (Inv : Nat → Nat → Nat → Int → List Nat → List Event → Prop) (Post : ReadResult → Prop)
    (h_absent : ∀ np e n len data tr, Inv np e n len data tr →
      (usb n).status = LIBUSB_ERROR_NO_DEVICE →
      Post { retval := LIBUSB_ERROR_NO_DEVICE, length := len,
             string := some (memset_frame (write_at data (64 * (np - 1)) ((usb n).data.take 64))
               (64 * (np - 1))),
             trace := tr ++ [Event.sleep 50, Event.bulk_in (read_call labpro (usb n) np)]
               ++ [Event.disconnect] })
    (h_abort : ∀ np e n len data tr, Inv np e n len data tr →
      (usb n).status ≠ LIBUSB_ERROR_NO_DEVICE → (usb n).status ≠ LIBUSB_SUCCESS →
      (usb n).status ≠ LIBUSB_ERROR_TIMEOUT → e + 1 > 5 →
      Post { retval := (usb n).status, length := len,
             string := some (memset_frame (write_at data (64 * (np - 1)) ((usb n).data.take 64))
               (64 * (np - 1))),
             trace := tr ++ [Event.sleep 50, Event.bulk_in (read_call labpro (usb n) np)] })
    (h_error : ∀ np e n len data tr, Inv np e n len data tr →
      (usb n).status ≠ LIBUSB_ERROR_NO_DEVICE → (usb n).status ≠ LIBUSB_SUCCESS →
      (usb n).status ≠ LIBUSB_ERROR_TIMEOUT → ¬ e + 1 > 5 →
      Post { retval := LABPRO_OK, length := len,
             string := some (write_at data (64 * (np - 1)) ((usb n).data.take 64)),
             trace := tr ++ [Event.sleep 50, Event.bulk_in (read_call labpro (usb n) np)] })
    (h_timeout : ∀ np e n len data tr, Inv np e n len data tr →
      (usb n).status = LIBUSB_ERROR_TIMEOUT →
      Post { retval := LABPRO_OK, length := len,
             string := some (memset_frame (write_at data (64 * (np - 1)) ((usb n).data.take 64))
               (64 * (np - 1))),
             trace := tr ++ [Event.sleep 50, Event.bulk_in (read_call labpro (usb n) np)] })
    (h_next : ∀ np e n len data tr, Inv np e n len data tr →
      (usb n).status = LIBUSB_SUCCESS → heap.realloc_ok (np + 1) = true →
      ((((usb n).data.take 64).length : Nat) : Int) = 64 →
      Inv (np + 1) e (n + 1) (len + (((usb n).data.take 64).length : Nat))
        (write_at data (64 * (np - 1)) ((usb n).data.take 64) ++ fresh_frame heap np)
        (tr ++ [Event.sleep 50, Event.bulk_in (read_call labpro (usb n) np)]))
    (h_short : ∀ np e n len data tr, Inv np e n len data tr →
      (usb n).status = LIBUSB_SUCCESS → heap.realloc_ok (np + 1) = true →
      ((((usb n).data.take 64).length : Nat) : Int) ≠ 64 →
      Post { retval := LABPRO_OK, length := len + (((usb n).data.take 64).length : Nat),
             string := some (write_at data (64 * (np - 1)) ((usb n).data.take 64)
               ++ fresh_frame heap np),
             trace := tr ++ [Event.sleep 50, Event.bulk_in (read_call labpro (usb n) np)] })
    (h_nomem : ∀ np e n len data tr, Inv np e n len data tr →
      (usb n).status = LIBUSB_SUCCESS → heap.realloc_ok (np + 1) = false →
      Post { retval := LABPRO_ERR_NO_MEM, length := len + (((usb n).data.take 64).length : Nat),
             string := some (write_at data (64 * (np - 1)) ((usb n).data.take 64)),
             trace := tr ++ [Event.sleep 50, Event.bulk_in (read_call labpro (usb n) np)] })
    (fuel np e n : Nat) (len : Int) (data : List Nat) (tr : List Event) (r : ReadResult)
    (h : Inv np e n len data tr) (hr : read_loop labpro usb heap fuel np e n len data tr = some r) :
    Post r := by
  induction fuel generalizing np e n len data tr with
  | zero => simp [read_loop] at hr
  | succ fuel ih =>
    rw [read_loop] at hr
    by_cases h1 : (usb n).status = LIBUSB_ERROR_NO_DEVICE
    · rw [if_pos h1] at hr
      cases hr
      exact h_absent np e n len data tr h h1
    · rw [if_neg h1] at hr
      by_cases h2 : (usb n).status = LIBUSB_SUCCESS
      · have hne : ¬ ((usb n).status ≠ LIBUSB_SUCCESS ∧ (usb n).status ≠ LIBUSB_ERROR_TIMEOUT) :=
          fun hc => hc.1 h2
        have hnt : ¬ (usb n).status = LIBUSB_ERROR_TIMEOUT := by
          rw [h2]
          decide
        rw [if_neg hne, if_neg hnt] at hr
        by_cases h3 : heap.realloc_ok (np + 1) = true
        · rw [if_pos h3] at hr
          by_cases h4 : ((((usb n).data.take 64).length : Nat) : Int) = 64
          · rw [if_pos ⟨h4, h2⟩] at hr
            exact ih _ _ _ _ _ _ (h_next np e n len data tr h h2 h3 h4) hr
          · rw [if_neg (fun hc => h4 hc.1)] at hr
            cases hr
            exact h_short np e n len data tr h h2 h3 h4
        · rw [if_neg h3] at hr
          cases hr
          exact h_nomem np e n len data tr h h2 (by simpa using h3)
      · by_cases h5 : (usb n).status = LIBUSB_ERROR_TIMEOUT
        · have hne : ¬ ((usb n).status ≠ LIBUSB_SUCCESS ∧
              (usb n).status ≠ LIBUSB_ERROR_TIMEOUT) := fun hc => hc.2 h5
          rw [if_neg hne, if_pos h5] at hr
          cases hr
          exact h_timeout np e n len data tr h h5
        · rw [if_pos ⟨h2, h5⟩] at hr
          by_cases h6 : e + 1 > 5
          · rw [if_pos h6] at hr
            cases hr
            exact h_abort np e n len data tr h h1 h2 h5 h6
          · rw [if_neg h6, if_neg (fun hc => h2 hc.2)] at hr
            cases hr
            exact h_error np e n len data tr h h1 h2 h5 h6

theorem write_at_append (P T d : List Nat) :
    write_at (P ++ T) P.length d = P ++ d ++ T.drop d.length := by
  simp [write_at, List.take_append_eq_append_take, List.drop_append_eq_append_drop]

theorem memset_frame_append (P X : List Nat) (hX : X.length = 64) :
    memset_frame (P ++ X) P.length = P ++ List.replicate 64 0 := by
  unfold memset_frame
  rw [write_at_append]
  simp [hX]

theorem frames_upto_length (usb : Nat → InXfer) (k : Nat)
    (hfull : ∀ m < k, ((usb m).data.take 64).length = 64) :
    (frames_upto usb k).length = 64 * k := by
  induction k with
  | zero => simp [frames_upto]
  | succ k ih =>
    have h1 := ih (fun m hm => hfull m (Nat.lt_succ_of_lt hm))
    have h2 := hfull k (Nat.lt_succ_self k)
    unfold frames_upto at h1 ⊢
    rw [List.range_succ, List.map_append, List.flatten_append, List.length_append, h1]
    simp only [List.map_cons, List.map_nil, List.flatten_cons, List.flatten_nil,
      List.append_nil, h2]
    omega

theorem open_frame_length (heap : Heap) (k : Nat) : (open_frame heap k).length = 64 := by
  unfold open_frame fresh_frame
  split <;> simp

/-- A read whose first `k` transfers succeed with a full frame, the buffer
growing each time, reaches transfer `k` with the `k` frames in the buffer. -/
theorem read_loop_full_frames (labpro : LabPro) (usb : Nat → InXfer) (heap : Heap) (k : Nat)
    (hfull : ∀ m < k, (usb m).status = LIBUSB_SUCCESS ∧ ((usb m).data.take 64).length = 64)
    (hre : ∀ m < k, heap.realloc_ok (m + 2) = true) (fuel : Nat) :
    read_loop labpro usb heap (fuel + k) 1 0 0 0 (List.replicate 64 0) [] =
      read_loop labpro usb heap fuel (k + 1) 0 k (64 * (k : Int))
        (frames_upto usb k ++ open_frame heap k) (log_upto labpro usb k) := by
  induction k generalizing fuel with
  | zero => simp [frames_upto, log_upto, open_frame]
  | succ k ih =>
    have hfull1 : ∀ m < k, (usb m).status = LIBUSB_SUCCESS ∧
        ((usb m).data.take 64).length = 64 := fun m hm => hfull m (Nat.lt_succ_of_lt hm)
    have h1 := ih hfull1 (fun m hm => hre m (Nat.lt_succ_of_lt hm)) (fuel + 1)
    have e : fuel + (k + 1) = fuel + 1 + k := by omega
    rw [e, h1, read_loop]
    obtain ⟨hs, hl⟩ := hfull k (Nat.lt_succ_self k)
    have hlen := frames_upto_length usb k (fun m hm => (hfull1 m hm).2)
    have hnd : ¬ (usb k).status = LIBUSB_ERROR_NO_DEVICE := by
      rw [hs]
      decide
    have hnt : ¬ (usb k).status = LIBUSB_ERROR_TIMEOUT := by
      rw [hs]
      decide
    have hoff : 64 * (k + 1 - 1) = (frames_upto usb k).length := by
      rw [hlen]
      simp
    have hcond : ((((usb k).data.take 64).length : Nat) : Int) = 64 ∧
        (usb k).status = LIBUSB_SUCCESS := ⟨by rw [hl]; rfl, hs⟩
    rw [if_neg hnd, if_neg (fun hc => hc.1 hs), if_neg hnt, if_pos (hre k (Nat.lt_succ_self k)),
      if_pos hcond, hoff, write_at_append, hl]
    have hd : (open_frame heap k).drop 64 = [] := by
      apply List.drop_of_length_le
      rw [open_frame_length]
    have hf : frames_upto usb (k + 1) = frames_upto usb k ++ (usb k).data.take 64 := by
      simp [frames_upto, List.range_succ]
    have hg : log_upto labpro usb (k + 1) = log_upto labpro usb k ++
        [Event.sleep 50, Event.bulk_in (read_call labpro (usb k) (k + 1))] := by
      simp [log_upto, List.range_succ]
    have ho : open_frame heap (k + 1) = fresh_frame heap (k + 1) := by
      simp [open_frame]
    rw [hd, hf, hg, ho, List.append_nil]
    congr 1

theorem frames_upto_eq (usb : Nat → InXfer) (k : Nat)
    (hfull : ∀ m < k, (usb m).data.length = 64) :
    frames_upto usb k = ((List.range k).map (fun m => (usb m).data)).flatten := by
  unfold frames_upto
  congr 1
  apply List.map_congr_left
  intro m hm
  have := hfull m (List.mem_range.mp hm)
  exact List.take_of_length_le (by omega)

theorem bulk_calls_log_upto (labpro : LabPro) (usb : Nat → InXfer) (k : Nat) :
    bulk_calls (log_upto labpro usb k) =
      (List.range k).map (fun m => read_call labpro (usb m) (m + 1)) := by
  induction k with
  | zero => simp [log_upto]
  | succ k ih =>
    have hg : log_upto labpro usb (k + 1) = log_upto labpro usb k ++
        [Event.sleep 50, Event.bulk_in (read_call labpro (usb k) (k + 1))] := by
      simp [log_upto, List.range_succ]
    rw [hg, bulk_calls_append, ih, List.range_succ, List.map_append]
    simp [bulk_calls]

theorem disconnects_log_upto (labpro : LabPro) (usb : Nat → InXfer) (k : Nat) :
    disconnects (log_upto labpro usb k) = 0 := by
  induction k with
  | zero => simp [log_upto, disconnects]
  | succ k ih =>
    have hg : log_upto labpro usb (k + 1) = log_upto labpro usb k ++
        [Event.sleep 50, Event.bulk_in (read_call labpro (usb k) (k + 1))] := by
      simp [log_upto, List.range_succ]
    rw [hg, disconnects_append, ih]
    simp [disconnects]

/-- The frame of transfer `k` after the transfer stored its bytes and the frame
was cleared with `memset`. -/
theorem memset_after_write (P T d : List Nat) (k : Nat) (hP : P.length = 64 * k)
    (hT : T.length = 64) (hd : d.length ≤ 64) :
    memset_frame (write_at (P ++ T) (64 * (k + 1 - 1)) d) (64 * (k + 1 - 1))
      = P ++ List.replicate 64 0 := by
  have hoff : 64 * (k + 1 - 1) = P.length := by
    rw [hP]
    simp
  rw [hoff, write_at_append, List.append_assoc]
  apply memset_frame_append
  simp only [List.length_append, List.length_drop, hT]
  omega

/-- C7. On an open device (allocations succeeding), when the transport
delivers `k` full 64-byte frames and then a timed-out frame, `LabPro_read_raw`
returns (any loop budget above `k` suffices) with `LABPRO_OK`, reports length
`64 * k`, and hands back a buffer of `k + 1` frames: the `k` frames in arrival
order followed by a frame of zero bytes, so that the byte after the data is NUL;
`k + 1` transfers were made. -/
theorem read_raw_ends_on_timeout (labpro : LabPro) (heap : Heap) (usb : Nat → InXfer)
    (k fuel : Nat) (hopen : labpro.is_open = true) (hcalloc : heap.calloc_ok = true)
    (hre : ∀ m < k, heap.realloc_ok (m + 2) = true)
    (hfull : ∀ m < k, (usb m).status = LIBUSB_SUCCESS ∧ (usb m).data.length = 64)
    (hto : (usb k).status = LIBUSB_ERROR_TIMEOUT) (hfuel : k < fuel) :
    ∃ r, LabPro_read_raw fuel labpro heap usb = some r ∧ r.retval = LABPRO_OK ∧
      r.length = 64 * (k : Int) ∧
      r.string = some (((List.range k).map (fun m => (usb m).data)).flatten
        ++ List.replicate 64 0) ∧
      (((List.range k).map (fun m => (usb m).data)).flatten
        ++ List.replicate 64 0)[64 * k]? = some 0 ∧
      (bulk_calls r.trace).length = k + 1 := by
  obtain ⟨f, rfl⟩ : ∃ f, fuel = f + 1 + k := ⟨fuel - 1 - k, by omega⟩
  have hfull2 : ∀ m < k, (usb m).status = LIBUSB_SUCCESS ∧
      ((usb m).data.take 64).length = 64 := by
    intro m hm
    obtain ⟨h1, h2⟩ := hfull m hm
    exact ⟨h1, by simp [h2]⟩
  have hlen := frames_upto_length usb k (fun m hm => (hfull2 m hm).2)
  have hnd : ¬ (usb k).status = LIBUSB_ERROR_NO_DEVICE := by
    rw [hto]
    decide
  unfold LabPro_read_raw
  simp only [hopen, hcalloc, Bool.not_true, Bool.false_eq_true, if_false]
  rw [read_loop_full_frames labpro usb heap k hfull2 hre (f + 1), read_loop]
  rw [if_neg hnd, if_neg (fun hc => hc.2 hto), if_pos hto]
  rw [memset_after_write _ _ _ k hlen (open_frame_length heap k) (List.length_take_le _ _)]
  rw [frames_upto_eq usb k (fun m hm => (hfull m hm).2)] at hlen ⊢
  refine ⟨_, rfl, rfl, rfl, rfl, ?_, ?_⟩
  · rw [List.getElem?_append_right (by omega), hlen]
    simp
  · simp [bulk_calls_append, bulk_calls_log_upto, bulk_calls]

/-- C9. On an open device, when the transport delivers `k` full frames and
one more successful frame (so `k + 1 ≥ 1` frames were read) and the growth of
the buffer that follows fails, `LabPro_read_raw` stops reading and returns
`LABPRO_ERR_NO_MEM`, which differs from `LABPRO_OK`; the reported length is the
number of bytes received, the buffer handed back starts with exactly these
bytes in arrival order, and when the last frame was full too it holds nothing
else. -/
theorem read_raw_realloc_failure (labpro : LabPro) (heap : Heap) (usb : Nat → InXfer)
    (k fuel : Nat) (hopen : labpro.is_open = true) (hcalloc : heap.calloc_ok = true)
    (hre : ∀ m < k, heap.realloc_ok (m + 2) = true)
    (hfail : heap.realloc_ok (k + 2) = false)
    (hfull : ∀ m < k, (usb m).status = LIBUSB_SUCCESS ∧ (usb m).data.length = 64)
    (hlast : (usb k).status = LIBUSB_SUCCESS) (hfuel : k < fuel) :
    ∃ r buf, LabPro_read_raw fuel labpro heap usb = some r ∧
      r.retval = LABPRO_ERR_NO_MEM ∧ LABPRO_ERR_NO_MEM ≠ LABPRO_OK ∧
      r.length = ((frames_upto usb (k + 1)).length : Int) ∧
      r.string = some buf ∧
      buf.take (frames_upto usb (k + 1)).length = frames_upto usb (k + 1) ∧
      ((usb k).data.length = 64 → buf = frames_upto usb (k + 1)) ∧
      (bulk_calls r.trace).length = k + 1 := by
  obtain ⟨f, rfl⟩ : ∃ f, fuel = f + 1 + k := ⟨fuel - 1 - k, by omega⟩
  have hfull2 : ∀ m < k, (usb m).status = LIBUSB_SUCCESS ∧
      ((usb m).data.take 64).length = 64 := by
    intro m hm
    obtain ⟨h1, h2⟩ := hfull m hm
    exact ⟨h1, by simp [h2]⟩
  have hlen := frames_upto_length usb k (fun m hm => (hfull2 m hm).2)
  have hnd : ¬ (usb k).status = LIBUSB_ERROR_NO_DEVICE := by
    rw [hlast]
    decide
  have hnt : ¬ (usb k).status = LIBUSB_ERROR_TIMEOUT := by
    rw [hlast]
    decide
  have hoff : 64 * (k + 1 - 1) = (frames_upto usb k).length := by
    rw [hlen]
    simp
  have hf : frames_upto usb (k + 1) = frames_upto usb k ++ (usb k).data.take 64 := by
    simp [frames_upto, List.range_succ]
  have hnre : ¬ heap.realloc_ok (k + 1 + 1) = true := by
    rw [hfail]
    decide
  unfold LabPro_read_raw
  simp only [hopen, hcalloc, Bool.not_true, Bool.false_eq_true, if_false]
  rw [read_loop_full_frames labpro usb heap k hfull2 hre (f + 1), read_loop]
  rw [if_neg hnd, if_neg (fun hc => hc.1 hlast), if_neg hnt, if_neg hnre, hoff, write_at_append]
  refine ⟨_, _, rfl, rfl, by decide, ?_, rfl, ?_, ?_, ?_⟩
  · rw [hf, List.length_append, hlen]
    push_cast
    rfl
  · rw [hf]
    exact List.take_left' rfl
  · intro h64
    have h1 : ((usb k).data.take 64).length = 64 := by simp [h64]
    have hd : (open_frame heap k).drop ((usb k).data.take 64).length = [] := by
      apply List.drop_of_length_le
      rw [open_frame_length, h1]
    rw [hd, hf, List.append_nil]
  · simp [bulk_calls_append, bulk_calls_log_upto, bulk_calls]

/-! ### Device absent -/

theorem no_absent_nil : no_absent [] := by
  simp [no_absent, disconnects]

theorem no_absent_step (tr : List Event) (ev : Event) (c : BulkCall) (h : no_absent tr)
    (hev : bulk_calls [ev] = [c]) (hd : disconnects [ev] = 0)
    (hc : c.status ≠ LIBUSB_ERROR_NO_DEVICE) :
    no_absent (tr ++ [Event.sleep 50, ev]) := by
  have e : tr ++ [Event.sleep 50, ev] = tr ++ [Event.sleep 50] ++ [ev] := by simp
  refine ⟨?_, ?_⟩
  · intro c1 hc1
    rw [e, bulk_calls_append, bulk_calls_append, hev] at hc1
    simp only [bulk_calls, List.append_nil, List.mem_append, List.mem_singleton] at hc1
    rcases hc1 with h1 | h1
    · exact h.1 c1 h1
    · rw [h1]
      exact hc
  · rw [e, disconnects_append, disconnects_append, hd, h.2]
    simp [disconnects]

theorem absent_handled_of_no_absent (rv : Int) (tr : List Event) (h : no_absent tr) :
    absent_handled rv tr := by
  refine ⟨fun c hc => h.1 c (List.mem_of_mem_dropLast hc), ?_⟩
  intro c hc habs
  exact absurd habs (h.1 c (List.mem_of_getLast?_eq_some hc))

theorem absent_handled_exit (tr : List Event) (ev : Event) (c : BulkCall) (h : no_absent tr)
    (hev : bulk_calls [ev] = [c]) (hd : disconnects [ev] = 0) :
    absent_handled LIBUSB_ERROR_NO_DEVICE (tr ++ [Event.sleep 50, ev] ++ [Event.disconnect]) := by
  have e : tr ++ [Event.sleep 50, ev] ++ [Event.disconnect]
      = tr ++ [Event.sleep 50] ++ [ev] ++ [Event.disconnect] := by simp
  have hcalls : bulk_calls (tr ++ [Event.sleep 50, ev] ++ [Event.disconnect])
      = bulk_calls tr ++ [c] := by
    rw [e, bulk_calls_append, bulk_calls_append, bulk_calls_append, hev]
    simp [bulk_calls]
  refine ⟨?_, ?_⟩
  · intro c1 hc1
    rw [hcalls, List.dropLast_concat] at hc1
    exact h.1 c1 hc1
  · intro c1 _ _
    refine ⟨?_, List.getLast?_concat _, rfl⟩
    rw [e, disconnects_append, disconnects_append, disconnects_append, hd, h.2]
    simp [disconnects]

theorem send_loop_absent (labpro : LabPro) (usb : Nat → OutXfer) (rc : List Nat)
    (len np : Nat) :
    absent_handled (send_loop labpro usb rc len np 1 0 0 0 []).retval
      (send_loop labpro usb rc len np 1 0 0 0 []).trace := by
  refine send_loop_rule labpro usb rc len np
    (fun _ _ _ _ tr => no_absent tr) (fun r => absent_handled r.retval r.trace)
    ?_ ?_ ?_ ?_ ?_ 1 0 0 0 [] no_absent_nil
  · intro i e n lt tr hinv _ _
    exact absent_handled_exit tr _ _ hinv rfl rfl
  · intro i e n lt tr hinv _ hs _ _
    exact absent_handled_of_no_absent _ _ (no_absent_step tr _ _ hinv rfl rfl hs)
  · intro i e n lt tr hinv _ hs _ _
    exact no_absent_step tr _ _ hinv rfl rfl hs
  · intro i e n lt tr hinv _ hs
    refine no_absent_step tr _ _ hinv rfl rfl ?_
    dsimp only
    rw [hs]
    decide
  · intro i e n lt tr hinv _
    exact absent_handled_of_no_absent _ _ hinv

theorem read_loop_absent (labpro : LabPro) (usb : Nat → InXfer) (heap : Heap) (fuel : Nat)
    (r : ReadResult)
    (hr : read_loop labpro usb heap fuel 1 0 0 0 (List.replicate 64 0) [] = some r) :
    absent_handled r.retval r.trace := by
  have succ_ne : ∀ n, (usb n).status = LIBUSB_SUCCESS →
      (usb n).status ≠ LIBUSB_ERROR_NO_DEVICE := by
    intro n h
    rw [h]
    decide
  refine read_loop_rule labpro usb heap
    (fun _ _ _ _ _ tr => no_absent tr) (fun r => absent_handled r.retval r.trace)
    ?_ ?_ ?_ ?_ ?_ ?_ ?_ fuel 1 0 0 0 (List.replicate 64 0) [] r no_absent_nil hr
  · intro np e n len data tr hinv _
    exact absent_handled_exit tr _ _ hinv rfl rfl
  · intro np e n len data tr hinv hs _ _ _
    exact absent_handled_of_no_absent _ _ (no_absent_step tr _ _ hinv rfl rfl hs)
  · intro np e n len data tr hinv hs _ _ _
    exact absent_handled_of_no_absent _ _ (no_absent_step tr _ _ hinv rfl rfl hs)
  · intro np e n len data tr hinv hs
    refine absent_handled_of_no_absent _ _ (no_absent_step tr _ _ hinv rfl rfl ?_)
    show (usb n).status ≠ LIBUSB_ERROR_NO_DEVICE
    rw [hs]
    decide
  · intro np e n len data tr hinv hs _ _
    exact no_absent_step tr _ _ hinv rfl rfl (succ_ne n hs)
  · intro np e n len data tr hinv hs _ _
    exact absent_handled_of_no_absent _ _ (no_absent_step tr _ _ hinv rfl rfl (succ_ne n hs))
  · intro np e n len data tr hinv hs _
    exact absent_handled_of_no_absent _ _ (no_absent_step tr _ _ hinv rfl rfl (succ_ne n hs))

/-- C5. A device-absent transfer ends `LabPro_send_raw` and `LabPro_read_raw`
at once. In the call log of every send, and of every read that returned, a
transfer that returned `LIBUSB_ERROR_NO_DEVICE` can only be the last transfer
(whatever failed before it); after it the disconnect hook was invoked exactly
once, as the last action of the call, and the call returned
`LIBUSB_ERROR_NO_DEVICE`. And a read on an open device does return in that
case: when transfer `n` reports device-absent after `n` full frames, every loop
budget above `n` yields that result after `n + 1` transfers. -/
theorem device_absent_aborts (labpro : LabPro) :
    (∀ (malloc_ok : Bool) (usb : Nat → OutXfer) (command : List Nat),
      absent_handled (LabPro_send_raw labpro malloc_ok usb command).retval
        (LabPro_send_raw labpro malloc_ok usb command).trace) ∧
    (∀ (fuel : Nat) (heap : Heap) (usb : Nat → InXfer) (r : ReadResult),
      LabPro_read_raw fuel labpro heap usb = some r → absent_handled r.retval r.trace) ∧
    (∀ (heap : Heap) (usb : Nat → InXfer) (n fuel : Nat),
      labpro.is_open = true → heap.calloc_ok = true →
      (∀ m < n, heap.realloc_ok (m + 2) = true) →
      (∀ m < n, (usb m).status = LIBUSB_SUCCESS ∧ (usb m).data.length = 64) →
      (usb n).status = LIBUSB_ERROR_NO_DEVICE → n < fuel →
      ∃ r, LabPro_read_raw fuel labpro heap usb = some r ∧
        r.retval = LIBUSB_ERROR_NO_DEVICE ∧ (bulk_calls r.trace).length = n + 1 ∧
        disconnects r.trace = 1 ∧ r.trace.getLast? = some Event.disconnect) := by
  refine ⟨?_, ?_, ?_⟩
  · intro malloc_ok usb command
    unfold LabPro_send_raw
    split
    · exact absent_handled_of_no_absent _ _ no_absent_nil
    · split
      · exact absent_handled_of_no_absent _ _ no_absent_nil
      · exact send_loop_absent _ _ _ _ _
  · intro fuel heap usb r hr
    unfold LabPro_read_raw at hr
    split at hr
    · cases hr
      exact absent_handled_of_no_absent _ _ no_absent_nil
    · split at hr
      · cases hr
        exact absent_handled_of_no_absent _ _ no_absent_nil
      · exact read_loop_absent labpro usb heap fuel r hr
  · intro heap usb n fuel hopen hcalloc hre hfull habs hfuel
    obtain ⟨f, rfl⟩ : ∃ f, fuel = f + 1 + n := ⟨fuel - 1 - n, by omega⟩
    have hfull2 : ∀ m < n, (usb m).status = LIBUSB_SUCCESS ∧
        ((usb m).data.take 64).length = 64 := by
      intro m hm
      obtain ⟨h1, h2⟩ := hfull m hm
      exact ⟨h1, by simp [h2]⟩
    unfold LabPro_read_raw
    simp only [hopen, hcalloc, Bool.not_true, Bool.false_eq_true, if_false]
    rw [read_loop_full_frames labpro usb heap n hfull2 hre (f + 1), read_loop, if_pos habs]
    refine ⟨_, rfl, rfl, ?_, ?_, List.getLast?_concat _⟩
    · simp [bulk_calls_append, bulk_calls_log_upto, bulk_calls]
    · simp [disconnects_append, disconnects_log_upto, disconnects]

/-- C6. `LabPro_close_labpro` clears `is_open` and changes no other field; on a
device whose `is_open` flag is clear, `LabPro_send_raw` and `LabPro_read_raw`
return `LABPRO_ERR_NOT_OPEN`, report 0 bytes and make no external call at all
(in particular no transfer), whatever the transport, the allocator and the loop
budget are. -/
theorem not_open_no_transfer (labpro : LabPro) (hclosed : labpro.is_open = false)
    (malloc_ok : Bool) (usb_out : Nat → OutXfer) (command : List Nat)
    (fuel : Nat) (heap : Heap) (usb_in : Nat → InXfer) :
    LabPro_send_raw labpro malloc_ok usb_out command =
      { retval := LABPRO_ERR_NOT_OPEN, length_transferred := 0, trace := [] } ∧
    LabPro_read_raw fuel labpro heap usb_in =
      some { retval := LABPRO_ERR_NOT_OPEN, length := 0, string := none, trace := [] } ∧
    (∀ d : LabPro, LabPro_close_labpro d = { d with is_open := false } ∧
      (LabPro_close_labpro d).is_open = false ∧
      LabPro_send_raw (LabPro_close_labpro d) malloc_ok usb_out command =
        { retval := LABPRO_ERR_NOT_OPEN, length_transferred := 0, trace := [] } ∧
      LabPro_read_raw fuel (LabPro_close_labpro d) heap usb_in =
        some { retval := LABPRO_ERR_NOT_OPEN, length := 0, string := none, trace := [] }) := by
  refine ⟨?_, ?_, ?_⟩
  · simp [LabPro_send_raw, hclosed]
  · simp [LabPro_read_raw, hclosed]
  · intro d
    refine ⟨rfl, rfl, ?_, ?_⟩
    · simp [LabPro_send_raw, LabPro_close_labpro]
    · simp [LabPro_read_raw, LabPro_close_labpro]

/-- C4 (the code at the failing input). The first incoming transfer fails
with `LIBUSB_ERROR_IO`; the device would deliver a full frame next. The read
makes that one transfer only and returns `LABPRO_OK` with length 0 and an
all-zero buffer: the frame is not read again and the response is lost. -/
theorem read_raw_error_not_retried :
    LabPro_read_raw 10 dev0 heap_ok usb_in_glitch =
      some { retval := LABPRO_OK, length := 0, string := some (List.replicate 64 0),
             trace := [Event.sleep 50, Event.bulk_in
               { endpoint := 130, offset := 0, numbytes := 64, bytes := [],
                 status := LIBUSB_ERROR_IO }] } := by
  decide

/-! ### Length and zero fill of a read -/

theorem write_at_length (buf : List Nat) (off : Nat) (d : List Nat)
    (h : off + d.length ≤ buf.length) : (write_at buf off d).length = buf.length := by
  simp only [write_at, List.length_append, List.length_take, List.length_drop]
  omega

theorem memset_frame_last (buf : List Nat) (off : Nat) (h : buf.length = off + 64) :
    memset_frame buf off = buf.take off ++ List.replicate 64 0 := by
  have hd : buf.drop (off + 64) = [] := List.drop_of_length_le (by omega)
  simp [memset_frame, write_at, hd]

/-- The buffer after `memset` of its last frame ends in 64 zero bytes. -/
theorem zero_last_frame (data : List Nat) (np : Nat) (d : List Nat) (hnp : 1 ≤ np)
    (hlen : data.length = 64 * np) (hd : d.length ≤ 64) :
    64 ≤ (memset_frame (write_at data (64 * (np - 1)) d) (64 * (np - 1))).length ∧
    (memset_frame (write_at data (64 * (np - 1)) d) (64 * (np - 1))).drop
      ((memset_frame (write_at data (64 * (np - 1)) d) (64 * (np - 1))).length - 64)
      = List.replicate 64 0 := by
  have h1 : (write_at data (64 * (np - 1)) d).length = 64 * (np - 1) + 64 := by
    rw [write_at_length _ _ _ (by omega), hlen]
    omega
  rw [memset_frame_last _ _ h1]
  have h2 : ((write_at data (64 * (np - 1)) d).take (64 * (np - 1))).length = 64 * (np - 1) := by
    rw [List.length_take, h1]
    omega
  refine ⟨by simp, ?_⟩
  rw [List.length_append, h2, List.length_replicate, Nat.add_sub_cancel]
  exact List.drop_left' h2

/-- What holds of the length and of the zero fill of a read. When every
successful incoming transfer delivers a full 64-byte frame, the length reported
by `LabPro_read_raw` is a multiple of 64; and whatever the transfers deliver,
when the last transfer of the read timed out or reported device-absent, the
last frame of the buffer handed back is all zero bytes. -/
theorem read_raw_length_multiple (fuel : Nat) (labpro : LabPro) (heap : Heap)
    (usb : Nat → InXfer) (r : ReadResult)
    (hr : LabPro_read_raw fuel labpro heap usb = some r) :
    ((∀ n, (usb n).status = LIBUSB_SUCCESS → 64 ≤ (usb n).data.length) →
      (64 : Int) ∣ r.length) ∧
    (∀ c, (bulk_calls r.trace).getLast? = some c →
      c.status = LIBUSB_ERROR_TIMEOUT ∨ c.status = LIBUSB_ERROR_NO_DEVICE →
      ∃ buf, r.string = some buf ∧ 64 ≤ buf.length ∧
        buf.drop (buf.length - 64) = List.replicate 64 0) := by
  have hlast : ∀ (tr : List Event) (x : InXfer) (np : Nat) (c : BulkCall),
      (bulk_calls (tr ++ [Event.sleep 50, Event.bulk_in (read_call labpro x np)])).getLast?
        = some c → c.status = x.status := by
    intro tr x np c hc
    simp only [bulk_calls_append, bulk_calls] at hc
    rw [List.getLast?_concat] at hc
    cases hc
    rfl
  have hvac : ∀ (tr : List Event) (x : InXfer) (np : Nat) (rv len : Int)
      (str : Option (List Nat)),
      x.status ≠ LIBUSB_ERROR_TIMEOUT → x.status ≠ LIBUSB_ERROR_NO_DEVICE →
      ∀ c, (bulk_calls (tr ++ [Event.sleep 50, Event.bulk_in (read_call labpro x np)])).getLast?
        = some c → c.status = LIBUSB_ERROR_TIMEOUT ∨ c.status = LIBUSB_ERROR_NO_DEVICE →
      ∃ buf, str = some buf ∧ 64 ≤ buf.length ∧
        buf.drop (buf.length - 64) = List.replicate 64 0 := by
    intro tr x np rv len str h1 h2 c hc hst
    rw [hlast tr x np c hc] at hst
    rcases hst with h | h
    · exact absurd h h1
    · exact absurd h h2
  have succ_nt : ∀ n, (usb n).status = LIBUSB_SUCCESS →
      (usb n).status ≠ LIBUSB_ERROR_TIMEOUT ∧ (usb n).status ≠ LIBUSB_ERROR_NO_DEVICE := by
    intro n h
    rw [h]
    decide
  unfold LabPro_read_raw at hr
  split at hr
  · cases hr
    exact ⟨fun _ => by simp, by simp [bulk_calls]⟩
  · split at hr
    · cases hr
      exact ⟨fun _ => by simp, by simp [bulk_calls]⟩
    · refine read_loop_rule labpro usb heap
        (fun np _ _ len data _ =>
          ((∀ n, (usb n).status = LIBUSB_SUCCESS → 64 ≤ (usb n).data.length) →
            (64 : Int) ∣ len) ∧ 1 ≤ np ∧ data.length = 64 * np)
        (fun r => ((∀ n, (usb n).status = LIBUSB_SUCCESS → 64 ≤ (usb n).data.length) →
            (64 : Int) ∣ r.length) ∧
          (∀ c, (bulk_calls r.trace).getLast? = some c →
            c.status = LIBUSB_ERROR_TIMEOUT ∨ c.status = LIBUSB_ERROR_NO_DEVICE →
            ∃ buf, r.string = some buf ∧ 64 ≤ buf.length ∧
              buf.drop (buf.length - 64) = List.replicate 64 0))
        ?_ ?_ ?_ ?_ ?_ ?_ ?_ fuel 1 0 0 0 (List.replicate 64 0) [] r
        ⟨fun _ => by simp, le_refl _, by simp⟩ hr
      · intro np e n len data tr hinv _
        refine ⟨hinv.1, fun c _ _ => ⟨_, rfl, ?_⟩⟩
        exact zero_last_frame data np _ hinv.2.1 hinv.2.2 (List.length_take_le _ _)
      · intro np e n len data tr hinv h1 _ h3 _
        exact ⟨hinv.1, hvac tr (usb n) np 0 0 _ h3 h1⟩
      · intro np e n len data tr hinv h1 _ h3 _
        exact ⟨hinv.1, hvac tr (usb n) np 0 0 _ h3 h1⟩
      · intro np e n len data tr hinv _
        refine ⟨hinv.1, fun c _ _ => ⟨_, rfl, ?_⟩⟩
        exact zero_last_frame data np _ hinv.2.1 hinv.2.2 (List.length_take_le _ _)
      · intro np e n len data tr hinv hs _ h64
        obtain ⟨h1, h2, h3⟩ := hinv
        refine ⟨?_, by omega, ?_⟩
        · intro hfull
          rw [h64]
          exact dvd_add (h1 hfull) (dvd_refl _)
        · rw [List.length_append, write_at_length _ _ _ (by
            have := List.length_take_le 64 (usb n).data
            omega), h3]
          simp only [fresh_frame, List.length_map, List.length_range]
          omega
      · intro np e n len data tr hinv hs _ h64
        refine ⟨?_, hvac tr (usb n) np 0 0 _ (succ_nt n hs).1 (succ_nt n hs).2⟩
        intro hfull
        have := hfull n hs
        have h1 : ((usb n).data.take 64).length = 64 := by
          rw [List.length_take]
          omega
        rw [h1] at h64
        exact absurd rfl h64
      · intro np e n len data tr hinv hs _
        refine ⟨?_, hvac tr (usb n) np 0 0 _ (succ_nt n hs).1 (succ_nt n hs).2⟩
        intro hfull
        have := hfull n hs
        have h1 : ((usb n).data.take 64).length = 64 := by
          rw [List.length_take]
          omega
        dsimp only
        rw [h1]
        exact dvd_add (hinv.1 hfull) (dvd_refl _)

/-- C8 (the code at the failing input). The device delivers one full frame and
then a successful short packet of 3 bytes, and `realloc` hands out memory
filled with `0xAA`. The reported length is 67, which is not a multiple of 64,
and in the buffer the 3 bytes are followed by `0xAA` bytes, not by zeros, up to
the end of their frame and through the frame after it: the frame is not cleared
as it is on the timeout and device-absent exits. -/
theorem read_raw_short_frame_not_zero_filled :
    (LabPro_read_raw 10 dev0 heap_ok usb_in_short).map (fun r => r.length) = some 67 ∧
    ¬ ((64 : Int) ∣ 67) ∧
    (LabPro_read_raw 10 dev0 heap_ok usb_in_short).bind (fun r => r.string) =
      some (List.replicate 64 65 ++ [66, 67, 68] ++ List.replicate 61 170
        ++ List.replicate 64 170) ∧
    ((LabPro_read_raw 10 dev0 heap_ok usb_in_short).bind (fun r => r.string)).map
      (fun buf => (buf.drop 64).take 64) = some ([66, 67, 68] ++ List.replicate 61 170) ∧
    ((LabPro_read_raw 10 dev0 heap_ok usb_in_short).bind (fun r => r.string)).map
      (fun buf => buf.drop 128) = some (List.replicate 64 170) := by
  refine ⟨by decide, by decide, by rfl, by rfl, by rfl⟩

/-! ### `LabPro_trim_response` -/

theorem strstr_from_single (c : Nat) (l : List Nat) (k : Nat) :
    strstr_from [c] l k =
      if c ∈ l then some (k + (l.takeWhile (fun b => b != c)).length) else none := by
  induction l generalizing k with
  | nil => simp [strstr_from]
  | cons h t ih =>
    by_cases hc : c = h
    · subst hc
      simp [strstr_from, List.isPrefixOf]
    · have hb : (h != c) = true := by
        simpa using fun e : h = c => hc e.symm
      have hpre : List.isPrefixOf [c] (h :: t) = false := by
        simp [List.isPrefixOf, hc]
      rw [strstr_from, hpre, List.takeWhile_cons, hb]
      simp only [Bool.false_eq_true, if_false, if_true, ih, List.mem_cons, hc, false_or,
        List.length_cons]
      split
      · congr 1
        omega
      · rfl

theorem split_at_first (c : Nat) (l : List Nat) (h : c ∈ l) :
    ∃ post, l = l.takeWhile (fun b => b != c) ++ c :: post := by
  induction l with
  | nil => simp at h
  | cons x xs ih =>
    by_cases hx : x = c
    · subst hx
      exact ⟨xs, by simp [List.takeWhile]⟩
    · have hm : c ∈ xs := by
        rcases List.mem_cons.mp h with h1 | h1
        · exact absurd h1.symm hx
        · exact h1
      obtain ⟨post, hp⟩ := ih hm
      refine ⟨post, ?_⟩
      have : (x != c) = true := by simpa using hx
      rw [List.takeWhile_cons, this]
      simp only [if_true, List.cons_append]
      rw [← hp]

theorem strstr_cr (string : List Nat) :
    strstr string [CR, 0] =
      if CR ∈ c_str string
      then some ((c_str string).takeWhile (fun b => b != CR)).length else none := by
  have h2 : c_str [CR, 0] = [CR] := by decide
  unfold strstr
  rw [h2, strstr_from_single]
  simp

theorem trim_at_first (pre rest : List Nat) (hpre : ∀ b ∈ pre, b ≠ 0) :
    c_str ((pre ++ CR :: rest).set pre.length 0) = pre ∧
    (pre ++ CR :: rest)[pre.length]? = some CR := by
  refine ⟨?_, ?_⟩
  · rw [List.set_append_right _ _ (le_refl _)]
    simp only [Nat.sub_self, List.set_cons_zero]
    exact c_str_append_nul _ _ hpre
  · rw [List.getElem?_append_right (le_refl _)]
    simp

/-- C10. For every response buffer: if its text (the bytes before the first
NUL) contains a carriage return, `LabPro_trim_response` returns 0, overwrites
the first carriage return with NUL and changes no other byte, so that the text
of the buffer becomes exactly the bytes before that carriage return; if the
text contains no carriage return, it returns the nonzero status 1 and leaves
the buffer unchanged. -/
theorem trim_response_spec (string : List Nat) :
    (CR ∈ c_str string →
      (LabPro_trim_response string).1 = 0 ∧
      c_str (LabPro_trim_response string).2 = (c_str string).takeWhile (fun b => b != CR) ∧
      string[((c_str string).takeWhile (fun b => b != CR)).length]? = some CR ∧
      (LabPro_trim_response string).2.length = string.length ∧
      (∀ j, j ≠ ((c_str string).takeWhile (fun b => b != CR)).length →
        (LabPro_trim_response string).2[j]? = string[j]?)) ∧
    (CR ∉ c_str string →
      (LabPro_trim_response string).1 = 1 ∧ (LabPro_trim_response string).1 ≠ 0 ∧
      (LabPro_trim_response string).2 = string) := by
  refine ⟨?_, ?_⟩
  · intro hcr
    obtain ⟨post, hp⟩ := split_at_first CR (c_str string) hcr
    have hs : (c_str string).takeWhile (fun b => b != CR)
        ++ CR :: (post ++ string.dropWhile (fun b => b != 0)) = string := by
      have h1 : c_str string ++ string.dropWhile (fun b => b != 0) = string :=
        List.takeWhile_append_dropWhile _ _
      rw [hp] at h1
      simpa using h1
    have hpre : ∀ b ∈ (c_str string).takeWhile (fun b => b != CR), b ≠ 0 :=
      fun b hb => c_str_ne_zero string b (List.takeWhile_subset _ hb)
    have haux := trim_at_first _ (post ++ string.dropWhile (fun b => b != 0)) hpre
    rw [hs] at haux
    have hval : LabPro_trim_response string
        = (0, string.set ((c_str string).takeWhile (fun b => b != CR)).length 0) := by
      simp [LabPro_trim_response, strstr_cr, hcr]
    rw [hval]
    refine ⟨rfl, haux.1, haux.2, by simp, ?_⟩
    intro j hj
    exact List.getElem?_set_ne (fun e => hj e.symm)
  · intro hcr
    have hval : LabPro_trim_response string = (1, string) := by
      simp [LabPro_trim_response, strstr_cr, hcr]
    rw [hval]
    refine ⟨rfl, ?_, rfl⟩
    show (1 : Int) ≠ 0
    decide

/-! ### The theorems at sample inputs -/

/-- C1 at sample inputs: a command text of 64 bytes is sent as a packet of 64
bytes and a packet of 1 byte, and the empty command text as one packet of 1
byte. -/
theorem send_raw_packet_framing_witness :
    dev0.is_open = true ∧ (∀ n, (usb_ok n).status = LIBUSB_SUCCESS) ∧
    ((bulk_calls (LabPro_send_raw dev0 true usb_ok cmd_64).trace).length = 2 ∧
      (bulk_calls (LabPro_send_raw dev0 true usb_ok cmd_64).trace).map (fun c => c.numbytes)
        = [64, 1]) ∧
    ((bulk_calls (LabPro_send_raw dev0 true usb_ok []).trace).length = 1 ∧
      (bulk_calls (LabPro_send_raw dev0 true usb_ok []).trace).map (fun c => c.numbytes)
        = [1]) :=
  ⟨rfl, fun _ => rfl, send_raw_packet_framing dev0 usb_ok cmd_64 rfl (fun _ => rfl),
    send_raw_packet_framing dev0 usb_ok [] rfl (fun _ => rfl)⟩

/-- C2 at a sample input: the two packets of a 64-byte command text carry the
text and one carriage return. -/
theorem send_raw_payloads_witness :
    dev0.is_open = true ∧ (∀ n, (usb_ok n).status = LIBUSB_SUCCESS) ∧
    wire_bytes (bulk_calls (LabPro_send_raw dev0 true usb_ok cmd_64).trace)
      = List.replicate 64 65 ++ [13] ∧
    (LabPro_send_raw dev0 true usb_ok cmd_64).retval = LABPRO_OK :=
  ⟨rfl, fun _ => rfl, send_raw_payloads dev0 usb_ok cmd_64 rfl (fun _ => rfl)⟩

/-- C3 at sample inputs: with five failed transfers the command `s{7}` still
goes through and the call returns `LABPRO_OK`; with six the call ends on the
sixth and returns its status. -/
theorem send_raw_retry_policy_witness :
    dev0.is_open = true ∧
    (failed (bulk_calls (LabPro_send_raw dev0 true (usb_fail_first 5) cmd_status).trace)).length
      = 5 ∧
    (LabPro_send_raw dev0 true (usb_fail_first 5) cmd_status).retval = LABPRO_OK ∧
    wire_bytes (succeeded
      (bulk_calls (LabPro_send_raw dev0 true (usb_fail_first 5) cmd_status).trace))
      = [115, 123, 55, 125, 13] ∧
    (failed (bulk_calls (LabPro_send_raw dev0 true (usb_fail_first 6) cmd_status).trace)).length
      = 6 ∧
    (∃ c, (bulk_calls (LabPro_send_raw dev0 true (usb_fail_first 6) cmd_status).trace).getLast?
        = some c ∧ c.status ≠ LIBUSB_SUCCESS ∧
      (LabPro_send_raw dev0 true (usb_fail_first 6) cmd_status).retval = c.status) := by
  have h6 : (failed (bulk_calls
      (LabPro_send_raw dev0 true (usb_fail_first 6) cmd_status).trace)).length = 6 := by
    simp [LabPro_send_raw, send_loop, dev0, usb_fail_first, cmd_status, strcat, strcpy, strlen,
      c_str, CR, LIBUSB_SUCCESS, LIBUSB_ERROR_IO, LIBUSB_ERROR_NO_DEVICE, failed, bulk_calls]
  have h5 : (failed (bulk_calls
      (LabPro_send_raw dev0 true (usb_fail_first 5) cmd_status).trace)).length = 5 := by
    simp [LabPro_send_raw, send_loop, dev0, usb_fail_first, cmd_status, strcat, strcpy, strlen,
      c_str, CR, LIBUSB_SUCCESS, LIBUSB_ERROR_IO, LIBUSB_ERROR_NO_DEVICE, failed, bulk_calls]
  have hall : ∀ c ∈ bulk_calls (LabPro_send_raw dev0 true (usb_fail_first 5) cmd_status).trace,
      c.status ≠ LIBUSB_ERROR_NO_DEVICE := by
    simp [LabPro_send_raw, send_loop, dev0, usb_fail_first, cmd_status, strcat, strcpy, strlen,
      c_str, CR, LIBUSB_SUCCESS, LIBUSB_ERROR_IO, LIBUSB_ERROR_NO_DEVICE, bulk_calls]
  have hok := (send_raw_retry_policy dev0 (usb_fail_first 5) cmd_status rfl).2.1
    (le_of_eq h5) hall
  exact ⟨rfl, h5, hok.1, hok.2, h6,
    (send_raw_retry_policy dev0 (usb_fail_first 6) cmd_status rfl).2.2.2.1 h6⟩

/-- C5 at sample inputs: a send that meets device-absent after two failed
transfers, and a read that meets it after one full frame. -/
theorem device_absent_aborts_witness :
    (bulk_calls (LabPro_send_raw dev0 true (usb_gone_after 2) cmd_status).trace).map
      (fun c => c.status) = [ LIBUSB_ERROR_IO, LIBUSB_ERROR_IO, LIBUSB_ERROR_NO_DEVICE] ∧
    disconnects (LabPro_send_raw dev0 true (usb_gone_after 2) cmd_status).trace = 1 ∧
    (LabPro_send_raw dev0 true (usb_gone_after 2) cmd_status).retval = LIBUSB_ERROR_NO_DEVICE ∧
    (∃ r, LabPro_read_raw 5 dev0 heap_ok usb_in_gone = some r ∧
      r.retval = LIBUSB_ERROR_NO_DEVICE ∧ (bulk_calls r.trace).length = 2 ∧
      disconnects r.trace = 1 ∧ r.trace.getLast? = some Event.disconnect) := by
  have hcalls : (bulk_calls (LabPro_send_raw dev0 true (usb_gone_after 2) cmd_status).trace).map
      (fun c => c.status) = [ LIBUSB_ERROR_IO, LIBUSB_ERROR_IO, LIBUSB_ERROR_NO_DEVICE] := by
    simp [LabPro_send_raw, send_loop, dev0, usb_gone_after, cmd_status, strcat, strcpy, strlen,
      c_str, CR, LIBUSB_SUCCESS, LIBUSB_ERROR_IO, LIBUSB_ERROR_NO_DEVICE, bulk_calls]
  have hlast : ∃ c, (bulk_calls
      (LabPro_send_raw dev0 true (usb_gone_after 2) cmd_status).trace).getLast? = some c ∧
      c.status = LIBUSB_ERROR_NO_DEVICE := by
    simp [LabPro_send_raw, send_loop, dev0, usb_gone_after, cmd_status, strcat, strcpy, strlen,
      c_str, CR, LIBUSB_SUCCESS, LIBUSB_ERROR_IO, LIBUSB_ERROR_NO_DEVICE, bulk_calls]
  obtain ⟨c, hc, hst⟩ := hlast
  have h := ((device_absent_aborts dev0).1 true (usb_gone_after 2) cmd_status).2 c hc hst
  refine ⟨hcalls, h.1, h.2.2, ?_⟩
  exact (device_absent_aborts dev0).2.2 heap_ok usb_in_gone 1 5 rfl rfl (fun _ _ => rfl)
    (by
      intro m hm
      obtain rfl : m = 0 := by omega
      exact ⟨rfl, rfl⟩)
    rfl (by decide)

/-- C6 at a sample input: the sample device after `LabPro_close_labpro`. -/
theorem not_open_no_transfer_witness :
    (LabPro_close_labpro dev0).is_open = false ∧
    LabPro_send_raw (LabPro_close_labpro dev0) true usb_ok cmd_status =
      { retval := LABPRO_ERR_NOT_OPEN, length_transferred := 0, trace := [] } ∧
    LabPro_read_raw 10 (LabPro_close_labpro dev0) heap_ok (usb_in_frames 2) =
      some { retval := LABPRO_ERR_NOT_OPEN, length := 0, string := none, trace := [] } :=
  ⟨rfl,
    (not_open_no_transfer (LabPro_close_labpro dev0) rfl true usb_ok cmd_status 10 heap_ok
      (usb_in_frames 2)).1,
    (not_open_no_transfer (LabPro_close_labpro dev0) rfl true usb_ok cmd_status 10 heap_ok
      (usb_in_frames 2)).2.1⟩

/-- C7 at a sample input: two full frames and a timeout. -/
theorem read_raw_ends_on_timeout_witness :
    ∃ r, LabPro_read_raw 5 dev0 heap_ok (usb_in_frames 2) = some r ∧ r.retval = LABPRO_OK ∧
      r.length = 128 ∧
      r.string = some (List.replicate 64 65 ++ List.replicate 64 66 ++ List.replicate 64 0) ∧
      (bulk_calls r.trace).length = 3 := by
  obtain ⟨r, h1, h2, h3, h4, _, h6⟩ := read_raw_ends_on_timeout dev0 heap_ok (usb_in_frames 2)
    2 5 rfl rfl (fun _ _ => rfl)
    (by
      intro m hm
      have h : usb_in_frames 2 m
          = { status := LIBUSB_SUCCESS, data := List.replicate 64 (65 + m) } := by
        simp [usb_in_frames, hm]
      rw [h]
      exact ⟨rfl, by simp⟩)
    rfl (by decide)
  exact ⟨r, h1, h2, h3, h4, h6⟩

/-- The length and the zero fill of a read at a sample input: two full frames
and a timeout. -/
theorem read_raw_length_multiple_witness :
    ∃ r, LabPro_read_raw 5 dev0 heap_ok (usb_in_frames 2) = some r ∧
      (∀ n, (usb_in_frames 2 n).status = LIBUSB_SUCCESS → 64 ≤ (usb_in_frames 2 n).data.length) ∧
      r.length = 128 ∧ (64 : Int) ∣ r.length ∧
      (∃ buf, r.string = some buf ∧ 64 ≤ buf.length ∧
        buf.drop (buf.length - 64) = List.replicate 64 0) := by
  obtain ⟨r, hr⟩ : ∃ r, LabPro_read_raw 5 dev0 heap_ok (usb_in_frames 2) = some r := ⟨_, rfl⟩
  have hfull : ∀ n, (usb_in_frames 2 n).status = LIBUSB_SUCCESS →
      64 ≤ (usb_in_frames 2 n).data.length := by
    intro n
    unfold usb_in_frames
    split
    · intro _
      simp
    · intro h
      exact absurd h (by decide)
  have h0 := read_raw_length_multiple 5 dev0 heap_ok (usb_in_frames 2) r hr
  have h := And.intro (h0.1 hfull) h0.2
  have hr2 := hr
  have hv : LabPro_read_raw 5 dev0 heap_ok (usb_in_frames 2) = some
      { retval := 0, length := 128,
        string := some (List.replicate 64 65 ++ List.replicate 64 66 ++ List.replicate 64 0),
        trace := [Event.sleep 50,
          Event.bulk_in { endpoint := 130, offset := 0, numbytes := 64,
                          bytes := List.replicate 64 65, status := 0 },
          Event.sleep 50,
          Event.bulk_in { endpoint := 130, offset := 64, numbytes := 64,
                          bytes := List.replicate 64 66, status := 0 },
          Event.sleep 50,
          Event.bulk_in { endpoint := 130, offset := 128, numbytes := 64,
                          bytes := [], status := -7 }] } := by
    set_option maxRecDepth 20000 in rfl
  rw [hv] at hr2
  cases hr2
  exact ⟨_, hv, hfull, rfl, h.1, h.2 _ rfl (Or.inl rfl)⟩

/-- C9 at a sample input: the buffer cannot grow to a third frame after two
full frames were read. -/
theorem read_raw_realloc_failure_witness :
    ∃ r buf, LabPro_read_raw 5 dev0 (heap_fail_at 3) (usb_in_frames 2) = some r ∧
      r.retval = LABPRO_ERR_NO_MEM ∧ r.length = 128 ∧ r.string = some buf ∧
      buf = List.replicate 64 65 ++ List.replicate 64 66 := by
  obtain ⟨r, buf, h1, h2, _, h4, h5, _, h7, _⟩ := read_raw_realloc_failure dev0 (heap_fail_at 3)
    (usb_in_frames 2) 1 5 rfl rfl
    (by
      intro m hm
      obtain rfl : m = 0 := by omega
      rfl)
    rfl
    (by
      intro m hm
      obtain rfl : m = 0 := by omega
      exact ⟨rfl, rfl⟩)
    rfl (by decide)
  have hf : frames_upto (usb_in_frames 2) (1 + 1)
      = List.replicate 64 65 ++ List.replicate 64 66 := by
    simp [frames_upto, usb_in_frames, List.range_succ, LIBUSB_SUCCESS]
  rw [hf] at h4 h7
  exact ⟨r, buf, h1, h2, by simpa using h4, h5, h7 rfl⟩

/-- C10 at sample inputs: `DATA`, carriage return and padding is trimmed to
`DATA`; without a carriage return the status is 1 and nothing changes. -/
theorem trim_response_spec_witness :
    CR ∈ c_str resp_data ∧ (LabPro_trim_response resp_data).1 = 0 ∧
    c_str (LabPro_trim_response resp_data).2 = [68, 65, 84, 65] ∧
    CR ∉ c_str resp_no_cr ∧ (LabPro_trim_response resp_no_cr).1 = 1 ∧
    (LabPro_trim_response resp_no_cr).2 = resp_no_cr :=
  ⟨by decide, ((trim_response_spec resp_data).1 (by decide)).1,
    ((trim_response_spec resp_data).1 (by decide)).2.1, by decide,
    ((trim_response_spec resp_no_cr).2 (by decide)).1,
    ((trim_response_spec resp_no_cr).2 (by decide)).2.2⟩

/-! ### `LabPro_check_data_session` -/

/-- The result of `LabPro_check_data_session` in closed form: the codes of the
rules that fire, in the order of the three tests, padded with zeros. -/
theorem check_data_session_eq (s : LabPro_Data_Session) :
    LabPro_check_data_session s =
      (((if rule_op_mismatch s then [LABPRO_ERR_OP_MISMATCH] else []) ++
        (if rule_postproc_realtime s then [LABPRO_ERR_POSTPROC_ON_REALTIME] else []) ++
        (if rule_postproc_sonic s then [LABPRO_ERR_POSTPROC_ON_SONIC] else [])).length,
       ((if rule_op_mismatch s then [LABPRO_ERR_OP_MISMATCH] else []) ++
        (if rule_postproc_realtime s then [LABPRO_ERR_POSTPROC_ON_REALTIME] else []) ++
        (if rule_postproc_sonic s then [LABPRO_ERR_POSTPROC_ON_SONIC] else [])) ++
        List.replicate (5 - ((if rule_op_mismatch s then [LABPRO_ERR_OP_MISMATCH] else []) ++
        (if rule_postproc_realtime s then [LABPRO_ERR_POSTPROC_ON_REALTIME] else []) ++
        (if rule_postproc_sonic s then [LABPRO_ERR_POSTPROC_ON_SONIC] else [])).length) 0) := by
  unfold LabPro_check_data_session rule_op_mismatch rule_postproc_realtime rule_postproc_sonic
  by_cases h1 : (s.analog_op ≠ 0 ∧ s.channel > 4) ∨ (s.sonic_op ≠ 0 ∧ s.channel ≤ 4) <;>
  by_cases h2 : s.postproc ≠ 0 ∧ s.sampling_mode = LABPRO_SAMPMODE_REALTIME <;>
  by_cases h3 : s.postproc ≠ 0 ∧ s.channel > 4
  all_goals first
    | simp only [if_pos h1, if_pos h2, if_pos h3]; rfl
    | simp only [if_pos h1, if_pos h2, if_neg h3]; rfl
    | simp only [if_pos h1, if_neg h2, if_pos h3]; rfl
    | simp only [if_pos h1, if_neg h2, if_neg h3]; rfl
    | simp only [if_neg h1, if_pos h2, if_pos h3]; rfl
    | simp only [if_neg h1, if_pos h2, if_neg h3]; rfl
    | simp only [if_neg h1, if_neg h2, if_pos h3]; rfl
    | simp only [if_neg h1, if_neg h2, if_neg h3]; rfl

/-- The findings of `LabPro_check_data_session` in closed form. -/
theorem findings_check_data_session (s : LabPro_Data_Session) :
    findings (LabPro_check_data_session s) =
      (if rule_op_mismatch s then [LABPRO_ERR_OP_MISMATCH] else []) ++
      (if rule_postproc_realtime s then [LABPRO_ERR_POSTPROC_ON_REALTIME] else []) ++
      (if rule_postproc_sonic s then [LABPRO_ERR_POSTPROC_ON_SONIC] else []) := by
  rw [check_data_session_eq]
  unfold findings
  exact List.take_left' rfl

theorem mem_findings_iff (s : LabPro_Data_Session) (code : Int) :
    code ∈ findings (LabPro_check_data_session s) ↔
      (code = LABPRO_ERR_OP_MISMATCH ∧ rule_op_mismatch s) ∨
      (code = LABPRO_ERR_POSTPROC_ON_REALTIME ∧ rule_postproc_realtime s) ∨
      (code = LABPRO_ERR_POSTPROC_ON_SONIC ∧ rule_postproc_sonic s) := by
  rw [findings_check_data_session]
  by_cases h1 : rule_op_mismatch s <;> by_cases h2 : rule_postproc_realtime s <;>
    by_cases h3 : rule_postproc_sonic s <;> simp [h1, h2, h3]

theorem channel_above_four (c : Int) (h : c ∈ channel_values) :
    (c > 4 ↔ sonic_class c ∨ digital_class c) ∧
    (c ≤ 4 ↔ analog_class c ∨ c = LABPRO_CHAN_ALL) := by
  simp only [channel_values, List.mem_cons, List.mem_singleton, List.mem_nil_iff, or_false] at h
  unfold sonic_class digital_class analog_class LABPRO_CHAN_ALL LABPRO_CHAN_ANALOG_1
    LABPRO_CHAN_ANALOG_2 LABPRO_CHAN_ANALOG_3 LABPRO_CHAN_ANALOG_4 LABPRO_CHAN_SONIC_1
    LABPRO_CHAN_SONIC_2 LABPRO_CHAN_DIGITAL_1 LABPRO_CHAN_DIGITAL_2 LABPRO_CHAN_DIGITAL_OUT_1
    LABPRO_CHAN_DIGITAL_OUT_2
  constructor <;> constructor <;> intro h2 <;> omega

/-- C11 (counterexample to the claim as stated). A session on digital channel 1
with a nonzero sonic operation has its sonic operation on a channel that is not
sonic-class, yet `LabPro_check_data_session` reports nothing at all. -/
theorem check_misses_sonic_op_on_digital :
    session_digital_sonic_op.sonic_op ≠ 0 ∧
    ¬ sonic_class session_digital_sonic_op.channel ∧
    LABPRO_ERR_OP_MISMATCH ∉ findings (LabPro_check_data_session session_digital_sonic_op) ∧
    LabPro_check_data_session session_digital_sonic_op = (0, [0, 0, 0, 0, 0]) := by
  refine ⟨by decide, ?_, by decide, by decide⟩
  unfold sonic_class
  decide

/-- C11 (as amended). `LabPro_check_data_session` reports
`LABPRO_ERR_OP_MISMATCH` exactly when the analog operation is nonzero on a
channel numbered above 4, or the sonic operation is nonzero on a channel
numbered 4 or below; for the channels of `enum LabPro_Channels` this is: a
nonzero analog operation on a sonic or digital channel, or a nonzero sonic
operation on an analog channel or on `LABPRO_CHAN_ALL`. -/
theorem check_op_mismatch_iff (s : LabPro_Data_Session) :
    (LABPRO_ERR_OP_MISMATCH ∈ findings (LabPro_check_data_session s) ↔
      (s.analog_op ≠ 0 ∧ s.channel > 4) ∨ (s.sonic_op ≠ 0 ∧ s.channel ≤ 4)) ∧
    (s.channel ∈ channel_values →
      (LABPRO_ERR_OP_MISMATCH ∈ findings (LabPro_check_data_session s) ↔
        (s.analog_op ≠ 0 ∧ (sonic_class s.channel ∨ digital_class s.channel)) ∨
        (s.sonic_op ≠ 0 ∧ (analog_class s.channel ∨ s.channel = LABPRO_CHAN_ALL)))) := by
  have h : LABPRO_ERR_OP_MISMATCH ∈ findings (LabPro_check_data_session s) ↔
      (s.analog_op ≠ 0 ∧ s.channel > 4) ∨ (s.sonic_op ≠ 0 ∧ s.channel ≤ 4) := by
    rw [mem_findings_iff]
    have e1 : LABPRO_ERR_OP_MISMATCH ≠ LABPRO_ERR_POSTPROC_ON_REALTIME := by decide
    have e2 : LABPRO_ERR_OP_MISMATCH ≠ LABPRO_ERR_POSTPROC_ON_SONIC := by decide
    simp [e1, e2, rule_op_mismatch]
  refine ⟨h, fun hc => ?_⟩
  rw [h, (channel_above_four s.channel hc).1, (channel_above_four s.channel hc).2]

/-- C11 (as amended) at sample inputs: the finding is made for an analog
operation on sonic channel 1 and for a sonic operation on analog channel 1. -/
theorem check_op_mismatch_iff_witness :
    session_all_wrong.channel ∈ channel_values ∧
    LABPRO_ERR_OP_MISMATCH ∈ findings (LabPro_check_data_session session_all_wrong) ∧
    LABPRO_ERR_OP_MISMATCH ∈ findings (LabPro_check_data_session session_two_wrong) :=
  ⟨by decide,
    ((check_op_mismatch_iff session_all_wrong).2 (by decide)).2
      (Or.inl ⟨by decide, Or.inl (Or.inl rfl)⟩),
    (check_op_mismatch_iff session_two_wrong).1.2 (Or.inr ⟨by decide, by decide⟩)⟩

/-- C12 (counterexample to the claim as stated). A session on digital channel 1
with post processing is not on a sonic-class channel, yet
`LabPro_check_data_session` reports `LABPRO_ERR_POSTPROC_ON_SONIC` for it. -/
theorem check_postproc_on_digital :
    ¬ sonic_class session_digital_postproc.channel ∧
    LABPRO_ERR_POSTPROC_ON_SONIC ∈
      findings (LabPro_check_data_session session_digital_postproc) ∧
    LabPro_check_data_session session_digital_postproc
      = (1, [ LABPRO_ERR_POSTPROC_ON_SONIC, 0, 0, 0, 0]) := by
  refine ⟨?_, by decide, by decide⟩
  unfold sonic_class
  decide

/-- C12 (as amended). `LabPro_check_data_session` reports
`LABPRO_ERR_POSTPROC_ON_SONIC` exactly when post processing is not `none` and
the channel is numbered above 4; for the channels of `enum LabPro_Channels`
this is: post processing on a sonic or a digital channel. A session on an
analog channel or on `LABPRO_CHAN_ALL` never gets this finding. -/
theorem check_postproc_sonic_iff (s : LabPro_Data_Session) :
    (LABPRO_ERR_POSTPROC_ON_SONIC ∈ findings (LabPro_check_data_session s) ↔
      s.postproc ≠ 0 ∧ s.channel > 4) ∧
    (s.channel ∈ channel_values →
      (LABPRO_ERR_POSTPROC_ON_SONIC ∈ findings (LabPro_check_data_session s) ↔
        s.postproc ≠ 0 ∧ (sonic_class s.channel ∨ digital_class s.channel))) ∧
    (analog_class s.channel ∨ s.channel = LABPRO_CHAN_ALL →
      LABPRO_ERR_POSTPROC_ON_SONIC ∉ findings (LabPro_check_data_session s)) := by
  have h : LABPRO_ERR_POSTPROC_ON_SONIC ∈ findings (LabPro_check_data_session s) ↔
      s.postproc ≠ 0 ∧ s.channel > 4 := by
    rw [mem_findings_iff]
    have e1 : LABPRO_ERR_POSTPROC_ON_SONIC ≠ LABPRO_ERR_OP_MISMATCH := by decide
    have e2 : LABPRO_ERR_POSTPROC_ON_SONIC ≠ LABPRO_ERR_POSTPROC_ON_REALTIME := by decide
    simp [e1, e2, rule_postproc_sonic]
  refine ⟨h, fun hc => ?_, fun hc => ?_⟩
  · rw [h, (channel_above_four s.channel hc).1]
  · rw [h]
    intro hh
    unfold analog_class LABPRO_CHAN_ALL LABPRO_CHAN_ANALOG_1 LABPRO_CHAN_ANALOG_2
      LABPRO_CHAN_ANALOG_3 LABPRO_CHAN_ANALOG_4 at hc
    omega

/-- C12 (as amended) at sample inputs: post processing on sonic channel 1 is
reported, post processing on analog channel 1 is not. -/
theorem check_postproc_sonic_iff_witness :
    session_all_wrong.channel ∈ channel_values ∧
    LABPRO_ERR_POSTPROC_ON_SONIC ∈ findings (LabPro_check_data_session session_all_wrong) ∧
    analog_class session_two_wrong.channel ∧
    LABPRO_ERR_POSTPROC_ON_SONIC ∉ findings (LabPro_check_data_session session_two_wrong) :=
  ⟨by decide,
    ((check_postproc_sonic_iff session_all_wrong).2.1 (by decide)).2
      ⟨by decide, Or.inl (Or.inl rfl)⟩,
    Or.inl rfl,
    (check_postproc_sonic_iff session_two_wrong).2.2 (Or.inl (Or.inl rfl))⟩

/-- C13. `LabPro_check_data_session` evaluates its three rules independently:
the returned count is the number of rules whose condition holds (at most 3),
the first `count` entries of the array are the codes of exactly those rules, in
the order of the tests and without duplicates, so that a session breaking
several rules gets every one of the findings;
`LABPRO_ERR_POSTPROC_ON_REALTIME` is among them exactly when post processing is
not `none` and sampling is realtime. -/
theorem check_reports_every_rule (s : LabPro_Data_Session) :
    (LabPro_check_data_session s).1 =
      (if rule_op_mismatch s then 1 else 0) + (if rule_postproc_realtime s then 1 else 0) +
        (if rule_postproc_sonic s then 1 else 0) ∧
    (LabPro_check_data_session s).1 ≤ 3 ∧
    (findings (LabPro_check_data_session s)).length = (LabPro_check_data_session s).1 ∧
    findings (LabPro_check_data_session s) =
      (if rule_op_mismatch s then [LABPRO_ERR_OP_MISMATCH] else []) ++
      (if rule_postproc_realtime s then [LABPRO_ERR_POSTPROC_ON_REALTIME] else []) ++
      (if rule_postproc_sonic s then [LABPRO_ERR_POSTPROC_ON_SONIC] else []) ∧
    (findings (LabPro_check_data_session s)).Nodup ∧
    (∀ code, code ∈ findings (LabPro_check_data_session s) ↔
      (code = LABPRO_ERR_OP_MISMATCH ∧ rule_op_mismatch s) ∨
      (code = LABPRO_ERR_POSTPROC_ON_REALTIME ∧ rule_postproc_realtime s) ∨
      (code = LABPRO_ERR_POSTPROC_ON_SONIC ∧ rule_postproc_sonic s)) ∧
    (LABPRO_ERR_POSTPROC_ON_REALTIME ∈ findings (LabPro_check_data_session s) ↔
      s.postproc ≠ 0 ∧ s.sampling_mode = LABPRO_SAMPMODE_REALTIME) := by
  have hcount : (LabPro_check_data_session s).1 =
      (if rule_op_mismatch s then 1 else 0) + (if rule_postproc_realtime s then 1 else 0) +
        (if rule_postproc_sonic s then 1 else 0) := by
    rw [check_data_session_eq]
    by_cases h1 : rule_op_mismatch s <;> by_cases h2 : rule_postproc_realtime s <;>
      by_cases h3 : rule_postproc_sonic s <;> simp [h1, h2, h3]
  refine ⟨hcount, ?_, ?_, findings_check_data_session s, ?_, mem_findings_iff s, ?_⟩
  · rw [hcount]
    split <;> split <;> split <;> omega
  · rw [findings_check_data_session, check_data_session_eq]
  · rw [findings_check_data_session]
    by_cases h1 : rule_op_mismatch s <;> by_cases h2 : rule_postproc_realtime s <;>
      by_cases h3 : rule_postproc_sonic s <;>
      simp [h1, h2, h3, LABPRO_ERR_OP_MISMATCH, LABPRO_ERR_POSTPROC_ON_REALTIME,
        LABPRO_ERR_POSTPROC_ON_SONIC]
  · rw [mem_findings_iff]
    have e1 : LABPRO_ERR_POSTPROC_ON_REALTIME ≠ LABPRO_ERR_OP_MISMATCH := by decide
    have e2 : LABPRO_ERR_POSTPROC_ON_REALTIME ≠ LABPRO_ERR_POSTPROC_ON_SONIC := by decide
    simp [e1, e2, rule_postproc_realtime]

/-- C13 at sample inputs: a session breaking the first two rules gets both
findings, and a session breaking all three gets the three of them. -/
theorem check_reports_every_rule_witness :
    findings (LabPro_check_data_session session_two_wrong)
      = [LABPRO_ERR_OP_MISMATCH, LABPRO_ERR_POSTPROC_ON_REALTIME] ∧
    LabPro_check_data_session session_all_wrong
      = (3, [LABPRO_ERR_OP_MISMATCH, LABPRO_ERR_POSTPROC_ON_REALTIME,
          LABPRO_ERR_POSTPROC_ON_SONIC, 0, 0]) :=
  ⟨(check_reports_every_rule session_two_wrong).2.2.2.1, by decide⟩

/-! ### `LabPro_parse_list` -/

theorem c_str_append_of_ne_zero (a rest : List Nat) (ha : ∀ b ∈ a, b ≠ 0) :
    c_str (a ++ rest) = a ++ c_str rest := by
  induction a with
  | nil => rfl
  | cons x xs ih =>
    have hx : x ≠ 0 := ha x (List.mem_cons_self _ _)
    have ih2 := ih (fun b hb => ha b (List.mem_cons_of_mem _ hb))
    simp only [c_str] at ih2
    simp [c_str, hx, ih2]

theorem strstr_single (c : Nat) (hc : c ≠ 0) (s : List Nat) :
    strstr s [c, 0] =
      if c ∈ c_str s then some ((c_str s).takeWhile (fun b => b != c)).length else none := by
  have h2 : c_str [c, 0] = [c] := by simp [c_str, hc]
  unfold strstr
  rw [h2, strstr_from_single]
  simp

theorem takeWhile_first (c : Nat) (a r : List Nat) (ha : c ∉ a) :
    (a ++ c :: r).takeWhile (fun b => b != c) = a := by
  induction a with
  | nil => simp
  | cons x xs ih =>
    have hx : x ≠ c := fun e => ha (e ▸ List.mem_cons_self _ _)
    have hb : (x != c) = true := by simpa using hx
    rw [List.cons_append, List.takeWhile_cons, hb]
    simp only [if_true]
    rw [ih (fun h => ha (List.mem_cons_of_mem _ h))]

/-- The loop of `LabPro_parse_list` on a text `body` followed by `}` and by a
rest without comma, all allocations succeeding: the elements stored are the
pieces of `body` between its commas. -/
theorem parse_loop_body (bad_list : Int) (alloc_ok : Nat → Bool)
    (halloc : ∀ n, alloc_ok n = true) (tail : List Nat) (htail : 44 ∉ c_str tail) :
    ∀ (m : Nat) (body : List Nat), body.length = m →
      (∀ b ∈ body, b ≠ 0 ∧ b ≠ 125) → ∀ (i : Nat) (argv : List (List Nat)),
      parse_loop bad_list alloc_ok (body ++ 125 :: tail) i argv =
        { retval := LABPRO_OK, argc_list := i + (body.splitOn 44).length,
          argv_list := argv ++ body.splitOn 44 } := by
  intro m
  induction m using Nat.strong_induction_on with
  | _ m ih =>
    intro body hm hbody i argv
    have hz : ∀ b ∈ body, b ≠ 0 := fun b hb => (hbody b hb).1
    have htext : c_str (body ++ 125 :: tail) = body ++ 125 :: c_str tail := by
      rw [c_str_append_of_ne_zero body _ hz]
      simp [c_str]
    rw [parse_loop]
    by_cases hcomma : 44 ∈ body
    · obtain ⟨a, post, hp, hna⟩ := List.eq_append_cons_of_mem hcomma
      subst hp
      have hfirst : strstr (a ++ 44 :: post ++ 125 :: tail) [44, 0] = some a.length := by
        rw [strstr_single 44 (by decide), htext]
        have hin : 44 ∈ a ++ 44 :: post ++ 125 :: c_str tail := List.mem_append_left _ hcomma
        rw [if_pos hin, List.append_assoc, List.cons_append, takeWhile_first 44 _ _ hna]
      have hsplit : (a ++ 44 :: post).splitOn 44 = a :: post.splitOn 44 := by
        unfold List.splitOn
        exact List.splitOnP_first _ _ (fun x hx hpx => hna (by
          have : x = 44 := by simpa using hpx
          rw [← this]
          exact hx)) 44 (by simp) post
      have htake : (a ++ 44 :: post ++ 125 :: tail).take a.length = a := by
        rw [List.append_assoc]
        exact List.take_left' rfl
      have hdrop : (a ++ 44 :: post ++ 125 :: tail).drop (a.length + 1)
          = post ++ 125 :: tail := by
        rw [List.append_assoc, ← List.drop_drop, List.drop_left' rfl]
        simp
      have hpost_len : post.length < m := by
        simp only [List.length_append, List.length_cons] at hm
        omega
      have hpost : ∀ b ∈ post, b ≠ 0 ∧ b ≠ 125 := by
        intro b hb
        apply hbody b
        exact List.mem_append_right _ (List.mem_cons_of_mem _ hb)
      split
      · rename_i comma heq
        rw [hfirst] at heq
        cases heq
        simp only [halloc, Bool.not_true, Bool.false_eq_true, if_false]
        rw [htake, hdrop, ih post.length hpost_len post rfl hpost, hsplit]
        simp only [List.length_cons, List.append_assoc, List.singleton_append]
        congr 1
        omega
      · rename_i heq
        rw [hfirst] at heq
        cases heq
    · have hnone : strstr (body ++ 125 :: tail) [44, 0] = none := by
        rw [strstr_single 44 (by decide), htext]
        have hnin : 44 ∉ body ++ 125 :: c_str tail := by
          intro hmem
          rcases List.mem_append.mp hmem with h1 | h1
          · exact hcomma h1
          · rcases List.mem_cons.mp h1 with h2 | h2
            · exact absurd h2 (by decide)
            · exact htail h2
        rw [if_neg hnin]
      have hnb : 125 ∉ body := fun hmem => (hbody 125 hmem).2 rfl
      have hbrace : strstr (body ++ 125 :: tail) [125, 0] = some body.length := by
        rw [strstr_single 125 (by decide), htext]
        have hin : 125 ∈ body ++ 125 :: c_str tail :=
          List.mem_append_right _ (List.mem_cons_self _ _)
        rw [if_pos hin, takeWhile_first 125 _ _ hnb]
      have hsplit : body.splitOn 44 = [body] := by
        unfold List.splitOn
        exact List.splitOnP_eq_single _ _ (fun x hx hpx => hcomma (by
          have : x = 44 := by simpa using hpx
          rw [← this]
          exact hx))
      split
      · rename_i comma heq
        rw [hnone] at heq
        cases heq
      · rw [hbrace]
        simp only [halloc, Bool.not_true, Bool.false_eq_true, if_false]
        rw [hsplit, List.take_left' rfl]
        rfl

theorem dropWhile_first (c : Nat) (a r : List Nat) (ha : c ∉ a) :
    (a ++ c :: r).dropWhile (fun b => b != c) = c :: r := by
  induction a with
  | nil => simp
  | cons x xs ih =>
    have hx : x ≠ c := fun e => ha (e ▸ List.mem_cons_self _ _)
    have hb : (x != c) = true := by simpa using hx
    rw [List.cons_append, List.dropWhile_cons, hb]
    simp only [if_true]
    exact ih (fun h => ha (List.mem_cons_of_mem _ h))

theorem c_str_dropWhile (s : List Nat) : c_str (s.dropWhile (fun b => b != 0)) = [] := by
  induction s with
  | nil => rfl
  | cons x xs ih =>
    by_cases hx : x = 0
    · subst hx
      simp [c_str]
    · have hb : (x != 0) = true := by simpa using hx
      rw [List.dropWhile_cons, hb]
      simpa using ih

theorem headD_eq_brace_iff (string : List Nat) :
    string.headD 0 = 123 ↔ (c_str string).head? = some 123 := by
  cases string with
  | nil => simp [c_str]
  | cons x xs =>
    by_cases hx : x = 0
    · subst hx
      simp [c_str]
    · simp [c_str, hx]

/-- `LabPro_parse_list` on `{`, a text `body` free of `}`, a `}` and a rest
whose text has no comma, all allocations succeeding. -/
theorem parse_list_decomposed (bad_list : Int) (alloc_ok : Nat → Bool)
    (halloc : ∀ n, alloc_ok n = true) (body tail : List Nat)
    (hbody : ∀ b ∈ body, b ≠ 0 ∧ b ≠ 125) (htail : 44 ∉ c_str tail) :
    LabPro_parse_list bad_list alloc_ok (123 :: (body ++ 125 :: tail)) =
      { retval := LABPRO_OK, argc_list := (body.splitOn 44).length,
        argv_list := body.splitOn 44 } := by
  have hz : ∀ b ∈ 123 :: body, b ≠ 0 := by
    intro b hb
    rcases List.mem_cons.mp hb with h | h
    · rw [h]
      decide
    · exact (hbody b h).1
  have htext : c_str (123 :: (body ++ 125 :: tail)) = 123 :: (body ++ 125 :: c_str tail) := by
    have := c_str_append_of_ne_zero (123 :: body) (125 :: tail) hz
    simp only [List.cons_append] at this
    rw [this]
    simp [c_str]
  have hclose : strstr (123 :: (body ++ 125 :: tail)) [125, 0] ≠ none := by
    rw [strstr_single 125 (by decide), htext]
    have hin : 125 ∈ 123 :: (body ++ 125 :: c_str tail) :=
      List.mem_cons_of_mem _ (List.mem_append_right _ (List.mem_cons_self _ _))
    rw [if_pos hin]
    simp
  have hopen : strstr (123 :: (body ++ 125 :: tail)) [123, 0] = some 0 := by
    rw [strstr_single 123 (by decide), htext]
    simp
  unfold LabPro_parse_list
  rw [if_neg (by
    intro h
    rcases h with h | h
    · exact h rfl
    · exact hclose h)]
  simp only [halloc, Bool.not_true, Bool.false_eq_true, if_false, hopen, Option.getD_some,
    Nat.zero_add, List.drop_succ_cons, List.drop_zero]
  rw [parse_loop_body bad_list alloc_ok halloc tail htail body.length body rfl hbody 0 []]
  simp

theorem mem_intersperse (sep x : List Nat) (l : List (List Nat))
    (h : x ∈ l.intersperse sep) : x = sep ∨ x ∈ l := by
  induction l with
  | nil => simp at h
  | cons y ys ih =>
    cases ys with
    | nil =>
      simp only [List.intersperse_single, List.mem_singleton] at h
      exact Or.inr (by simp [h])
    | cons z zs =>
      simp only [List.intersperse_cons₂, List.mem_cons] at h
      rcases h with h | h | h
      · exact Or.inr (by simp [h])
      · exact Or.inl h
      · rcases ih h with h2 | h2
        · exact Or.inl h2
        · exact Or.inr (List.mem_cons_of_mem _ h2)

/-- C14. For every non-empty list of elements none of which contains a comma,
a closing brace or a NUL byte, `LabPro_parse_list` (all its allocations
succeeding) applied to the C string made of `{`, the elements joined by commas
and `}` returns `LABPRO_OK`, the number of elements, and exactly those
elements, verbatim and in the same order. -/
theorem parse_list_roundtrip (bad_list : Int) (alloc_ok : Nat → Bool)
    (halloc : ∀ n, alloc_ok n = true) (elems : List (List Nat)) (rest : List Nat)
    (hne : elems ≠ [])
    (hel : ∀ e ∈ elems, ∀ b ∈ e, b ≠ 44 ∧ b ≠ 125 ∧ b ≠ 0) :
    LabPro_parse_list bad_list alloc_ok (123 :: ([44].intercalate elems ++ 125 :: 0 :: rest)) =
      { retval := LABPRO_OK, argc_list := elems.length, argv_list := elems } := by
  have hbody : ∀ b ∈ [44].intercalate elems, b ≠ 0 ∧ b ≠ 125 := by
    intro b hb
    unfold List.intercalate at hb
    obtain ⟨l, hl, hbl⟩ := List.mem_flatten.mp hb
    rcases mem_intersperse _ _ _ hl with h | h
    · rw [h] at hbl
      have : b = 44 := by simpa using hbl
      rw [this]
      decide
    · exact ⟨(hel l h b hbl).2.2, (hel l h b hbl).2.1⟩
  have htail : 44 ∉ c_str (0 :: rest) := by simp [c_str]
  rw [parse_list_decomposed bad_list alloc_ok halloc _ _ hbody htail,
    List.splitOn_intercalate _ 44 (fun l hl hmem => (hel l hl 44 hmem).1 rfl) hne]

/-- C14 at the sample inputs of the specification: `{1,2,3}` gives the elements
`1`, `2`, `3` and `{x}` gives the element `x`. -/
theorem parse_list_roundtrip_witness :
    LabPro_parse_list sample_bad_list alloc_always list_123 =
      { retval := LABPRO_OK, argc_list := 3, argv_list := [[49], [50], [51]] } ∧
    LabPro_parse_list sample_bad_list alloc_always list_x =
      { retval := LABPRO_OK, argc_list := 1, argv_list := [[120]] } :=
  ⟨parse_list_roundtrip sample_bad_list alloc_always (fun _ => rfl) [[49], [50], [51]] []
      (by decide) (by decide),
    parse_list_roundtrip sample_bad_list alloc_always (fun _ => rfl) [[120]] []
      (by decide) (by decide)⟩

/-- C15. For every input text that does not begin with `{` (the empty text
included) or that contains no `}`, `LabPro_parse_list` returns the malformed
list error and reports an element count of 0, without storing any element. -/
theorem parse_list_malformed (bad_list : Int) (alloc_ok : Nat → Bool) (string : List Nat)
    (h : (c_str string).head? ≠ some 123 ∨ 125 ∉ c_str string) :
    LabPro_parse_list bad_list alloc_ok string =
      { retval := bad_list, argc_list := 0, argv_list := [] } := by
  unfold LabPro_parse_list
  rw [if_pos]
  rcases h with h | h
  · exact Or.inl (fun hc => h ((headD_eq_brace_iff string).mp hc))
  · refine Or.inr ?_
    rw [strstr_single 125 (by decide), if_neg h]

/-- C15 at the sample inputs of the specification: `1,2,3}`, `{1,2,3` and the
empty text are malformed. -/
theorem parse_list_malformed_witness :
    LabPro_parse_list sample_bad_list alloc_always list_no_open =
      { retval := sample_bad_list, argc_list := 0, argv_list := [] } ∧
    LabPro_parse_list sample_bad_list alloc_always list_no_close =
      { retval := sample_bad_list, argc_list := 0, argv_list := [] } ∧
    LabPro_parse_list sample_bad_list alloc_always [0] =
      { retval := sample_bad_list, argc_list := 0, argv_list := [] } :=
  ⟨parse_list_malformed sample_bad_list alloc_always list_no_open (Or.inl (by decide)),
    parse_list_malformed sample_bad_list alloc_always list_no_close (Or.inr (by decide)),
    parse_list_malformed sample_bad_list alloc_always [0] (Or.inl (by decide))⟩

/-- C16 (counterexample to the claim as stated). The text `{a},b` begins with
`{` and contains a `}`, yet `LabPro_parse_list` fails on it with the malformed
list error; and on `{a}b,c}` it returns the two elements `a}b` and `c`, not the
single piece `a` that lies between the `{` and the first `}`. -/
theorem parse_list_comma_after_brace :
    (c_str list_comma_after).head? = some 123 ∧ 125 ∈ c_str list_comma_after ∧
    LabPro_parse_list sample_bad_list alloc_always list_comma_after
      = { retval := sample_bad_list, argc_list := 0, argv_list := [[97, 125]] } ∧
    sample_bad_list ≠ LABPRO_OK ∧
    (c_str list_two_braces).head? = some 123 ∧ 125 ∈ c_str list_two_braces ∧
    ((c_str list_two_braces).tail.takeWhile (fun b => b != 125)).splitOn 44 = [[97]] ∧
    LabPro_parse_list sample_bad_list alloc_always list_two_braces
      = { retval := LABPRO_OK, argc_list := 2, argv_list := [[97, 125, 98], [99]] } := by
  refine ⟨by decide, by decide, ?_, by decide, by decide, by decide, by decide, ?_⟩
  · simp [LabPro_parse_list, parse_loop, strstr, strstr_from, c_str, list_comma_after,
      alloc_always, List.isPrefixOf]
  · simp [LabPro_parse_list, parse_loop, strstr, strstr_from, c_str, list_two_braces,
      alloc_always, List.isPrefixOf]

/-- C16 (as amended). For every input text that begins with `{`, contains a
`}` and has no comma after its first `}`, `LabPro_parse_list` (all its
allocations succeeding) returns `LABPRO_OK` and exactly the comma-separated
pieces of the text lying between the opening `{` and that first `}`; what
follows the `}` has no other effect on the result. -/
theorem parse_list_up_to_first_brace (bad_list : Int) (alloc_ok : Nat → Bool)
    (halloc : ∀ n, alloc_ok n = true) (string : List Nat)
    (hopen : (c_str string).head? = some 123) (hclose : 125 ∈ c_str string)
    (hafter : 44 ∉ (c_str string).tail.dropWhile (fun b => b != 125)) :
    LabPro_parse_list bad_list alloc_ok string =
      { retval := LABPRO_OK,
        argc_list := (((c_str string).tail.takeWhile (fun b => b != 125)).splitOn 44).length,
        argv_list := ((c_str string).tail.takeWhile (fun b => b != 125)).splitOn 44 } := by
  have hmem : string = c_str string ++ string.dropWhile (fun b => b != 0) :=
    (List.takeWhile_append_dropWhile _ _).symm
  have hnz := c_str_ne_zero string
  generalize c_str string = text at hopen hclose hafter hmem hnz
  cases text with
  | nil => simp at hopen
  | cons x t =>
    simp only [List.head?_cons, Option.some.injEq] at hopen
    subst hopen
    have hclose2 : 125 ∈ t := by
      rcases List.mem_cons.mp hclose with h | h
      · exact absurd h (by decide)
      · exact h
    obtain ⟨body, post, ht, hnb⟩ := List.eq_append_cons_of_mem hclose2
    subst ht
    simp only [List.tail_cons] at hafter ⊢
    rw [dropWhile_first 125 _ _ hnb] at hafter
    rw [takeWhile_first 125 _ _ hnb]
    have hbody : ∀ b ∈ body, b ≠ 0 ∧ b ≠ 125 := by
      intro b hb
      refine ⟨hnz b (List.mem_cons_of_mem _ (List.mem_append_left _ hb)), ?_⟩
      intro e
      exact hnb (e ▸ hb)
    have hpost : ∀ b ∈ post, b ≠ 0 := fun b hb =>
      hnz b (List.mem_cons_of_mem _ (List.mem_append_right _ (List.mem_cons_of_mem _ hb)))
    have htail : 44 ∉ c_str (post ++ string.dropWhile (fun b => b != 0)) := by
      rw [c_str_append_of_ne_zero post _ hpost, c_str_dropWhile, List.append_nil]
      exact fun h => hafter (List.mem_cons_of_mem _ h)
    have hstr : string = 123 :: (body ++ 125 :: (post ++ string.dropWhile (fun b => b != 0))) := by
      conv_lhs => rw [hmem]
      simp
    rw [hstr]
    exact parse_list_decomposed bad_list alloc_ok halloc body _ hbody htail

/-- C16 (as amended) at a sample input: the text `{1,2}xy` gives the pieces
`1` and `2`, whatever follows the `}`. -/
theorem parse_list_up_to_first_brace_witness :
    (c_str list_trailing).head? = some 123 ∧ 125 ∈ c_str list_trailing ∧
    44 ∉ (c_str list_trailing).tail.dropWhile (fun b => b != 125) ∧
    LabPro_parse_list sample_bad_list alloc_always list_trailing =
      { retval := LABPRO_OK, argc_list := 2, argv_list := [[49], [50]] } :=
  ⟨by decide, by decide, by decide,
    parse_list_up_to_first_brace sample_bad_list alloc_always (fun _ => rfl) list_trailing
      (by decide) (by decide) (by decide)⟩

/-! ### `LabPro_list_labpros` -/

theorem scan_endpoints_found (eps : List EndpointDesc) (found : Option Nat × Option Nat) :
    (scan_endpoints eps found).1.isSome
      = (found.1.isSome || eps.any (fun ep => is_bulk ep && is_in ep)) ∧
    (scan_endpoints eps found).2.isSome
      = (found.2.isSome || eps.any (fun ep => is_bulk ep && !is_in ep)) := by
  induction eps generalizing found with
  | nil => simp [scan_endpoints]
  | cons ep eps ih =>
    rw [scan_endpoints]
    cases hb : is_bulk ep <;> cases hi : is_in ep <;>
      simp [hb, hi, ih, Bool.or_assoc]

theorem scan_endpoints_addr (eps : List EndpointDesc) (found : Option Nat × Option Nat) :
    (∀ a, (scan_endpoints eps found).1 = some a → found.1 = some a ∨
      ∃ ep ∈ eps, is_bulk ep = true ∧ is_in ep = true ∧ ep.bEndpointAddress = a) ∧
    (∀ a, (scan_endpoints eps found).2 = some a → found.2 = some a ∨
      ∃ ep ∈ eps, is_bulk ep = true ∧ is_in ep = false ∧ ep.bEndpointAddress = a) := by
  induction eps generalizing found with
  | nil => simp [scan_endpoints]
  | cons ep eps ih =>
    rw [scan_endpoints]
    cases hb : is_bulk ep
    · simp only [Bool.not_false, if_true]
      refine ⟨fun a h => ?_, fun a h => ?_⟩
      · rcases (ih found).1 a h with h1 | ⟨e, he, h2⟩
        · exact Or.inl h1
        · exact Or.inr ⟨e, List.mem_cons_of_mem _ he, h2⟩
      · rcases (ih found).2 a h with h1 | ⟨e, he, h2⟩
        · exact Or.inl h1
        · exact Or.inr ⟨e, List.mem_cons_of_mem _ he, h2⟩
    · cases hi : is_in ep
      · simp only [Bool.not_true, Bool.false_eq_true, if_false]
        refine ⟨fun a h => ?_, fun a h => ?_⟩
        · rcases (ih _).1 a h with h1 | ⟨e, he, h2⟩
          · exact Or.inl h1
          · exact Or.inr ⟨e, List.mem_cons_of_mem _ he, h2⟩
        · rcases (ih _).2 a h with h1 | ⟨e, he, h2⟩
          · simp only [Option.some.injEq] at h1
            exact Or.inr ⟨ep, List.mem_cons_self _ _, hb, hi, h1⟩
          · exact Or.inr ⟨e, List.mem_cons_of_mem _ he, h2⟩
      · simp only [Bool.not_true, Bool.false_eq_true, if_false, if_true]
        refine ⟨fun a h => ?_, fun a h => ?_⟩
        · rcases (ih _).1 a h with h1 | ⟨e, he, h2⟩
          · simp only [Option.some.injEq] at h1
            exact Or.inr ⟨ep, List.mem_cons_self _ _, hb, hi, h1⟩
          · exact Or.inr ⟨e, List.mem_cons_of_mem _ he, h2⟩
        · rcases (ih _).2 a h with h1 | ⟨e, he, h2⟩
          · exact Or.inl h1
          · exact Or.inr ⟨e, List.mem_cons_of_mem _ he, h2⟩

theorem last_addr_cons_pos (p : EndpointDesc → Bool) (ep : EndpointDesc)
    (eps : List EndpointDesc) (h : p ep = true) :
    last_addr p (ep :: eps) = some ((last_addr p eps).getD ep.bEndpointAddress) := by
  unfold last_addr
  rw [List.filter_cons_of_pos h, List.getLast?_cons]
  cases (eps.filter p).getLast? <;> rfl

theorem last_addr_cons_neg (p : EndpointDesc → Bool) (ep : EndpointDesc)
    (eps : List EndpointDesc) (h : p ep = false) :
    last_addr p (ep :: eps) = last_addr p eps := by
  unfold last_addr
  rw [List.filter_cons_of_neg (by simp [h])]

/-- The loop over the endpoint descriptors in closed form: each address is the
one of the last bulk endpoint of its direction, or the one it was entered with
when the list has no such endpoint. -/
theorem scan_endpoints_last (eps : List EndpointDesc) (found : Option Nat × Option Nat) :
    (scan_endpoints eps found).1
      = (last_addr (fun ep => is_bulk ep && is_in ep) eps).or found.1 ∧
    (scan_endpoints eps found).2
      = (last_addr (fun ep => is_bulk ep && !is_in ep) eps).or found.2 := by
  induction eps generalizing found with
  | nil => simp [scan_endpoints, last_addr]
  | cons ep eps ih =>
    rw [scan_endpoints]
    cases hb : is_bulk ep
    · simp only [Bool.not_false, if_true]
      rw [last_addr_cons_neg _ ep eps (by simp [hb]), last_addr_cons_neg _ ep eps (by simp [hb])]
      exact ih found
    · cases hi : is_in ep
      · simp only [Bool.not_true, Bool.false_eq_true, if_false]
        rw [last_addr_cons_neg _ ep eps (by simp [hi]),
          last_addr_cons_pos _ ep eps (by simp [hb, hi]), (ih _).1, (ih _).2]
        refine ⟨rfl, ?_⟩
        cases last_addr (fun ep => is_bulk ep && !is_in ep) eps <;> rfl
      · simp only [Bool.not_true, Bool.false_eq_true, if_false, if_true]
        rw [last_addr_cons_pos _ ep eps (by simp [hb, hi]),
          last_addr_cons_neg _ ep eps (by simp [hi]), (ih _).1, (ih _).2]
        refine ⟨?_, rfl⟩
        cases last_addr (fun ep => is_bulk ep && is_in ep) eps <;> rfl

/-- The outcome of `probe_device` in closed form. -/
theorem probe_device_result (d : UsbDevice) (i : Nat) :
    (probe_device d i).1 =
      if steps_succeed d = true then
        match scan_endpoints d.endpoints (none, none) with
        | (some in_addr, some out_addr) => some (in_addr, out_addr)
        | _ => none
      else none := by
  unfold probe_device steps_succeed
  by_cases h1 : d.open_status = LIBUSB_SUCCESS
  · by_cases h2 : d.kernel_driver_active = 1 ∧ d.detach_status ≠ 0
    · have : ¬ (d.kernel_driver_active ≠ 1 ∨ d.detach_status = 0) := by
        intro h
        rcases h with h | h
        · exact h h2.1
        · exact h2.2 h
      simp [h1, h2, this]
    · have h2b : d.kernel_driver_active ≠ 1 ∨ d.detach_status = 0 := by
        by_cases h : d.kernel_driver_active = 1
        · exact Or.inr (by
            by_contra hc
            exact h2 ⟨h, hc⟩)
        · exact Or.inl h
      by_cases h3 : d.set_configuration_status = 0
      · by_cases h4 : d.claim_status = 0
        · by_cases h5 : d.config_descriptor_status = 0
          · simp only [h1, h2, h3, h4, h5, ne_eq, not_true_eq_false, if_false]
            have hs : (d.open_status == LIBUSB_SUCCESS &&
                (d.kernel_driver_active != 1 || d.detach_status == 0) &&
                d.set_configuration_status == 0 && d.claim_status == 0 &&
                d.config_descriptor_status == 0) = true := by
              simp only [Bool.and_eq_true, beq_iff_eq, Bool.or_eq_true, bne_iff_ne, ne_eq]
              exact ⟨⟨⟨⟨h1, h2b⟩, h3⟩, h4⟩, h5⟩
            rw [h1, h3, h4, h5] at hs
            rw [if_pos hs]
            split <;> simp_all
          · simp [h1, h2, h3, h4, h5]
        · simp [h1, h2, h3, h4]
      · simp [h1, h2, h3]
  · simp [h1]

theorem probe_device_isSome (d : UsbDevice) (i : Nat) :
    (probe_device d i).1.isSome = (steps_succeed d && has_bulk_in d && has_bulk_out d) := by
  rw [probe_device_result]
  have h := scan_endpoints_found d.endpoints (none, none)
  unfold has_bulk_in has_bulk_out
  simp only [Option.isSome_none, Bool.false_or] at h
  rw [← h.1, ← h.2]
  cases hs : steps_succeed d
  · simp
  · simp only [if_true, Bool.true_and]
    rcases hsc : scan_endpoints d.endpoints (none, none) with ⟨a, b⟩
    cases a <;> cases b <;> simp

theorem list_loop_full (stale : Nat → LabPro) (bus : List UsbDevice) (i : Nat)
    (lp : LabPro_List) (log : List UsbOp) (h : ¬ lp.num < 5) :
    list_loop stale bus i lp log = (lp, log) := by
  cases bus with
  | nil => rfl
  | cons d ds => rw [list_loop, if_neg h]

theorem list_loop_append (stale : Nat → LabPro) (pre post : List UsbDevice) :
    ∀ (i : Nat) (lp : LabPro_List) (log : List UsbOp),
      list_loop stale (pre ++ post) i lp log =
        list_loop stale post (i + pre.length) (list_loop stale pre i lp log).1
          (list_loop stale pre i lp log).2 := by
  induction pre with
  | nil => intro i lp log; rfl
  | cons d ds ih =>
    intro i lp log
    have e : i + (d :: ds).length = i + 1 + ds.length := by
      simp only [List.length_cons]
      omega
    rw [e, List.cons_append, list_loop, list_loop]
    by_cases h5 : lp.num < 5
    · simp only [h5, if_true]
      by_cases hm : d.idVendor = 0x08f7 ∧ d.idProduct = 1
      · simp only [hm, and_self, if_true]
        cases hp : (probe_device d i).1 with
        | none => exact ih _ _ _
        | some addrs => exact ih _ _ _
      · simp only [hm, if_false]
        exact ih _ _ _
    · simp only [h5, if_false]
      exact (list_loop_full stale post _ lp log h5).symm

theorem acceptable_eq (d : UsbDevice) (i : Nat) :
    acceptable d = (matches_identity d && (probe_device d i).1.isSome) := by
  rw [probe_device_isSome]
  unfold acceptable
  simp [Bool.and_assoc]

/-- The devices accepted by the device loop, by their handles. -/
theorem list_loop_handles (stale : Nat → LabPro) (bus : List UsbDevice) :
    ∀ (i : Nat) (lp : LabPro_List) (log : List UsbOp), lp.num = lp.labpros.length →
      (list_loop stale bus i lp log).1.labpros.map (fun l => l.device_handle) =
        lp.labpros.map (fun l => l.device_handle) ++
          ((bus.filter acceptable).take (5 - lp.num)).map (fun d => d.handle) ∧
      (list_loop stale bus i lp log).1.num = (list_loop stale bus i lp log).1.labpros.length := by
  induction bus with
  | nil =>
    intro i lp log h
    simp [list_loop, h]
  | cons d ds ih =>
    intro i lp log h
    rw [list_loop]
    by_cases h5 : lp.num < 5
    · simp only [h5, if_true]
      by_cases hm : d.idVendor = 0x08f7 ∧ d.idProduct = 1
      · have hmi : matches_identity d = true := by
          simp [matches_identity, hm.1, hm.2]
        simp only [hm, and_self, if_true]
        cases hp : (probe_device d i).1 with
        | none =>
          have ha : acceptable d = false := by
            rw [acceptable_eq d i, hp]
            simp
          simp only [List.filter_cons, ha, Bool.false_eq_true, if_false]
          exact ih _ _ _ h
        | some addrs =>
          have ha : acceptable d = true := by
            rw [acceptable_eq d i, hp, hmi]
            rfl
          simp only [List.filter_cons, ha, if_true]
          have := ih (i + 1)
            { num := lp.num + 1,
              labpros := lp.labpros ++
                [{ stale lp.num with
                   device_handle := d.handle, is_open := true, in_endpt_addr := addrs.1,
                   out_endpt_addr := addrs.2, timeout := 5000 }] }
            (log ++ [UsbOp.libusb_get_device_descriptor i] ++ (probe_device d i).2)
            (by simp [h])
          refine ⟨?_, this.2⟩
          rw [this.1]
          obtain ⟨k, hk⟩ : ∃ k, 5 - lp.num = k + 1 := ⟨4 - lp.num, by omega⟩
          have hk2 : 5 - (lp.num + 1) = k := by omega
          simp only [hk, hk2, List.take_succ_cons, List.map_append, List.map_cons, List.map_nil,
            List.append_assoc, List.singleton_append]
      · have ha : acceptable d = false := by
          unfold acceptable matches_identity
          have : ¬ (d.idVendor = 0x08f7 ∧ d.idProduct = 1) := hm
          simp only [Bool.and_eq_false_imp, Bool.and_eq_true, beq_iff_eq]
          intro h1
          exact absurd h1.1.1 this
        simp only [hm, if_false, List.filter_cons, ha, Bool.false_eq_true]
        exact ih _ _ _ h
    · simp only [h5, if_false]
      have : 5 - lp.num = 0 := by omega
      rw [this]
      exact ⟨by simp, h⟩

/-- Where the records of the device loop come from: an accepted record is
open, has the default timeout, and carries the handle of a device with the
LabPro identity whose opening steps succeed, together with the addresses of a
bulk-in and of a bulk-out endpoint of that device, each the last of its
direction among the endpoint descriptors. -/
theorem list_loop_origin (stale : Nat → LabPro) (bus : List UsbDevice) :
    ∀ (i : Nat) (lp : LabPro_List) (log : List UsbOp),
      ∀ l ∈ (list_loop stale bus i lp log).1.labpros, l ∈ lp.labpros ∨
        (l.is_open = true ∧ l.timeout = 5000 ∧
          ∃ d ∈ bus, matches_identity d = true ∧ steps_succeed d = true ∧
            l.device_handle = d.handle ∧
            (∃ ep ∈ d.endpoints, is_bulk ep = true ∧ is_in ep = true ∧
              l.in_endpt_addr = ep.bEndpointAddress) ∧
            (∃ ep ∈ d.endpoints, is_bulk ep = true ∧ is_in ep = false ∧
              l.out_endpt_addr = ep.bEndpointAddress) ∧
            last_bulk_in d = some l.in_endpt_addr ∧
            last_bulk_out d = some l.out_endpt_addr) := by
  induction bus with
  | nil =>
    intro i lp log l hl
    exact Or.inl hl
  | cons d ds ih =>
    intro i lp log l hl
    have lift : ∀ (lp2 : LabPro_List),
        (l ∈ lp2.labpros ∨
          (l.is_open = true ∧ l.timeout = 5000 ∧
            ∃ d ∈ ds, matches_identity d = true ∧ steps_succeed d = true ∧
              l.device_handle = d.handle ∧
              (∃ ep ∈ d.endpoints, is_bulk ep = true ∧ is_in ep = true ∧
                l.in_endpt_addr = ep.bEndpointAddress) ∧
              (∃ ep ∈ d.endpoints, is_bulk ep = true ∧ is_in ep = false ∧
                l.out_endpt_addr = ep.bEndpointAddress) ∧
              last_bulk_in d = some l.in_endpt_addr ∧
              last_bulk_out d = some l.out_endpt_addr)) →
        lp2.labpros = lp.labpros →
        (l ∈ lp.labpros ∨
          (l.is_open = true ∧ l.timeout = 5000 ∧
            ∃ d2 ∈ d :: ds, matches_identity d2 = true ∧ steps_succeed d2 = true ∧
              l.device_handle = d2.handle ∧
              (∃ ep ∈ d2.endpoints, is_bulk ep = true ∧ is_in ep = true ∧
                l.in_endpt_addr = ep.bEndpointAddress) ∧
              (∃ ep ∈ d2.endpoints, is_bulk ep = true ∧ is_in ep = false ∧
                l.out_endpt_addr = ep.bEndpointAddress) ∧
              last_bulk_in d2 = some l.in_endpt_addr ∧
              last_bulk_out d2 = some l.out_endpt_addr)) := by
      intro lp2 h he
      rcases h with h | ⟨h1, h2, d2, hd2, h3⟩
      · exact Or.inl (he ▸ h)
      · exact Or.inr ⟨h1, h2, d2, List.mem_cons_of_mem _ hd2, h3⟩
    rw [list_loop] at hl
    by_cases h5 : lp.num < 5
    · simp only [h5, if_true] at hl
      by_cases hm : d.idVendor = 0x08f7 ∧ d.idProduct = 1
      · have hmi : matches_identity d = true := by
          simp [matches_identity, hm.1, hm.2]
        simp only [hm, and_self, if_true] at hl
        cases hp : (probe_device d i).1 with
        | none =>
          rw [hp] at hl
          exact lift lp (ih _ _ _ l hl) rfl
        | some addrs =>
          rw [hp] at hl
          rcases ih _ _ _ l hl with h | ⟨h1, h2, d2, hd2, h3⟩
          · rcases List.mem_append.mp h with h | h
            · exact Or.inl h
            · simp only [List.mem_singleton] at h
              refine Or.inr ⟨by rw [h], by rw [h], d, List.mem_cons_self _ _, hmi, ?_, by rw [h],
                ?_, ?_, ?_, ?_⟩
              · have hs := probe_device_isSome d i
                rw [hp] at hs
                cases hst : steps_succeed d
                · rw [hst] at hs
                  simp at hs
                · rfl
              · have hres := probe_device_result d i
                rw [hp] at hres
                split at hres
                · split at hres
                  · rename_i a b hsc
                    simp only [Option.some.injEq] at hres
                    have h1 := (scan_endpoints_addr d.endpoints (none, none)).1 a (by rw [hsc])
                    rcases h1 with h1 | ⟨ep, hep, hb, hi, ha⟩
                    · simp at h1
                    · refine ⟨ep, hep, hb, hi, ?_⟩
                      rw [h, ha, hres]
                  · simp at hres
                · simp at hres
              · have hres := probe_device_result d i
                rw [hp] at hres
                split at hres
                · split at hres
                  · rename_i a b hsc
                    simp only [Option.some.injEq] at hres
                    have h1 := (scan_endpoints_addr d.endpoints (none, none)).2 b (by rw [hsc])
                    rcases h1 with h1 | ⟨ep, hep, hb, hi, ha⟩
                    · simp at h1
                    · refine ⟨ep, hep, hb, hi, ?_⟩
                      rw [h, ha, hres]
                  · simp at hres
                · simp at hres
              · have hres := probe_device_result d i
                rw [hp] at hres
                split at hres
                · split at hres
                  · rename_i a b hsc
                    simp only [Option.some.injEq] at hres
                    have h1 := (scan_endpoints_last d.endpoints (none, none)).1
                    rw [hsc, Option.or_none] at h1
                    rw [h, hres]
                    exact h1.symm
                  · simp at hres
                · simp at hres
              · have hres := probe_device_result d i
                rw [hp] at hres
                split at hres
                · split at hres
                  · rename_i a b hsc
                    simp only [Option.some.injEq] at hres
                    have h1 := (scan_endpoints_last d.endpoints (none, none)).2
                    rw [hsc, Option.or_none] at h1
                    rw [h, hres]
                    exact h1.symm
                  · simp at hres
                · simp at hres
          · exact Or.inr ⟨h1, h2, d2, List.mem_cons_of_mem _ hd2, h3⟩
      · simp only [hm, if_false] at hl
        exact lift lp (ih _ _ _ l hl) rfl
    · simp only [h5, if_false] at hl
      exact Or.inl hl

theorem probe_device_open_index (d : UsbDevice) (i j : Nat)
    (h : UsbOp.libusb_open j ∈ (probe_device d i).2) : j = i := by
  unfold probe_device at h
  split_ifs at h
  all_goals first
    | (simp at h; exact h)
    | (split at h <;> simp at h <;> exact h)

theorem list_loop_open_index (stale : Nat → LabPro) (bus : List UsbDevice) :
    ∀ (i : Nat) (lp : LabPro_List) (log : List UsbOp) (j : Nat),
      UsbOp.libusb_open j ∈ (list_loop stale bus i lp log).2 →
        UsbOp.libusb_open j ∈ log ∨ (i ≤ j ∧ j < i + bus.length) := by
  induction bus with
  | nil =>
    intro i lp log j h
    exact Or.inl h
  | cons d ds ih =>
    intro i lp log j h
    have step : ∀ (lp2 : LabPro_List) (extra : List UsbOp),
        (∀ k, UsbOp.libusb_open k ∈ extra → k = i) →
        UsbOp.libusb_open j ∈ (list_loop stale ds (i + 1) lp2
          (log ++ [UsbOp.libusb_get_device_descriptor i] ++ extra)).2 →
        UsbOp.libusb_open j ∈ log ∨ (i ≤ j ∧ j < i + (d :: ds).length) := by
      intro lp2 extra hex hmem
      simp only [List.length_cons]
      rcases ih _ _ _ j hmem with h1 | h1
      · rcases List.mem_append.mp h1 with h2 | h2
        · rcases List.mem_append.mp h2 with h3 | h3
          · exact Or.inl h3
          · simp at h3
        · have := hex j h2
          exact Or.inr ⟨by omega, by omega⟩
      · exact Or.inr ⟨by omega, by omega⟩
    rw [list_loop] at h
    by_cases h5 : lp.num < 5
    · simp only [h5, if_true] at h
      by_cases hm : d.idVendor = 0x08f7 ∧ d.idProduct = 1
      · simp only [hm, and_self, if_true] at h
        cases hp : (probe_device d i).1 with
        | none =>
          rw [hp] at h
          exact step _ _ (fun k hk => probe_device_open_index d i k hk) h
        | some addrs =>
          rw [hp] at h
          exact step _ _ (fun k hk => probe_device_open_index d i k hk) h
      · simp only [hm, if_false] at h
        have h2 : UsbOp.libusb_open j ∈ (list_loop stale ds (i + 1) lp
            (log ++ [UsbOp.libusb_get_device_descriptor i] ++ [])).2 := by
          simpa using h
        exact step lp [] (fun k hk => by simp at hk) h2
    · simp only [h5, if_false] at h
      exact Or.inl h

/-- C17. For every enumeration of the bus, `LabPro_list_labpros` returns the
first acceptable matching candidates in enumeration order, at most 5 of them:
the count is `min 5` of their number and is the number of entries filled. Once
5 candidates are accepted the rest of the enumeration has no effect and no
later device is opened. When no device has the LabPro identity, when the
enumeration is empty and when it fails, the count is 0. -/
theorem list_labpros_first_five (stale : Nat → LabPro) (bus : List UsbDevice) :
    (LabPro_list_labpros stale (some bus)).1.labpros.map (fun l => l.device_handle) =
      ((bus.filter acceptable).take 5).map (fun d => d.handle) ∧
    (LabPro_list_labpros stale (some bus)).1.num = min 5 (bus.filter acceptable).length ∧
    (LabPro_list_labpros stale (some bus)).1.num =
      (LabPro_list_labpros stale (some bus)).1.labpros.length ∧
    (∀ pre post, bus = pre ++ post → (pre.filter acceptable).length = 5 →
      LabPro_list_labpros stale (some bus) = LabPro_list_labpros stale (some pre) ∧
      ∀ j, UsbOp.libusb_open j ∈ (LabPro_list_labpros stale (some bus)).2 → j < pre.length) ∧
    ((∀ d ∈ bus, matches_identity d = false) →
      (LabPro_list_labpros stale (some bus)).1.num = 0) ∧
    (LabPro_list_labpros stale (some [])).1.num = 0 ∧
    (LabPro_list_labpros stale none).1.num = 0 := by
  have key : ∀ (b : List UsbDevice),
      (LabPro_list_labpros stale (some b)).1.labpros.map (fun l => l.device_handle) =
        ((b.filter acceptable).take 5).map (fun d => d.handle) ∧
      (LabPro_list_labpros stale (some b)).1.num =
        (LabPro_list_labpros stale (some b)).1.labpros.length := by
    intro b
    have h := list_loop_handles stale b 0 { num := 0, labpros := [] }
      [UsbOp.libusb_get_device_list] rfl
    simpa [LabPro_list_labpros] using h
  have hnum : ∀ (b : List UsbDevice),
      (LabPro_list_labpros stale (some b)).1.num = min 5 (b.filter acceptable).length := by
    intro b
    rw [(key b).2]
    have := congrArg List.length (key b).1
    simp only [List.length_map, List.length_take] at this
    exact this
  refine ⟨(key bus).1, hnum bus, (key bus).2, ?_, ?_, rfl, rfl⟩
  · intro pre post hb hfive
    subst hb
    have hpre := hnum pre
    rw [hfive] at hpre
    have hfull : ¬ (list_loop stale pre 0 { num := 0, labpros := [] }
        [UsbOp.libusb_get_device_list]).1.num < 5 := by
      have : (LabPro_list_labpros stale (some pre)).1.num = 5 := by simpa using hpre
      simp only [LabPro_list_labpros] at this
      omega
    have heq : LabPro_list_labpros stale (some (pre ++ post))
        = LabPro_list_labpros stale (some pre) := by
      simp only [LabPro_list_labpros]
      rw [list_loop_append, list_loop_full stale post _ _ _ hfull]
    refine ⟨heq, ?_⟩
    intro j hj
    rw [heq] at hj
    simp only [LabPro_list_labpros] at hj
    rcases List.mem_append.mp hj with h1 | h1
    · rcases list_loop_open_index stale pre 0 _ _ j h1 with h2 | h2
      · simp at h2
      · omega
    · simp at h1
  · intro hno
    rw [hnum bus]
    have : bus.filter acceptable = [] := by
      rw [List.filter_eq_nil_iff]
      intro d hd
      have := hno d hd
      simp [acceptable, this]
    simp [this]

/-- C17 at a sample enumeration: seven LabPros among other devices; the first
five are returned and the sixth is never opened. -/
theorem list_labpros_first_five_witness :
    (LabPro_list_labpros stale0 (some ([usb_other, usb_labpro 1, usb_no_out, usb_labpro 2,
      usb_labpro 3, usb_labpro 4, usb_labpro 5] ++ [usb_labpro 6, usb_labpro 7]))).1.labpros.map
        (fun l => l.device_handle) = [1, 2, 3, 4, 5] ∧
    (∀ j, UsbOp.libusb_open j ∈ (LabPro_list_labpros stale0 (some ([usb_other, usb_labpro 1,
      usb_no_out, usb_labpro 2, usb_labpro 3, usb_labpro 4, usb_labpro 5]
        ++ [usb_labpro 6, usb_labpro 7]))).2 → j < 7) :=
  ⟨(list_labpros_first_five stale0 _).1,
    ((list_labpros_first_five stale0 _).2.2.2.1 _ _ rfl (by decide)).2⟩

/-- C18 (counterexample to the claim as stated). A LabPro that exposes two
bulk-in endpoints and one bulk-out endpoint is accepted; the record keeps the
bulk-in endpoint found last. -/
theorem list_labpros_accepts_two_bulk_in :
    (usb_two_in.endpoints.filter (fun ep => is_bulk ep && is_in ep)).length = 2 ∧
    (LabPro_list_labpros stale0 (some [usb_two_in])).1 =
      { num := 1,
        labpros := [{ device_handle := 7, is_open := true, is_busy := true,
                      is_fastmode_running := true, is_collecting_data := true,
                      in_endpt_addr := 0x83, out_endpt_addr := 0x02, timeout := 5000 }] } := by
  refine ⟨by decide, by decide⟩

/-- C18 (as amended). Every record returned by `LabPro_list_labpros` comes
from a device with the LabPro identity, whose opening steps succeeded, and
holds the addresses of a bulk-in and of a bulk-out endpoint of interface 0,
alternate setting 0 of that device, namely of the last bulk-in and of the last
bulk-out endpoint in the order of the descriptors; when every device of the
enumeration lacks a bulk endpoint in one of the two directions nothing is
returned; and a matching device whose opening steps succeed and whose endpoints
are all bulk is accepted exactly when it has a bulk endpoint in each
direction. -/
theorem list_labpros_needs_both_directions (stale : Nat → LabPro) (bus : List UsbDevice) :
    (∀ l ∈ (LabPro_list_labpros stale (some bus)).1.labpros,
      ∃ d ∈ bus, matches_identity d = true ∧ steps_succeed d = true ∧
        l.device_handle = d.handle ∧
        (∃ ep ∈ d.endpoints, is_bulk ep = true ∧ is_in ep = true ∧
          l.in_endpt_addr = ep.bEndpointAddress) ∧
        (∃ ep ∈ d.endpoints, is_bulk ep = true ∧ is_in ep = false ∧
          l.out_endpt_addr = ep.bEndpointAddress) ∧
        last_bulk_in d = some l.in_endpt_addr ∧
        last_bulk_out d = some l.out_endpt_addr) ∧
    ((∀ d ∈ bus, has_bulk_in d = false ∨ has_bulk_out d = false) →
      (LabPro_list_labpros stale (some bus)).1.labpros = []) ∧
    (∀ d, matches_identity d = true → steps_succeed d = true →
      (∀ ep ∈ d.endpoints, is_bulk ep = true) →
      ((LabPro_list_labpros stale (some [d])).1.num = 1 ↔
        has_bulk_in d = true ∧ has_bulk_out d = true)) := by
  refine ⟨?_, ?_, ?_⟩
  · intro l hl
    simp only [LabPro_list_labpros] at hl
    rcases list_loop_origin stale bus 0 _ _ l hl with h | ⟨_, _, h⟩
    · simp at h
    · exact h
  · intro hlack
    have h := (list_loop_handles stale bus 0 { num := 0, labpros := [] }
      [UsbOp.libusb_get_device_list] rfl).1
    have hf : bus.filter acceptable = [] := by
      rw [List.filter_eq_nil_iff]
      intro d hd
      rcases hlack d hd with h1 | h1 <;> simp [acceptable, h1]
    rw [hf] at h
    simpa [LabPro_list_labpros] using h
  · intro d hm hs _
    have h := list_loop_handles stale [d] 0 { num := 0, labpros := [] }
      [UsbOp.libusb_get_device_list] rfl
    have hn : (LabPro_list_labpros stale (some [d])).1.num
        = (([d].filter acceptable).take 5).length := by
      simp only [LabPro_list_labpros]
      rw [h.2]
      have := congrArg List.length h.1
      simpa using this
    rw [hn]
    have ha : acceptable d = (has_bulk_in d && has_bulk_out d) := by
      simp [acceptable, hm, hs]
    cases hi : has_bulk_in d <;> cases ho : has_bulk_out d <;>
      simp [List.filter_cons, ha, hi, ho]

/-- C18 (as amended) at sample inputs: a LabPro with one bulk endpoint in each
direction is accepted, nothing is returned for a LabPro without bulk-out
endpoint, and the record of the LabPro with the bulk-in endpoints `0x81` and
`0x83` holds `0x83`, the last of them. -/
theorem list_labpros_needs_both_directions_witness :
    (LabPro_list_labpros stale0 (some [usb_labpro 1])).1.num = 1 ∧
    (LabPro_list_labpros stale0 (some [usb_no_out])).1.labpros = [] ∧
    last_bulk_in usb_two_in = some 0x83 ∧
    (∀ l ∈ (LabPro_list_labpros stale0 (some [usb_two_in])).1.labpros,
      l.in_endpt_addr = 0x83) :=
  ⟨((list_labpros_needs_both_directions stale0 []).2.2 (usb_labpro 1) (by decide) (by decide)
      (by decide)).2 ⟨by decide, by decide⟩,
    (list_labpros_needs_both_directions stale0 [usb_no_out]).2.1 (by decide),
    by decide,
    fun l hl => by
      obtain ⟨d, hd, _, _, _, _, _, hin, _⟩ :=
        (list_labpros_needs_both_directions stale0 [usb_two_in]).1 l hl
      rw [List.mem_singleton] at hd
      subst hd
      have h83 : last_bulk_in usb_two_in = some 0x83 := by decide
      rw [h83] at hin
      exact (Option.some.inj hin).symm⟩

/-- C19 (the code at the failing input). For a LabPro whose configuration
descriptor cannot be read, interface 0 is claimed and the handle is then closed
without `libusb_release_interface`; the rejection for a missing endpoint, a few
lines below, does release the interface before closing. -/
theorem list_labpros_leaks_claimed_interface :
    (LabPro_list_labpros stale0 (some [usb_no_descriptor])).1 = { num := 0, labpros := [] } ∧
    (LabPro_list_labpros stale0 (some [usb_no_descriptor])).2 =
      [UsbOp.libusb_get_device_list, UsbOp.libusb_get_device_descriptor 0,
       UsbOp.libusb_open 0, UsbOp.libusb_kernel_driver_active 0,
       UsbOp.libusb_set_configuration 0, UsbOp.libusb_claim_interface 0,
       UsbOp.libusb_get_config_descriptor 0, UsbOp.libusb_close 0,
       UsbOp.libusb_free_device_list] ∧
    UsbOp.libusb_release_interface 0 ∉ (LabPro_list_labpros stale0 (some [usb_no_descriptor])).2 ∧
    (LabPro_list_labpros stale0 (some [usb_no_out])).2 =
      [UsbOp.libusb_get_device_list, UsbOp.libusb_get_device_descriptor 0,
       UsbOp.libusb_open 0, UsbOp.libusb_kernel_driver_active 0,
       UsbOp.libusb_set_configuration 0, UsbOp.libusb_claim_interface 0,
       UsbOp.libusb_get_config_descriptor 0, UsbOp.libusb_free_config_descriptor 0,
       UsbOp.libusb_release_interface 0, UsbOp.libusb_close 0,
       UsbOp.libusb_free_device_list] := by
  refine ⟨by decide, by decide, by decide, by decide⟩

/-! ### `LabPro_query_status` -/

theorem poll_fastmode_clear (labpro : LabPro) (flag : Nat → Bool) (k : Nat) :
    ∀ (m fuel : Nat) (trace : List Event), m ≤ k →
      (∀ j, m ≤ j → j < k → fastmode_after labpro flag j = true) →
      fastmode_after labpro flag k = false → k - m < fuel →
      poll_fastmode labpro flag fuel m trace =
        (true, trace ++ List.replicate (k - m) (Event.sleep 1)) := by
  intro m fuel
  induction fuel generalizing m with
  | zero => intro trace _ _ _ h; omega
  | succ fuel ih =>
    intro trace hm hset hclear hfuel
    rw [poll_fastmode]
    by_cases hk : m = k
    · subst hk
      simp [hclear]
    · have hlt : m < k := by omega
      rw [if_pos (hset m (le_refl _) hlt),
        ih (m + 1) _ (by omega) (fun j h1 h2 => hset j (by omega) h2) hclear (by omega)]
      have e : k - m = (k - (m + 1)) + 1 := by omega
      rw [e, List.replicate_succ, List.append_assoc]
      rfl

theorem poll_fastmode_set (labpro : LabPro) (flag : Nat → Bool) :
    ∀ (fuel m : Nat) (trace : List Event),
      (∀ j, m ≤ j → j < m + fuel → fastmode_after labpro flag j = true) →
      poll_fastmode labpro flag fuel m trace =
        (false, trace ++ List.replicate fuel (Event.sleep 1)) := by
  intro fuel
  induction fuel with
  | zero => intro m trace _; simp [poll_fastmode]
  | succ fuel ih =>
    intro m trace hset
    rw [poll_fastmode, if_pos (hset m (le_refl _) (by omega)),
      ih (m + 1) _ (fun j h1 h2 => hset j (by omega) (by omega)),
      List.replicate_succ, List.append_assoc]
    rfl

/-- C20. `LabPro_query_status` issues no transfer while the fast-mode flag is
set. As long as every test of the flag finds it set, the function has not
returned and its call log holds nothing but the 1 ms sleeps of the polling
loop. When the flag is first seen clear after `k` sleeps, the call log is these
`k` sleeps followed by the log of exactly one call of `LabPro_send_raw` with
the status query, and the function returns; when the flag is clear on entry the
log is that of the send alone. -/
theorem query_status_waits_for_fastmode (labpro : LabPro) (flag : Nat → Bool)
    (malloc_ok : Bool) (usb : Nat → OutXfer) :
    (∀ fuel, (∀ j < fuel, fastmode_after labpro flag j = true) →
      LabPro_query_status fuel labpro flag malloc_ok usb =
        (none, List.replicate fuel (Event.sleep 1)) ∧
      bulk_calls (LabPro_query_status fuel labpro flag malloc_ok usb).2 = []) ∧
    (∀ k fuel, (∀ j < k, fastmode_after labpro flag j = true) →
      fastmode_after labpro flag k = false → k < fuel →
      LabPro_query_status fuel labpro flag malloc_ok usb =
        (some LABPRO_OK, List.replicate k (Event.sleep 1) ++
          (LabPro_send_raw { labpro with is_fastmode_running := false } malloc_ok usb
            [123, 55, 125, 0]).trace)) ∧
    (labpro.is_fastmode_running = false → ∀ fuel, 0 < fuel →
      LabPro_query_status fuel labpro flag malloc_ok usb =
        (some LABPRO_OK,
          (LabPro_send_raw { labpro with is_fastmode_running := false } malloc_ok usb
            [123, 55, 125, 0]).trace)) := by
  have hcmd : [123] ++ decimal LABPRO_SYS_STATUS ++ [125, 0] = [123, 55, 125, 0] := by decide
  have hclear : ∀ k fuel, (∀ j < k, fastmode_after labpro flag j = true) →
      fastmode_after labpro flag k = false → k < fuel →
      LabPro_query_status fuel labpro flag malloc_ok usb =
        (some LABPRO_OK, List.replicate k (Event.sleep 1) ++
          (LabPro_send_raw { labpro with is_fastmode_running := false } malloc_ok usb
            [123, 55, 125, 0]).trace) := by
    intro k fuel hset hcl hfuel
    unfold LabPro_query_status
    rw [poll_fastmode_clear labpro flag k 0 fuel [] (Nat.zero_le _) (fun j _ h => hset j h) hcl
      (by omega), hcmd]
    simp
  refine ⟨?_, hclear, ?_⟩
  · intro fuel hset
    have h : LabPro_query_status fuel labpro flag malloc_ok usb =
        (none, List.replicate fuel (Event.sleep 1)) := by
      unfold LabPro_query_status
      rw [poll_fastmode_set labpro flag fuel 0 [] (fun j _ h => hset j (by omega))]
      simp
    refine ⟨h, ?_⟩
    rw [h]
    generalize fuel = n
    induction n with
    | zero => rfl
    | succ n ih =>
      rw [List.replicate_succ]
      simpa [bulk_calls] using ih
  · intro h0 fuel hfuel
    have := hclear 0 fuel (fun j hj => absurd hj (Nat.not_lt_zero _))
      (by simp [fastmode_after, h0]) hfuel
    simpa using this

/-- C20 at a sample input: the acquisition ends during the third sleep; the
status query of the sample device then goes out in one packet. -/
theorem query_status_waits_for_fastmode_witness :
    LabPro_query_status 2 dev_fastmode flag_clears_at_3 true usb_ok =
      (none, [Event.sleep 1, Event.sleep 1]) ∧
    LabPro_query_status 10 dev_fastmode flag_clears_at_3 true usb_ok =
      (some LABPRO_OK, List.replicate 3 (Event.sleep 1) ++
        (LabPro_send_raw { dev_fastmode with is_fastmode_running := false } true usb_ok
          [123, 55, 125, 0]).trace) :=
  ⟨((query_status_waits_for_fastmode dev_fastmode flag_clears_at_3 true usb_ok).1 2
      (by decide)).1,
    (query_status_waits_for_fastmode dev_fastmode flag_clears_at_3 true usb_ok).2.1 3 10
      (by decide) (by decide) (by decide)⟩

/-! ### Commands built by the library -/

/-- C21 (the code at the failing input). On the open sample device with a
transport that never fails, `LabPro_query_status` puts the bytes `{7}` and one
carriage return on the wire, without the leading `s`, and `LabPro_reset` puts
`s{0}` followed by two carriage returns: the one of its own format string and
the one that `LabPro_send_raw` appends. -/
theorem library_commands_on_the_wire :
    wire_bytes (bulk_calls (LabPro_query_status 1 dev0 (fun _ => false) true usb_ok).2)
      = [123, 55, 125, 13] ∧
    wire_bytes (bulk_calls (LabPro_reset dev0 false true usb_ok).2)
      = [115, 123, 48, 125, 13, 13] := by
  constructor
  · simp [LabPro_query_status, poll_fastmode, fastmode_after, decimal, LABPRO_SYS_STATUS,
      LabPro_send_raw, send_loop, dev0, usb_ok, strcat, strcpy, strlen, c_str, CR,
      LIBUSB_SUCCESS, LIBUSB_ERROR_NO_DEVICE, bulk_calls, wire_bytes, Nat.toDigits,
      Nat.toDigitsCore, Nat.digitChar]
  · simp [LabPro_reset, snprintf, decimal, LABPRO_RESET,
      LabPro_send_raw, send_loop, dev0, usb_ok, strcat, strcpy, strlen, c_str, CR,
      LIBUSB_SUCCESS, LIBUSB_ERROR_NO_DEVICE, bulk_calls, wire_bytes, Nat.toDigits,
      Nat.toDigitsCore, Nat.digitChar]

/-! ### The status of `LabPro_query_status` -/

/-- C24 (the code at the failing input). On the closed sample device the send
made by `LabPro_query_status` fails with `LABPRO_ERR_NOT_OPEN`, and with a
transport on which the device is gone the send on the open sample device fails
with `LIBUSB_ERROR_NO_DEVICE`; in both cases `LabPro_query_status` returns
`LABPRO_OK`. -/
theorem query_status_discards_send_status :
    (LabPro_send_raw (LabPro_close_labpro dev0) true usb_ok [123, 55, 125, 0]).retval
      = LABPRO_ERR_NOT_OPEN ∧
    (LabPro_query_status 1 (LabPro_close_labpro dev0) (fun _ => false) true usb_ok).1
      = some LABPRO_OK ∧
    (LabPro_send_raw dev0 true usb_gone [123, 55, 125, 0]).retval = LIBUSB_ERROR_NO_DEVICE ∧
    (LabPro_query_status 1 dev0 (fun _ => false) true usb_gone).1 = some LABPRO_OK := by
  refine ⟨?_, ?_, ?_, ?_⟩
  · simp [LabPro_send_raw, LabPro_close_labpro, dev0]
  · simp [LabPro_query_status, poll_fastmode, fastmode_after, LabPro_close_labpro, dev0]
  · simp [LabPro_send_raw, send_loop, dev0, usb_gone, strcat, strcpy, strlen, c_str, CR,
      LIBUSB_SUCCESS, LIBUSB_ERROR_NO_DEVICE]
  · simp [LabPro_query_status, poll_fastmode, fastmode_after, dev0]

/-! ### Where a return value comes from -/

/-- The value returned by the loop of `LabPro_send_raw` is `LABPRO_OK` or the
status of the last transfer of the log, which is an answer of the transport
other than `LIBUSB_SUCCESS`. -/
theorem send_loop_retval_cases (labpro : LabPro) (usb : Nat → OutXfer) (real_command : List Nat)
    (len numpackets i e n : Nat) (lt : Int) (tr : List Event) :
    (send_loop labpro usb real_command len numpackets i e n lt tr).retval = LABPRO_OK ∨
    ((bulk_calls (send_loop labpro usb real_command len numpackets i e n lt tr).trace).getLast?.map
        (fun c => c.status)
        = some (send_loop labpro usb real_command len numpackets i e n lt tr).retval ∧
      (send_loop labpro usb real_command len numpackets i e n lt tr).retval ≠ LIBUSB_SUCCESS ∧
      ∃ m, (usb m).status
        = (send_loop labpro usb real_command len numpackets i e n lt tr).retval) := by
  refine send_loop_rule labpro usb real_command len numpackets (fun _ _ _ _ _ => True)
    (fun r => r.retval = LABPRO_OK ∨ ((bulk_calls r.trace).getLast?.map (fun c => c.status)
        = some r.retval ∧ r.retval ≠ LIBUSB_SUCCESS ∧ ∃ m, (usb m).status = r.retval))
    ?_ ?_ ?_ ?_ ?_ i e n lt tr trivial
  · intro i e n lt tr _ _ h1
    refine Or.inr ⟨?_, (by decide : LIBUSB_ERROR_NO_DEVICE ≠ LIBUSB_SUCCESS), n, h1⟩
    simp [bulk_calls_append, bulk_calls, h1]
  · intro i e n lt tr _ _ _ h2 _
    refine Or.inr ⟨?_, h2, n, rfl⟩
    simp [bulk_calls_append, bulk_calls]
  · intros; trivial
  · intros; trivial
  · intro i e n lt tr _ _
    exact Or.inl rfl

/-- The value returned by `LabPro_send_raw` is `LABPRO_OK`, one of the two
codes of its guards, or the status of the last transfer of the log, which is
an answer of the transport other than `LIBUSB_SUCCESS`. -/
theorem send_raw_retval_cases (labpro : LabPro) (malloc_ok : Bool) (usb : Nat → OutXfer)
    (command : List Nat) :
    (LabPro_send_raw labpro malloc_ok usb command).retval = LABPRO_OK ∨
    (LabPro_send_raw labpro malloc_ok usb command).retval = LABPRO_ERR_NOT_OPEN ∨
    (LabPro_send_raw labpro malloc_ok usb command).retval = LABPRO_ERR_NO_MEM ∨
    ((bulk_calls (LabPro_send_raw labpro malloc_ok usb command).trace).getLast?.map
        (fun c => c.status) = some (LabPro_send_raw labpro malloc_ok usb command).retval ∧
      (LabPro_send_raw labpro malloc_ok usb command).retval ≠ LIBUSB_SUCCESS ∧
      ∃ m, (usb m).status = (LabPro_send_raw labpro malloc_ok usb command).retval) := by
  unfold LabPro_send_raw
  by_cases ho : labpro.is_open = true
  · cases malloc_ok
    · simp [ho]
    · simp only [ho, Bool.not_true, Bool.false_eq_true, if_false]
      rcases send_loop_retval_cases labpro usb (strcat (strcpy command) [CR, 0])
        (strlen (strcat (strcpy command) [CR, 0]))
        (if strlen (strcat (strcpy command) [CR, 0]) % 64 > 0
          then strlen (strcat (strcpy command) [CR, 0]) / 64 + 1
          else strlen (strcat (strcpy command) [CR, 0]) / 64) 1 0 0 0 [] with h | h
      · exact Or.inl h
      · exact Or.inr (Or.inr (Or.inr h))
  · simp [ho]

/-! ### `LabPro_reset` -/

/-- C25 (the code at the failing input). On the open, idle sample device with a
transport on which the device is gone, `LabPro_reset` returns
`LIBUSB_ERROR_NO_DEVICE`, which is neither `LABPRO_OK` nor one of the
`LabPro_Errors` codes that its documentation in `liblabpro.h` announces. -/
theorem reset_returns_transport_status :
    (LabPro_reset dev0 false true usb_gone).1 = LIBUSB_ERROR_NO_DEVICE ∧
    (LabPro_reset dev0 false true usb_gone).1 ≠ LABPRO_OK ∧
    (LabPro_reset dev0 false true usb_gone).1 ∉ LabPro_Errors := by
  have h : (LabPro_reset dev0 false true usb_gone).1 = LIBUSB_ERROR_NO_DEVICE := by
    simp [LabPro_reset, snprintf, decimal, LABPRO_RESET,
      LabPro_send_raw, send_loop, dev0, usb_gone, strcat, strcpy, strlen, c_str, CR,
      LIBUSB_SUCCESS, LIBUSB_ERROR_NO_DEVICE, Nat.toDigits, Nat.toDigitsCore, Nat.digitChar]
  rw [h]
  decide

/-- What holds of `LabPro_reset`. It tests its guards in this order and makes no
transfer when one of them fails: a device that is not open gives
`LABPRO_ERR_NOT_OPEN` whatever `force` is; an open busy device without `force`
gives `LABPRO_ERR_BUSY`; an open device that is not busy but collects data,
without `force`, gives `LABPRO_ERR_BUSY_COLLECT`. With `force` on an open device
whose transport answers only statuses that are at most 0, the result is none of
the three busy codes. In every case the result is `LABPRO_OK`, one of the
`LabPro_Errors` codes, or the status other than `LIBUSB_SUCCESS` of the last
transfer of the send, and that status is negative when the transport answers
only statuses that are at most 0. -/
theorem reset_guards_and_result (labpro : LabPro) (force malloc_ok : Bool)
    (usb : Nat → OutXfer) :
    (labpro.is_open = false →
      LabPro_reset labpro force malloc_ok usb = (LABPRO_ERR_NOT_OPEN, [])) ∧
    (labpro.is_open = true → labpro.is_busy = true → force = false →
      LabPro_reset labpro force malloc_ok usb = (LABPRO_ERR_BUSY, [])) ∧
    (labpro.is_open = true → labpro.is_busy = false → labpro.is_collecting_data = true →
      force = false →
      LabPro_reset labpro force malloc_ok usb = (LABPRO_ERR_BUSY_COLLECT, [])) ∧
    (labpro.is_open = true → force = true → (∀ m, (usb m).status ≤ 0) →
      (LabPro_reset labpro force malloc_ok usb).1 ≠ LABPRO_ERR_BUSY ∧
      (LabPro_reset labpro force malloc_ok usb).1 ≠ LABPRO_ERR_BUSY_COLLECT ∧
      (LabPro_reset labpro force malloc_ok usb).1 ≠ LABPRO_ERR_BUSY_FASTMODE) ∧
    ((LabPro_reset labpro force malloc_ok usb).1 = LABPRO_OK ∨
      (LabPro_reset labpro force malloc_ok usb).1 ∈ LabPro_Errors ∨
      ((bulk_calls (LabPro_reset labpro force malloc_ok usb).2).getLast?.map (fun c => c.status)
          = some (LabPro_reset labpro force malloc_ok usb).1 ∧
        (LabPro_reset labpro force malloc_ok usb).1 ≠ LIBUSB_SUCCESS ∧
        ((∀ m, (usb m).status ≤ 0) → (LabPro_reset labpro force malloc_ok usb).1 < 0))) := by
  have hsend := send_raw_retval_cases labpro malloc_ok usb
    (snprintf 6 ([115, 123] ++ decimal LABPRO_RESET ++ [125, 13]))
  refine ⟨?_, ?_, ?_, ?_, ?_⟩
  · intro ho
    simp [LabPro_reset, ho]
  · intro ho hb hf
    simp [LabPro_reset, ho, hb, hf]
  · intro ho hb hc hf
    simp [LabPro_reset, ho, hb, hc, hf]
  · intro ho hf hle
    have hr : (LabPro_reset labpro force malloc_ok usb).1
        = (LabPro_send_raw labpro malloc_ok usb
            (snprintf 6 ([115, 123] ++ decimal LABPRO_RESET ++ [125, 13]))).retval := by
      simp [LabPro_reset, ho, hf]
    rw [hr]
    rcases hsend with h | h | h | ⟨_, _, m, hm⟩
    · rw [h]; decide
    · rw [h]; decide
    · rw [h]; decide
    · have := hle m
      rw [hm] at this
      simp only [LABPRO_ERR_BUSY, LABPRO_ERR_BUSY_COLLECT, LABPRO_ERR_BUSY_FASTMODE]
      omega
  · by_cases ho : labpro.is_open = true
    · by_cases hb : (labpro.is_busy && !force) = true
      · refine Or.inr (Or.inl ?_)
        have : (LabPro_reset labpro force malloc_ok usb).1 = LABPRO_ERR_BUSY := by
          simp only [LabPro_reset, ho, hb]; rfl
        rw [this]; decide
      · by_cases hc : (labpro.is_collecting_data && !force) = true
        · refine Or.inr (Or.inl ?_)
          have : (LabPro_reset labpro force malloc_ok usb).1 = LABPRO_ERR_BUSY_COLLECT := by
            simp only [LabPro_reset, ho, hb, hc]; rfl
          rw [this]; decide
        · have hr : LabPro_reset labpro force malloc_ok usb
              = ((LabPro_send_raw labpro malloc_ok usb
                  (snprintf 6 ([115, 123] ++ decimal LABPRO_RESET ++ [125, 13]))).retval,
                 (LabPro_send_raw labpro malloc_ok usb
                  (snprintf 6 ([115, 123] ++ decimal LABPRO_RESET ++ [125, 13]))).trace) := by
            simp only [LabPro_reset, ho, hb, hc]; rfl
          rw [hr]
          rcases hsend with h | h | h | ⟨h1, h2, m, hm⟩
          · exact Or.inl h
          · refine Or.inr (Or.inl ?_)
            show (LabPro_send_raw _ _ _ _).retval ∈ LabPro_Errors
            rw [h]; decide
          · refine Or.inr (Or.inl ?_)
            show (LabPro_send_raw _ _ _ _).retval ∈ LabPro_Errors
            rw [h]; decide
          · refine Or.inr (Or.inr ⟨h1, h2, ?_⟩)
            intro hle
            have := hle m
            rw [hm] at this
            have h0 : (LabPro_send_raw labpro malloc_ok usb
                (snprintf 6 ([115, 123] ++ decimal LABPRO_RESET ++ [125, 13]))).retval ≠ 0 := h2
            show (LabPro_send_raw _ _ _ _).retval < 0
            omega
    · refine Or.inr (Or.inl ?_)
      have : (LabPro_reset labpro force malloc_ok usb).1 = LABPRO_ERR_NOT_OPEN := by
        simp [LabPro_reset, ho]
      rw [this]; decide

/-- The guards of `LabPro_reset` at sample inputs: the closed busy device gives
`LABPRO_ERR_NOT_OPEN` even with `force`; the open busy and collecting device gives `LABPRO_ERR_BUSY`
without `force` and no busy code with it; the open collecting device gives
`LABPRO_ERR_BUSY_COLLECT` without `force`. -/
theorem reset_guards_and_result_witness :
    dev_closed_busy.is_open = false ∧
    LabPro_reset dev_closed_busy true true usb_ok = (LABPRO_ERR_NOT_OPEN, []) ∧
    dev_busy.is_open = true ∧ dev_busy.is_busy = true ∧
    LabPro_reset dev_busy false true usb_ok = (LABPRO_ERR_BUSY, []) ∧
    dev_collecting.is_busy = false ∧ dev_collecting.is_collecting_data = true ∧
    LabPro_reset dev_collecting false true usb_ok = (LABPRO_ERR_BUSY_COLLECT, []) ∧
    (∀ m, (usb_ok m).status ≤ 0) ∧
    ((LabPro_reset dev_busy true true usb_ok).1 ≠ LABPRO_ERR_BUSY ∧
      (LabPro_reset dev_busy true true usb_ok).1 ≠ LABPRO_ERR_BUSY_COLLECT ∧
      (LabPro_reset dev_busy true true usb_ok).1 ≠ LABPRO_ERR_BUSY_FASTMODE) :=
  ⟨rfl, (reset_guards_and_result dev_closed_busy true true usb_ok).1 rfl,
   rfl, rfl, (reset_guards_and_result dev_busy false true usb_ok).2.1 rfl rfl rfl,
   rfl, rfl, (reset_guards_and_result dev_collecting false true usb_ok).2.2.1 rfl rfl rfl rfl,
   fun _ => (by decide : LIBUSB_SUCCESS ≤ 0),
   (reset_guards_and_result dev_busy true true usb_ok).2.2.2.1 rfl rfl
     (fun _ => (by decide : LIBUSB_SUCCESS ≤ 0))⟩

/-- The value returned by `LabPro_read_raw` is `LABPRO_OK`, one of the two
codes of its guards and of `realloc`, or `LIBUSB_ERROR_NO_DEVICE`, which is
then the status of the last transfer of the log: the failure counter is still
0 when a transfer fails, so the abort of the error branch is never taken. -/
theorem read_raw_retval_cases (fuel : Nat) (labpro : LabPro) (heap : Heap) (usb : Nat → InXfer)
    (r : ReadResult) (hr : LabPro_read_raw fuel labpro heap usb = some r) :
    r.retval = LABPRO_OK ∨ r.retval = LABPRO_ERR_NOT_OPEN ∨ r.retval = LABPRO_ERR_NO_MEM ∨
    (r.retval = LIBUSB_ERROR_NO_DEVICE ∧
      (bulk_calls r.trace).getLast?.map (fun c => c.status) = some LIBUSB_ERROR_NO_DEVICE ∧
      ∃ m, (usb m).status = LIBUSB_ERROR_NO_DEVICE) := by
  unfold LabPro_read_raw at hr
  by_cases ho : labpro.is_open = true
  · by_cases hc : heap.calloc_ok = true
    · simp only [ho, hc, Bool.not_true, Bool.false_eq_true, if_false] at hr
      refine read_loop_rule labpro usb heap (fun _ e _ _ _ _ => e = 0)
        (fun r => r.retval = LABPRO_OK ∨ r.retval = LABPRO_ERR_NOT_OPEN ∨
          r.retval = LABPRO_ERR_NO_MEM ∨ (r.retval = LIBUSB_ERROR_NO_DEVICE ∧
            (bulk_calls r.trace).getLast?.map (fun c => c.status) = some LIBUSB_ERROR_NO_DEVICE ∧
            ∃ m, (usb m).status = LIBUSB_ERROR_NO_DEVICE))
        ?_ ?_ ?_ ?_ ?_ ?_ ?_ fuel 1 0 0 0 (List.replicate 64 0) [] r rfl hr
      · intro np e n len data tr _ h1
        refine Or.inr (Or.inr (Or.inr ⟨rfl, ?_, n, h1⟩))
        simp [bulk_calls_append, bulk_calls, read_call, h1]
      · intro np e n len data tr he _ _ _ h5
        subst he
        omega
      · intros; exact Or.inl rfl
      · intros; exact Or.inl rfl
      · intro np e n len data tr he _ _ _
        exact he
      · intros; exact Or.inl rfl
      · intros; exact Or.inr (Or.inr (Or.inl rfl))
    · simp only [ho, hc, Bool.not_true, Bool.false_eq_true, if_false, Bool.not_false,
        if_true, Option.some.injEq] at hr
      subst hr
      exact Or.inr (Or.inr (Or.inl rfl))
  · simp only [ho, Bool.not_false, if_true, Option.some.injEq] at hr
    subst hr
    exact Or.inr (Or.inl rfl)

/-! ### The two error domains -/

/-- C23. Every code of `LabPro_Errors` is positive (so none is `LABPRO_OK`) and
the codes are pairwise distinct; every code of `LabPro_USB_Errors` is negative.
With a transport that answers only statuses that are at most 0, a negative
value returned by `LabPro_send_raw` or by `LabPro_read_raw` is the status of
the last transfer of the call, an answer of the transport other than
`LIBUSB_SUCCESS`, and a positive value is one of the `LabPro_Errors` codes. -/
theorem error_domains_by_sign :
    (∀ c ∈ LabPro_Errors, 0 < c) ∧ LabPro_Errors.Nodup ∧ LABPRO_OK ∉ LabPro_Errors ∧
    (∀ c ∈ LabPro_USB_Errors, c < 0) ∧
    (∀ (labpro : LabPro) (malloc_ok : Bool) (usb : Nat → OutXfer) (command : List Nat),
      (∀ m, (usb m).status ≤ 0) →
      ((LabPro_send_raw labpro malloc_ok usb command).retval < 0 →
        (bulk_calls (LabPro_send_raw labpro malloc_ok usb command).trace).getLast?.map
            (fun c => c.status) = some (LabPro_send_raw labpro malloc_ok usb command).retval ∧
        (LabPro_send_raw labpro malloc_ok usb command).retval ≠ LIBUSB_SUCCESS ∧
        ∃ m, (usb m).status = (LabPro_send_raw labpro malloc_ok usb command).retval) ∧
      (0 < (LabPro_send_raw labpro malloc_ok usb command).retval →
        (LabPro_send_raw labpro malloc_ok usb command).retval ∈ LabPro_Errors)) ∧
    (∀ (fuel : Nat) (labpro : LabPro) (heap : Heap) (usb : Nat → InXfer) (r : ReadResult),
      (∀ m, (usb m).status ≤ 0) → LabPro_read_raw fuel labpro heap usb = some r →
      (r.retval < 0 →
        (bulk_calls r.trace).getLast?.map (fun c => c.status) = some r.retval ∧
        r.retval ≠ LIBUSB_SUCCESS ∧ ∃ m, (usb m).status = r.retval) ∧
      (0 < r.retval → r.retval ∈ LabPro_Errors)) := by
  refine ⟨by decide, by decide, by decide, by decide, ?_, ?_⟩
  · intro labpro malloc_ok usb command hle
    rcases send_raw_retval_cases labpro malloc_ok usb command with h | h | h | ⟨h1, h2, m, hm⟩
    · rw [h]
      exact ⟨fun hc => absurd hc (by decide), fun hc => absurd hc (by decide)⟩
    · rw [h]
      exact ⟨fun hc => absurd hc (by decide), fun _ => by decide⟩
    · rw [h]
      exact ⟨fun hc => absurd hc (by decide), fun _ => by decide⟩
    · refine ⟨fun _ => ⟨h1, h2, m, hm⟩, fun hpos => ?_⟩
      have := hle m
      rw [hm] at this
      omega
  · intro fuel labpro heap usb r _ hr
    rcases read_raw_retval_cases fuel labpro heap usb r hr with h | h | h | ⟨h0, h1, m, hm⟩
    · rw [h]
      exact ⟨fun hc => absurd hc (by decide), fun hc => absurd hc (by decide)⟩
    · rw [h]
      exact ⟨fun hc => absurd hc (by decide), fun _ => by decide⟩
    · rw [h]
      exact ⟨fun hc => absurd hc (by decide), fun _ => by decide⟩
    · rw [h0]
      exact ⟨fun _ => ⟨h1, by decide, m, hm⟩, fun hc => absurd hc (by decide)⟩

/-- C23 at sample inputs: on a transport on which the device is gone the send
of `s{7}` returns a negative value, the status of its last transfer; the read
that loses the device after one frame does the same. -/
theorem error_domains_by_sign_witness :
    (∀ m, (usb_gone m).status ≤ 0) ∧
    (LabPro_send_raw dev0 true usb_gone cmd_status).retval < 0 ∧
    ((bulk_calls (LabPro_send_raw dev0 true usb_gone cmd_status).trace).getLast?.map
        (fun c => c.status) = some (LabPro_send_raw dev0 true usb_gone cmd_status).retval ∧
      (LabPro_send_raw dev0 true usb_gone cmd_status).retval ≠ LIBUSB_SUCCESS ∧
      ∃ m, (usb_gone m).status = (LabPro_send_raw dev0 true usb_gone cmd_status).retval) ∧
    (∀ m, (usb_in_gone m).status ≤ 0) ∧
    (∃ r, LabPro_read_raw 10 dev0 heap_ok usb_in_gone = some r ∧ r.retval < 0 ∧
      (bulk_calls r.trace).getLast?.map (fun c => c.status) = some r.retval ∧
      r.retval ≠ LIBUSB_SUCCESS ∧ ∃ m, (usb_in_gone m).status = r.retval) := by
  have hs : ∀ m, (usb_gone m).status ≤ 0 := fun _ => (by decide : LIBUSB_ERROR_NO_DEVICE ≤ 0)
  have hi : ∀ m, (usb_in_gone m).status ≤ 0 := by
    intro m
    unfold usb_in_gone
    split <;> decide
  have hneg : (LabPro_send_raw dev0 true usb_gone cmd_status).retval < 0 := by
    simp [LabPro_send_raw, send_loop, dev0, usb_gone, cmd_status, strcat, strcpy, strlen, c_str,
      CR, LIBUSB_SUCCESS, LIBUSB_ERROR_NO_DEVICE]
  obtain ⟨r, hr⟩ : ∃ r, LabPro_read_raw 10 dev0 heap_ok usb_in_gone = some r :=
    ⟨_, by rfl⟩
  have hrneg : r.retval < 0 := by
    have : (LabPro_read_raw 10 dev0 heap_ok usb_in_gone).map (fun r => decide (r.retval < 0))
        = some true := by rfl
    rw [hr] at this
    simpa using this
  exact ⟨hs, hneg,
    ((error_domains_by_sign).2.2.2.2.1 dev0 true usb_gone cmd_status hs).1 hneg,
    hi, r, hr, hrneg,
    ((error_domains_by_sign).2.2.2.2.2 10 dev0 heap_ok usb_in_gone r hi hr).1 hrneg⟩

/-! ### Number of transfers of a send -/

/-- The loop of `LabPro_send_raw` entered with `(i - 1) + e` transfers in the
log and at most 5 failures leaves with at most `numpackets + 5` transfers. -/
theorem send_loop_attempts (labpro : LabPro) (usb : Nat → OutXfer) (real_command : List Nat)
    (len numpackets i e n : Nat) (lt : Int) (tr : List Event)
    (h : (bulk_calls tr).length = (i - 1) + e ∧ e ≤ 5 ∧ 1 ≤ i ∧ i ≤ numpackets + 1) :
    (bulk_calls (send_loop labpro usb real_command len numpackets i e n lt tr).trace).length
      ≤ numpackets + 5 := by
  refine send_loop_rule labpro usb real_command len numpackets
    (fun i e _ _ tr => (bulk_calls tr).length = (i - 1) + e ∧ e ≤ 5 ∧ 1 ≤ i ∧ i ≤ numpackets + 1)
    (fun r => (bulk_calls r.trace).length ≤ numpackets + 5)
    ?_ ?_ ?_ ?_ ?_ i e n lt tr h
  · intro i e n lt tr ⟨h1, h2, h3, _⟩ hi _
    simp only [bulk_calls_append, bulk_calls, List.length_append, List.length_cons,
      List.length_nil, h1]
    omega
  · intro i e n lt tr ⟨h1, h2, h3, _⟩ hi _ _ _
    simp only [bulk_calls_append, bulk_calls, List.length_append, List.length_cons,
      List.length_nil, h1]
    omega
  · intro i e n lt tr ⟨h1, h2, h3, h4⟩ hi _ _ h5
    refine ⟨?_, by omega, h3, h4⟩
    simp only [bulk_calls_append, bulk_calls, List.length_append, List.length_cons,
      List.length_nil, h1]
    omega
  · intro i e n lt tr ⟨h1, h2, h3, h4⟩ hi _
    refine ⟨?_, h2, by omega, by omega⟩
    simp only [bulk_calls_append, bulk_calls, List.length_append, List.length_cons,
      List.length_nil, h1]
    omega
  · intro i e n lt tr ⟨h1, h2, h3, h4⟩ hi
    show (bulk_calls tr).length ≤ numpackets + 5
    omega

/-- C30. `LabPro_send_raw` is a total function of the command and of the
transport, and a call makes at most `ceil((L + 1) / 64) + 5` transfers, `L`
being the length of the command text; the bound is reached by the command
`s{7}` when its only packet fails five times before it goes through. -/
theorem send_raw_attempt_bound :
    (∀ (labpro : LabPro) (malloc_ok : Bool) (usb : Nat → OutXfer) (command : List Nat),
      (bulk_calls (LabPro_send_raw labpro malloc_ok usb command).trace).length
        ≤ (strlen command + 1 + 63) / 64 + 5) ∧
    (bulk_calls (LabPro_send_raw dev0 true (usb_fail_first 5) cmd_status).trace).length
      = (strlen cmd_status + 1 + 63) / 64 + 5 := by
  constructor
  · intro labpro malloc_ok usb command
    by_cases ho : labpro.is_open = true
    · cases malloc_ok
      · simp [LabPro_send_raw, ho, bulk_calls]
      · rw [send_raw_open labpro usb command ho]
        exact send_loop_attempts labpro usb _ _ _ 1 0 0 0 [] ⟨rfl, by omega, by omega, by omega⟩
    · simp [LabPro_send_raw, ho, bulk_calls]
  · simp [LabPro_send_raw, send_loop, dev0, usb_fail_first, cmd_status, strcat, strcpy, strlen,
      c_str, CR, LIBUSB_SUCCESS, LIBUSB_ERROR_IO, LIBUSB_ERROR_NO_DEVICE, bulk_calls]

/-! ### The byte count of a send -/

theorem reported_total_succ (usb : Nat → OutXfer) (k : Nat) :
    reported_total usb (k + 1) = reported_total usb k + (usb k).transferred := by
  simp [reported_total, List.range_succ]

/-- The byte count of the loop of `LabPro_send_raw` grows by what the transport
reports for each transfer. -/
theorem send_loop_byte_count (labpro : LabPro) (usb : Nat → OutXfer) (real_command : List Nat)
    (len numpackets i e n : Nat) (lt : Int) (tr : List Event)
    (h : n = (bulk_calls tr).length ∧ lt = reported_total usb n) :
    (send_loop labpro usb real_command len numpackets i e n lt tr).length_transferred
      = reported_total usb
          (bulk_calls (send_loop labpro usb real_command len numpackets i e n lt tr).trace).length := by
  refine send_loop_rule labpro usb real_command len numpackets
    (fun _ _ n lt tr => n = (bulk_calls tr).length ∧ lt = reported_total usb n)
    (fun r => r.length_transferred = reported_total usb (bulk_calls r.trace).length)
    ?_ ?_ ?_ ?_ ?_ i e n lt tr h
  · intro i e n lt tr ⟨h1, h2⟩ _ _
    simp only [bulk_calls_append, bulk_calls, List.length_append, List.length_cons,
      List.length_nil, ← h1, Nat.add_zero, Nat.zero_add, reported_total_succ, h2]
  · intro i e n lt tr ⟨h1, h2⟩ _ _ _ _
    simp only [bulk_calls_append, bulk_calls, List.length_append, List.length_cons,
      List.length_nil, ← h1, Nat.zero_add, reported_total_succ, h2]
  · intro i e n lt tr ⟨h1, h2⟩ _ _ _ _
    refine ⟨?_, by rw [reported_total_succ, h2]⟩
    simp only [bulk_calls_append, bulk_calls, List.length_append, List.length_cons,
      List.length_nil, ← h1, Nat.zero_add]
  · intro i e n lt tr ⟨h1, h2⟩ _ _
    refine ⟨?_, by rw [reported_total_succ, h2]⟩
    simp only [bulk_calls_append, bulk_calls, List.length_append, List.length_cons,
      List.length_nil, ← h1, Nat.zero_add]
  · intro i e n lt tr ⟨h1, h2⟩ _
    show lt = reported_total usb (bulk_calls tr).length
    rw [← h1, h2]

theorem reports_whole_packets_of_append (usb : Nat → OutXfer) (a b : List BulkCall)
    (h : reports_whole_packets usb (a ++ b)) : reports_whole_packets usb a := by
  intro m c hm
  have hlt : m < a.length := by
    rcases Nat.lt_or_ge m a.length with h1 | h1
    · exact h1
    · rw [List.getElem?_eq_none h1] at hm
      cases hm
  exact h m c (by rw [List.getElem?_append_left hlt]; exact hm)

theorem reports_whole_packets_last (usb : Nat → OutXfer) (a : List BulkCall) (c : BulkCall)
    (h : reports_whole_packets usb (a ++ [c])) :
    (usb a.length).transferred
      = if (usb a.length).status = LIBUSB_SUCCESS then (c.numbytes : Int) else 0 :=
  h a.length c (by simp)

/-- With a transport that reports the whole packet for a transfer that
succeeds and no byte for one that fails, the byte count of the loop of
`LabPro_send_raw` is the number of bytes of the packets sent so far. -/
theorem send_loop_whole_packets (labpro : LabPro) (usb : Nat → OutXfer)
    (real_command : List Nat) (len i e n : Nat) (lt : Int) (tr : List Event)
    (h : n = (bulk_calls tr).length ∧ 1 ≤ i ∧ i ≤ (len + 63) / 64 + 1 ∧
      (reports_whole_packets usb (bulk_calls tr) → lt = ((min (64 * (i - 1)) len : Nat) : Int))) :
    reports_whole_packets usb
      (bulk_calls (send_loop labpro usb real_command len ((len + 63) / 64) i e n lt tr).trace) →
    (send_loop labpro usb real_command len ((len + 63) / 64) i e n lt tr).retval = LABPRO_OK →
    (send_loop labpro usb real_command len ((len + 63) / 64) i e n lt tr).length_transferred
      = (len : Int) := by
  refine send_loop_rule labpro usb real_command len ((len + 63) / 64)
    (fun i _ n lt tr => n = (bulk_calls tr).length ∧ 1 ≤ i ∧ i ≤ (len + 63) / 64 + 1 ∧
      (reports_whole_packets usb (bulk_calls tr) → lt = ((min (64 * (i - 1)) len : Nat) : Int)))
    (fun r => reports_whole_packets usb (bulk_calls r.trace) → r.retval = LABPRO_OK →
      r.length_transferred = (len : Int))
    ?_ ?_ ?_ ?_ ?_ i e n lt tr h
  · intro i e n lt tr _ _ _ _ hret
    exact absurd hret (by decide : ¬ LIBUSB_ERROR_NO_DEVICE = LABPRO_OK)
  · intro i e n lt tr _ _ _ h2 _ _ hret
    exact absurd hret h2
  · intro i e n lt tr ⟨h1, h2, h3, h4⟩ _ _ hne _
    refine ⟨?_, h2, h3, ?_⟩
    · simp only [bulk_calls_append, bulk_calls, List.length_append, List.length_cons,
        List.length_nil, ← h1, Nat.zero_add]
    · intro hw
      simp only [bulk_calls_append, bulk_calls, List.nil_append] at hw
      have hlast := reports_whole_packets_last usb _ _ hw
      rw [← h1, if_neg hne] at hlast
      rw [hlast, h4 (reports_whole_packets_of_append usb _ _ hw)]
      simp
  · intro i e n lt tr ⟨h1, h2, h3, h4⟩ hi hs
    refine ⟨?_, by omega, by omega, ?_⟩
    · simp only [bulk_calls_append, bulk_calls, List.length_append, List.length_cons,
        List.length_nil, ← h1, Nat.zero_add]
    · intro hw
      simp only [bulk_calls_append, bulk_calls, List.nil_append] at hw
      have hlast := reports_whole_packets_last usb _ _ hw
      rw [← h1, if_pos hs] at hlast
      dsimp only at hlast
      rw [numbytes_cases len ((len + 63) / 64) i rfl h2 hi] at hlast
      rw [hlast, h4 (reports_whole_packets_of_append usb _ _ hw), ← Nat.cast_add]
      congr 1
      omega
  · intro i e n lt tr ⟨h1, h2, h3, h4⟩ hi hw _
    show lt = (len : Int)
    rw [h4 hw]
    congr 1
    omega

/-- C22. On every exit of `LabPro_send_raw` the byte count is the sum of the
byte counts that the transport reported for the transfers of the call, which
is 0 when there was none; and with a transport that reports the whole packet
for a transfer that succeeds and no byte for one that fails, a call on an open
device that returns `LABPRO_OK` reports `L + 1` bytes, `L` being the length of
the command text. -/
theorem send_raw_byte_count (labpro : LabPro) (malloc_ok : Bool) (usb : Nat → OutXfer)
    (command : List Nat) :
    (LabPro_send_raw labpro malloc_ok usb command).length_transferred
      = reported_total usb (bulk_calls (LabPro_send_raw labpro malloc_ok usb command).trace).length ∧
    (bulk_calls (LabPro_send_raw labpro malloc_ok usb command).trace = [] →
      (LabPro_send_raw labpro malloc_ok usb command).length_transferred = 0) ∧
    (labpro.is_open = true → malloc_ok = true →
      reports_whole_packets usb
        (bulk_calls (LabPro_send_raw labpro malloc_ok usb command).trace) →
      (LabPro_send_raw labpro malloc_ok usb command).retval = LABPRO_OK →
      (LabPro_send_raw labpro malloc_ok usb command).length_transferred
        = ((strlen command + 1 : Nat) : Int)) := by
  have hsum : (LabPro_send_raw labpro malloc_ok usb command).length_transferred
      = reported_total usb
          (bulk_calls (LabPro_send_raw labpro malloc_ok usb command).trace).length := by
    by_cases ho : labpro.is_open = true
    · cases malloc_ok
      · simp [LabPro_send_raw, ho, bulk_calls, reported_total]
      · rw [send_raw_open labpro usb command ho]
        exact send_loop_byte_count labpro usb _ _ _ 1 0 0 0 [] ⟨rfl, rfl⟩
    · simp [LabPro_send_raw, ho, bulk_calls, reported_total]
  refine ⟨hsum, ?_, ?_⟩
  · intro hnil
    rw [hsum, hnil]
    rfl
  · intro ho hm
    subst hm
    rw [send_raw_open labpro usb command ho]
    exact send_loop_whole_packets labpro usb _ (strlen command + 1) 1 0 0 0 []
      ⟨rfl, by omega, by omega, fun _ => by simp⟩

/-- C22 at a sample input: the command `s{7}`, whose first transfer fails with
no byte reported and whose second one succeeds with the 5 bytes of the packet
reported, gives a byte count of 5. -/
theorem send_raw_byte_count_witness :
    dev0.is_open = true ∧
    reports_whole_packets (usb_double_count 0 5)
      (bulk_calls (LabPro_send_raw dev0 true (usb_double_count 0 5) cmd_status).trace) ∧
    (LabPro_send_raw dev0 true (usb_double_count 0 5) cmd_status).retval = LABPRO_OK ∧
    (LabPro_send_raw dev0 true (usb_double_count 0 5) cmd_status).length_transferred
      = ((strlen cmd_status + 1 : Nat) : Int) := by
  have hret : (LabPro_send_raw dev0 true (usb_double_count 0 5) cmd_status).retval
      = LABPRO_OK := by
    simp [LabPro_send_raw, send_loop, dev0, usb_double_count, cmd_status, strcat, strcpy,
      strlen, c_str, CR, LIBUSB_SUCCESS, LIBUSB_ERROR_IO, LIBUSB_ERROR_NO_DEVICE, LABPRO_OK]
  have hw : reports_whole_packets (usb_double_count 0 5)
      (bulk_calls (LabPro_send_raw dev0 true (usb_double_count 0 5) cmd_status).trace) := by
    have hlog : ((bulk_calls (LabPro_send_raw dev0 true (usb_double_count 0 5)
        cmd_status).trace).map (fun c => c.numbytes)) = [5, 5] := by
      simp [LabPro_send_raw, send_loop, dev0, usb_double_count, cmd_status, strcat, strcpy,
        strlen, c_str, CR, LIBUSB_SUCCESS, LIBUSB_ERROR_IO, LIBUSB_ERROR_NO_DEVICE, bulk_calls]
    intro m c hc
    have hnb : ((bulk_calls (LabPro_send_raw dev0 true (usb_double_count 0 5)
        cmd_status).trace).map (fun c => c.numbytes))[m]? = some c.numbytes := by
      rw [List.getElem?_map, hc]
      rfl
    rw [hlog] at hnb
    match m, hnb with
    | 0, hnb =>
      simp [usb_double_count, LIBUSB_ERROR_IO, LIBUSB_SUCCESS]
    | 1, hnb =>
      simp only [List.getElem?_cons_succ, List.getElem?_cons_zero, Option.some.injEq] at hnb
      simp [usb_double_count, LIBUSB_SUCCESS, ← hnb]
    | m + 2, hnb =>
      simp at hnb
  exact ⟨rfl, hw, hret,
    (send_raw_byte_count dev0 true (usb_double_count 0 5) cmd_status).2.2 rfl rfl hw hret⟩

/-! ### A retried packet is counted twice -/

theorem usb_double_count_zero (k : Int) (len : Nat) :
    usb_double_count k len 0 = { status := LIBUSB_ERROR_IO, transferred := k } := by
  simp [usb_double_count]

theorem usb_double_count_pos (k : Int) (len n : Nat) (hn : 1 ≤ n) :
    usb_double_count k len n
      = { status := LIBUSB_SUCCESS, transferred := ((min 64 (len - 64 * (n - 1)) : Nat) : Int) } := by
  have : n ≠ 0 := by omega
  simp [usb_double_count, this]

/-- The loop of `LabPro_send_raw` on the transport `usb_double_count k len`:
the first transfer fails, transfer `n` then carries packet `n`, and the byte
count is `k` more than the bytes of the packets sent. -/
theorem send_loop_double_count (labpro : LabPro) (k : Int) (real_command : List Nat)
    (len : Nat) (hlen : 1 ≤ len) :
    (send_loop labpro (usb_double_count k len) real_command len ((len + 63) / 64)
        1 0 0 0 []).retval = LABPRO_OK ∧
    (send_loop labpro (usb_double_count k len) real_command len ((len + 63) / 64)
        1 0 0 0 []).length_transferred = (len : Int) + k ∧
    (failed (bulk_calls (send_loop labpro (usb_double_count k len) real_command len
        ((len + 63) / 64) 1 0 0 0 []).trace)).length = 1 ∧
    (∀ m c, (bulk_calls (send_loop labpro (usb_double_count k len) real_command len
        ((len + 63) / 64) 1 0 0 0 []).trace)[m]? = some c → 1 ≤ m →
      c.status = LIBUSB_SUCCESS ∧
      (usb_double_count k len m).transferred = (c.numbytes : Int)) := by
  refine send_loop_rule labpro (usb_double_count k len) real_command len ((len + 63) / 64)
    (fun i e n lt tr => n = (bulk_calls tr).length ∧
      ((n = 0 ∧ i = 1 ∧ e = 0 ∧ lt = 0) ∨
        (1 ≤ n ∧ i = n ∧ e = 1 ∧ lt = k + ((min (64 * (i - 1)) len : Nat) : Int))) ∧
      (failed (bulk_calls tr)).length = e ∧
      (∀ m c, (bulk_calls tr)[m]? = some c → 1 ≤ m →
        c.status = LIBUSB_SUCCESS ∧
        (usb_double_count k len m).transferred = (c.numbytes : Int)))
    (fun r => r.retval = LABPRO_OK ∧ r.length_transferred = (len : Int) + k ∧
      (failed (bulk_calls r.trace)).length = 1 ∧
      (∀ m c, (bulk_calls r.trace)[m]? = some c → 1 ≤ m →
        c.status = LIBUSB_SUCCESS ∧
        (usb_double_count k len m).transferred = (c.numbytes : Int)))
    ?_ ?_ ?_ ?_ ?_ 1 0 0 0 [] ?_
  · intro i e n lt tr _ _ hs
    rcases Nat.eq_zero_or_pos n with h0 | h0
    · rw [h0, usb_double_count_zero] at hs
      exact absurd hs (by decide : ¬ LIBUSB_ERROR_IO = LIBUSB_ERROR_NO_DEVICE)
    · rw [usb_double_count_pos k len n h0] at hs
      exact absurd hs (by decide : ¬ LIBUSB_SUCCESS = LIBUSB_ERROR_NO_DEVICE)
  · intro i e n lt tr ⟨_, hc, _, _⟩ _ _ _ he
    rcases hc with ⟨_, _, h, _⟩ | ⟨_, _, h, _⟩ <;> omega
  · intro i e n lt tr ⟨h1, hc, hf, hh⟩ _ _ hne _
    have h0 : n = 0 := by
      rcases Nat.eq_zero_or_pos n with h0 | h0
      · exact h0
      · rw [usb_double_count_pos k len n h0] at hne
        exact absurd rfl hne
    rcases hc with ⟨_, hi, he, hlt⟩ | ⟨hn, _, _, _⟩
    · subst h0 hi he hlt
      have hnil : bulk_calls tr = [] := List.length_eq_zero.mp h1.symm
      refine ⟨?_, Or.inr ⟨by omega, rfl, rfl, ?_⟩, ?_, ?_⟩
      · simp [bulk_calls_append, bulk_calls, hnil]
      · rw [usb_double_count_zero]
        simp
      · simp only [bulk_calls_append, bulk_calls, hnil, List.nil_append]
        rw [failed_single_of_ne _ hne]
        rfl
      · intro m c hm hm1
        simp only [bulk_calls_append, bulk_calls, hnil, List.nil_append] at hm
        obtain ⟨j, rfl⟩ : ∃ j, m = j + 1 := ⟨m - 1, by omega⟩
        simp at hm
    · omega
  · intro i e n lt tr ⟨h1, hc, hf, hh⟩ hi hs
    have hn : 1 ≤ n := by
      rcases Nat.eq_zero_or_pos n with h0 | h0
      · rw [h0, usb_double_count_zero] at hs
        exact absurd hs (by decide : ¬ LIBUSB_ERROR_IO = LIBUSB_SUCCESS)
      · exact h0
    rcases hc with ⟨h0, _, _, _⟩ | ⟨_, hin, he, hlt⟩
    · omega
    · have hnb := numbytes_cases len ((len + 63) / 64) i rfl (by omega) hi
      refine ⟨?_, Or.inr ⟨by omega, by omega, he, ?_⟩, ?_, ?_⟩
      · simp only [bulk_calls_append, bulk_calls, List.length_append, List.length_cons,
          List.length_nil, ← h1, Nat.zero_add]
      · rw [hlt, usb_double_count_pos k len n hn, ← hin, Int.add_assoc, ← Nat.cast_add]
        congr 2
        omega
      · simp only [bulk_calls_append, bulk_calls, List.nil_append, failed_append,
          List.length_append, hf]
        rw [failed_single_of_eq _ hs]
        rfl
      · intro m c hm hm1
        simp only [bulk_calls_append, bulk_calls, List.nil_append] at hm
        rcases Nat.lt_or_ge m (bulk_calls tr).length with hlt1 | hge
        · rw [List.getElem?_append_left hlt1] at hm
          exact hh m c hm hm1
        · rw [List.getElem?_append_right hge] at hm
          have hmn : m = n := by
            rcases Nat.eq_zero_or_pos (m - (bulk_calls tr).length) with hz | hz
            · omega
            · obtain ⟨j, hj⟩ : ∃ j, m - (bulk_calls tr).length = j + 1 :=
                ⟨m - (bulk_calls tr).length - 1, by omega⟩
              rw [hj] at hm
              simp at hm
          subst hmn
          rw [← h1, Nat.sub_self] at hm
          simp only [List.getElem?_cons_zero, Option.some.injEq] at hm
          subst hm
          refine ⟨hs, ?_⟩
          rw [usb_double_count_pos k len m hn]
          dsimp only
          rw [hnb, hin]
  · intro i e n lt tr ⟨h1, hc, hf, hh⟩ hi
    rcases hc with ⟨_, hi1, _, _⟩ | ⟨_, hin, he, hlt⟩
    · omega
    · refine ⟨rfl, ?_, ?_, hh⟩
      · show lt = (len : Int) + k
        rw [hlt, Int.add_comm]
        congr 2
        omega
      · show (failed (bulk_calls tr)).length = 1
        rw [hf, he]
  · refine ⟨rfl, Or.inl ⟨rfl, rfl, rfl, rfl⟩, rfl, ?_⟩
    intro m c hm
    simp [bulk_calls] at hm

/-- C28. On an open device let the first transfer of a send fail after the
transport reported `k > 0` bytes, and let every later transfer succeed and
report its whole packet. Then the failed transfer is the only one that fails,
the transfer after it sends the same packet again from its start, the call
returns `LABPRO_OK`, and the byte count is `L + 1 + k`, more than the `L + 1`
bytes of the wire command (`L` being the length of the command text). -/
theorem send_raw_double_count (labpro : LabPro) (command : List Nat) (k : Int)
    (hopen : labpro.is_open = true) (hk : 0 < k) :
    (usb_double_count k (strlen command + 1) 0).status ≠ LIBUSB_SUCCESS ∧
    (usb_double_count k (strlen command + 1) 0).transferred = k ∧
    (failed (bulk_calls (LabPro_send_raw labpro true (usb_double_count k (strlen command + 1))
        command).trace)).length = 1 ∧
    List.Chain' same_packet_after_failure
      (bulk_calls (LabPro_send_raw labpro true (usb_double_count k (strlen command + 1))
        command).trace) ∧
    (∀ m c, (bulk_calls (LabPro_send_raw labpro true (usb_double_count k (strlen command + 1))
        command).trace)[m]? = some c → 1 ≤ m →
      c.status = LIBUSB_SUCCESS ∧
      (usb_double_count k (strlen command + 1) m).transferred = (c.numbytes : Int)) ∧
    (LabPro_send_raw labpro true (usb_double_count k (strlen command + 1)) command).retval
      = LABPRO_OK ∧
    (LabPro_send_raw labpro true (usb_double_count k (strlen command + 1))
        command).length_transferred = ((strlen command + 1 : Nat) : Int) + k ∧
    ((strlen command + 1 : Nat) : Int)
      < (LabPro_send_raw labpro true (usb_double_count k (strlen command + 1))
          command).length_transferred := by
  rw [send_raw_open labpro _ command hopen]
  obtain ⟨h1, h2, h3, h4⟩ := send_loop_double_count labpro k (c_str command ++ [CR, 0])
    (strlen command + 1) (by omega)
  refine ⟨?_, ?_, h3, send_loop_same_packet labpro _ _ _ _, h4, h1, h2, ?_⟩
  · rw [usb_double_count_zero]
    exact (by decide : LIBUSB_ERROR_IO ≠ LIBUSB_SUCCESS)
  · rw [usb_double_count_zero]
  · rw [h2]
    omega

/-- C28 at a sample input: the command `s{7}` whose first transfer fails after
3 bytes and is then sent again gives `LABPRO_OK` with a byte count of 8 for a
wire command of 5 bytes. -/
theorem send_raw_double_count_witness :
    dev0.is_open = true ∧ (0 : Int) < 3 ∧
    (LabPro_send_raw dev0 true (usb_double_count 3 (strlen cmd_status + 1)) cmd_status).retval
      = LABPRO_OK ∧
    (LabPro_send_raw dev0 true (usb_double_count 3 (strlen cmd_status + 1))
        cmd_status).length_transferred = ((strlen cmd_status + 1 : Nat) : Int) + 3 :=
  ⟨rfl, by decide,
   (send_raw_double_count dev0 cmd_status 3 rfl (by decide)).2.2.2.2.2.1,
   (send_raw_double_count dev0 cmd_status 3 rfl (by decide)).2.2.2.2.2.2.1⟩

/-! ### The retry bound counts the failures of the whole call -/

/-- C27. The failures of a call of `LabPro_send_raw` are counted together,
whatever packets they belong to: the log of a call never holds more than 6
failed transfers, and when it holds 6 the last transfer is one of them and its
status is returned. For the two-packet command of 64 letters on the open sample
device, with a transport whose first three transfers fail, whose fourth
succeeds and whose next three fail, the log is three failures of the packet at
offset 0, its success, and three failures of the packet at offset 64, and the
call returns the transport error `LIBUSB_ERROR_IO`, no packet having failed
more than 3 times. -/
theorem send_raw_retry_bound_per_call :
    (∀ (labpro : LabPro) (malloc_ok : Bool) (usb : Nat → OutXfer) (command : List Nat),
      (failed (bulk_calls (LabPro_send_raw labpro malloc_ok usb command).trace)).length ≤ 6 ∧
      ((failed (bulk_calls (LabPro_send_raw labpro malloc_ok usb command).trace)).length = 6 →
        ∃ c, (bulk_calls (LabPro_send_raw labpro malloc_ok usb command).trace).getLast? = some c ∧
          c.status ≠ LIBUSB_SUCCESS ∧
          (LabPro_send_raw labpro malloc_ok usb command).retval = c.status)) ∧
    (bulk_calls (LabPro_send_raw dev0 true usb_three_and_three cmd_64).trace).map
        (fun c => (c.offset, c.numbytes, c.status))
      = [(0, 64, LIBUSB_ERROR_IO), (0, 64, LIBUSB_ERROR_IO), (0, 64, LIBUSB_ERROR_IO),
         (0, 64, LIBUSB_SUCCESS),
         (64, 1, LIBUSB_ERROR_IO), (64, 1, LIBUSB_ERROR_IO), (64, 1, LIBUSB_ERROR_IO)] ∧
    (LabPro_send_raw dev0 true usb_three_and_three cmd_64).retval = LIBUSB_ERROR_IO := by
  refine ⟨?_, ?_⟩
  · intro labpro malloc_ok usb command
    by_cases ho : labpro.is_open = true
    · cases malloc_ok
      · simp [LabPro_send_raw, ho, bulk_calls, failed]
      · rw [send_raw_open labpro usb command ho]
        have h := send_loop_sixth_failure labpro usb (c_str command ++ [CR, 0])
          (strlen command + 1) ((strlen command + 1 + 63) / 64)
        exact ⟨h.1, h.2.1⟩
    · simp [LabPro_send_raw, ho, bulk_calls, failed]
  · have h : LabPro_send_raw dev0 true usb_three_and_three cmd_64
        = send_loop dev0 usb_three_and_three (c_str cmd_64 ++ [CR, 0]) 65 2 1 0 0 0 [] := by
      rw [send_raw_open dev0 usb_three_and_three cmd_64 rfl]
      rfl
    rw [h]
    generalize c_str cmd_64 ++ [CR, 0] = rc
    simp [send_loop, dev0, usb_three_and_three, LIBUSB_SUCCESS, LIBUSB_ERROR_IO,
      LIBUSB_ERROR_NO_DEVICE, bulk_calls]

/-- C27 at the sample input: the log of the two-packet command holds 6 failed
transfers, three for each packet, and the status of the last one is returned. -/
theorem send_raw_retry_bound_per_call_witness :
    (failed (bulk_calls (LabPro_send_raw dev0 true usb_three_and_three cmd_64).trace)).length
      = 6 ∧
    ∃ c, (bulk_calls (LabPro_send_raw dev0 true usb_three_and_three cmd_64).trace).getLast?
        = some c ∧ c.status ≠ LIBUSB_SUCCESS ∧
      (LabPro_send_raw dev0 true usb_three_and_three cmd_64).retval = c.status := by
  have h6 : (failed (bulk_calls
      (LabPro_send_raw dev0 true usb_three_and_three cmd_64).trace)).length = 6 := by
    have h : LabPro_send_raw dev0 true usb_three_and_three cmd_64
        = send_loop dev0 usb_three_and_three (c_str cmd_64 ++ [CR, 0]) 65 2 1 0 0 0 [] := by
      rw [send_raw_open dev0 usb_three_and_three cmd_64 rfl]
      rfl
    rw [h]
    generalize c_str cmd_64 ++ [CR, 0] = rc
    simp [send_loop, dev0, usb_three_and_three, LIBUSB_SUCCESS, LIBUSB_ERROR_IO,
      LIBUSB_ERROR_NO_DEVICE, bulk_calls, failed]
  exact ⟨h6, ((send_raw_retry_bound_per_call).1 dev0 true usb_three_and_three cmd_64).2 h6⟩

/-! ### A read ends on a failed transfer -/

/-- C26. On an open device (allocations succeeding), when the transport
delivers `k` full 64-byte frames and then answers a transfer with a status
other than success, timeout and device-absent, `LabPro_read_raw` returns (any
loop budget above `k` suffices) with `LABPRO_OK` and length `64 * k`, having
made `k + 1` transfers, the failed one being the last: that frame is tried
once. And whatever the device, the allocator and the transport are, the value
returned by `LabPro_read_raw` is `LABPRO_OK`, `LABPRO_ERR_NOT_OPEN`,
`LABPRO_ERR_NO_MEM` or `LIBUSB_ERROR_NO_DEVICE`. -/
theorem read_raw_error_ends_read (labpro : LabPro) (heap : Heap) (usb : Nat → InXfer) :
    (∀ k fuel : Nat, labpro.is_open = true → heap.calloc_ok = true →
      (∀ m < k, heap.realloc_ok (m + 2) = true) →
      (∀ m < k, (usb m).status = LIBUSB_SUCCESS ∧ (usb m).data.length = 64) →
      (usb k).status ≠ LIBUSB_SUCCESS → (usb k).status ≠ LIBUSB_ERROR_TIMEOUT →
      (usb k).status ≠ LIBUSB_ERROR_NO_DEVICE → k < fuel →
      ∃ r, LabPro_read_raw fuel labpro heap usb = some r ∧ r.retval = LABPRO_OK ∧
        r.length = 64 * (k : Int) ∧ (bulk_calls r.trace).length = k + 1 ∧
        (bulk_calls r.trace).getLast?.map (fun c => c.status) = some (usb k).status) ∧
    (∀ (fuel : Nat) (r : ReadResult), LabPro_read_raw fuel labpro heap usb = some r →
      r.retval = LABPRO_OK ∨ r.retval = LABPRO_ERR_NOT_OPEN ∨ r.retval = LABPRO_ERR_NO_MEM ∨
      r.retval = LIBUSB_ERROR_NO_DEVICE) := by
  constructor
  · intro k fuel hopen hcalloc hre hfull hs ht hnd hfuel
    obtain ⟨f, rfl⟩ : ∃ f, fuel = f + 1 + k := ⟨fuel - 1 - k, by omega⟩
    have hfull2 : ∀ m < k, (usb m).status = LIBUSB_SUCCESS ∧
        ((usb m).data.take 64).length = 64 := by
      intro m hm
      obtain ⟨h1, h2⟩ := hfull m hm
      exact ⟨h1, by simp [h2]⟩
    unfold LabPro_read_raw
    simp only [hopen, hcalloc, Bool.not_true, Bool.false_eq_true, if_false]
    rw [read_loop_full_frames labpro usb heap k hfull2 hre (f + 1), read_loop]
    rw [if_neg hnd, if_pos ⟨hs, ht⟩, if_neg (by omega), if_neg (fun hc => hs hc.2)]
    refine ⟨_, rfl, rfl, rfl, ?_, ?_⟩
    · show (bulk_calls (log_upto labpro usb k ++ _)).length = k + 1
      rw [bulk_calls_append, bulk_calls_log_upto]
      simp [bulk_calls]
    · simp [bulk_calls_append, bulk_calls, read_call]
  · intro fuel r hr
    rcases read_raw_retval_cases fuel labpro heap usb r hr with h | h | h | h
    · exact Or.inl h
    · exact Or.inr (Or.inl h)
    · exact Or.inr (Or.inr (Or.inl h))
    · exact Or.inr (Or.inr (Or.inr h.1))

/-- C26 at a sample input: the read whose first transfer fails with
`LIBUSB_ERROR_IO` makes that transfer only and returns `LABPRO_OK` with
length 0. -/
theorem read_raw_error_ends_read_witness :
    dev0.is_open = true ∧ heap_ok.calloc_ok = true ∧
    (usb_in_glitch 0).status ≠ LIBUSB_SUCCESS ∧
    (usb_in_glitch 0).status ≠ LIBUSB_ERROR_TIMEOUT ∧
    (usb_in_glitch 0).status ≠ LIBUSB_ERROR_NO_DEVICE ∧
    ∃ r, LabPro_read_raw 10 dev0 heap_ok usb_in_glitch = some r ∧ r.retval = LABPRO_OK ∧
      r.length = 64 * ((0 : Nat) : Int) ∧ (bulk_calls r.trace).length = 0 + 1 ∧
      (bulk_calls r.trace).getLast?.map (fun c => c.status) = some (usb_in_glitch 0).status :=
  ⟨rfl, rfl, by decide, by decide, by decide,
   (read_raw_error_ends_read dev0 heap_ok usb_in_glitch).1 0 10 rfl rfl
     (fun m hm => absurd hm (Nat.not_lt_zero m)) (fun m hm => absurd hm (Nat.not_lt_zero m))
     (by decide) (by decide) (by decide) (by decide)⟩

/-! ### The elements of a list, comma by comma -/

theorem splitOn_no_comma (t : List Nat) (h : 44 ∉ t) : t.splitOn 44 = [t] := by
  unfold List.splitOn
  exact List.splitOnP_eq_single _ _ (fun x hx hpx => h (by
    have : x = 44 := by simpa using hpx
    rw [← this]
    exact hx))

theorem splitOn_first_comma (a post : List Nat) (h : 44 ∉ a) :
    (a ++ 44 :: post).splitOn 44 = a :: post.splitOn 44 := by
  unfold List.splitOn
  exact List.splitOnP_first _ _ (fun x hx hpx => h (by
    have : x = 44 := by simpa using hpx
    rw [← this]
    exact hx)) 44 (by simp) post

theorem splitOn_comma_ne_nil (t : List Nat) : t.splitOn 44 ≠ [] := by
  unfold List.splitOn
  exact List.splitOnP_ne_nil _ _

theorem text_after_last_comma_none (t : List Nat) (h : 44 ∉ t) :
    text_after_last_comma t = t := by
  simp [text_after_last_comma, splitOn_no_comma t h]

theorem text_after_last_comma_first (a post : List Nat) (h : 44 ∉ a) :
    text_after_last_comma (a ++ 44 :: post) = text_after_last_comma post := by
  unfold text_after_last_comma
  rw [splitOn_first_comma a post h]
  obtain ⟨p, ps, hp⟩ := List.exists_cons_of_ne_nil (splitOn_comma_ne_nil post)
  rw [hp, List.getLast?_cons_cons]

theorem fields_before_last_none (t : List Nat) (h : 44 ∉ t) : fields_before_last t = [] := by
  simp [fields_before_last, splitOn_no_comma t h]

theorem fields_before_last_first (a post : List Nat) (h : 44 ∉ a) :
    fields_before_last (a ++ 44 :: post) = a :: fields_before_last post := by
  unfold fields_before_last
  rw [splitOn_first_comma a post h]
  obtain ⟨p, ps, hp⟩ := List.exists_cons_of_ne_nil (splitOn_comma_ne_nil post)
  rw [hp, List.dropLast_cons₂]

/-- The text after the last comma is part of the text. -/
theorem mem_text_after_last_comma (b : Nat) :
    ∀ (m : Nat) (t : List Nat), t.length = m → b ∈ text_after_last_comma t → b ∈ t := by
  intro m
  induction m using Nat.strong_induction_on with
  | _ m ih =>
    intro t hm hb
    by_cases hc : 44 ∈ t
    · obtain ⟨a, post, hp, hna⟩ := List.eq_append_cons_of_mem hc
      subst hp
      rw [text_after_last_comma_first a post hna] at hb
      have hlt : post.length < m := by
        simp only [List.length_append, List.length_cons] at hm
        omega
      exact List.mem_append_right _ (List.mem_cons_of_mem _ (ih post.length hlt post rfl hb))
    · rw [text_after_last_comma_none t hc] at hb
      exact hb

/-- The number of fields before the last one is the number of commas. -/
theorem fields_before_last_length :
    ∀ (m : Nat) (t : List Nat), t.length = m → (fields_before_last t).length = t.count 44 := by
  intro m
  induction m using Nat.strong_induction_on with
  | _ m ih =>
    intro t hm
    by_cases hc : 44 ∈ t
    · obtain ⟨a, post, hp, hna⟩ := List.eq_append_cons_of_mem hc
      subst hp
      have hlt : post.length < m := by
        simp only [List.length_append, List.length_cons] at hm
        omega
      rw [fields_before_last_first a post hna, List.length_cons, ih post.length hlt post rfl,
        List.count_append, List.count_cons_self, List.count_eq_zero_of_not_mem hna]
      omega
    · rw [fields_before_last_none t hc, List.count_eq_zero_of_not_mem hc]
      rfl

/-- The loop of `LabPro_parse_list` on a text `t` followed by its terminator,
all allocations succeeding: it stores the fields before the last comma one by
one, and then succeeds exactly when the text after the last comma holds a `}`,
storing that text up to the `}`. -/
theorem parse_loop_fields (bad_list : Int) (alloc_ok : Nat → Bool)
    (halloc : ∀ n, alloc_ok n = true) :
    ∀ (m : Nat) (t : List Nat), t.length = m → (∀ b ∈ t, b ≠ 0) →
      ∀ (z : List Nat), c_str z = [] → ∀ (i : Nat) (argv : List (List Nat)),
      parse_loop bad_list alloc_ok (t ++ z) i argv =
        if 125 ∈ text_after_last_comma t then
          { retval := LABPRO_OK, argc_list := i + (fields_before_last t).length + 1,
            argv_list := argv ++ fields_before_last t
              ++ [(text_after_last_comma t).takeWhile (fun b => b != 125)] }
        else
          { retval := bad_list, argc_list := 0, argv_list := argv ++ fields_before_last t } := by
  intro m
  induction m using Nat.strong_induction_on with
  | _ m ih =>
    intro t hm hz z hzz i argv
    have htext : c_str (t ++ z) = t := by
      rw [c_str_append_of_ne_zero t z hz, hzz, List.append_nil]
    rw [parse_loop]
    by_cases hcomma : 44 ∈ t
    · obtain ⟨a, post, hp, hna⟩ := List.eq_append_cons_of_mem hcomma
      subst hp
      have hfirst : strstr (a ++ 44 :: post ++ z) [44, 0] = some a.length := by
        rw [strstr_single 44 (by decide), htext, if_pos hcomma, takeWhile_first 44 _ _ hna]
      have htake : (a ++ 44 :: post ++ z).take a.length = a := by
        rw [List.append_assoc]
        exact List.take_left' rfl
      have hdrop : (a ++ 44 :: post ++ z).drop (a.length + 1) = post ++ z := by
        rw [List.append_assoc, ← List.drop_drop, List.drop_left' rfl]
        simp
      have hpost_len : post.length < m := by
        simp only [List.length_append, List.length_cons] at hm
        omega
      have hpost : ∀ b ∈ post, b ≠ 0 := fun b hb =>
        hz b (List.mem_append_right _ (List.mem_cons_of_mem _ hb))
      split
      · rename_i comma heq
        rw [hfirst] at heq
        cases heq
        simp only [halloc, Bool.not_true, Bool.false_eq_true, if_false]
        rw [htake, hdrop, ih post.length hpost_len post rfl hpost z hzz,
          text_after_last_comma_first a post hna, fields_before_last_first a post hna]
        by_cases hb : 125 ∈ text_after_last_comma post
        · rw [if_pos hb, if_pos hb]
          simp only [List.length_cons, List.append_assoc, List.singleton_append]
          congr 1
          omega
        · rw [if_neg hb, if_neg hb]
          simp only [List.append_assoc, List.singleton_append]
      · rename_i heq
        rw [hfirst] at heq
        cases heq
    · have hnone : strstr (t ++ z) [44, 0] = none := by
        rw [strstr_single 44 (by decide), htext, if_neg hcomma]
      rw [text_after_last_comma_none t hcomma, fields_before_last_none t hcomma]
      split
      · rename_i comma heq
        rw [hnone] at heq
        cases heq
      · rw [strstr_single 125 (by decide), htext]
        by_cases hb : 125 ∈ t
        · rw [if_pos hb, if_pos hb]
          simp only [halloc, Bool.not_true, Bool.false_eq_true, if_false]
          have htk : ∀ tw dw : List Nat, tw ++ dw = t → (t ++ z).take tw.length = tw := by
            intro tw dw h
            subst h
            rw [List.append_assoc]
            exact List.take_left' rfl
          rw [htk _ _ (List.takeWhile_append_dropWhile (fun b => b != 125) t)]
          simp
        · rw [if_neg hb, if_neg hb]
          simp

/-- `LabPro_parse_list` on a text that begins with `{`, all allocations
succeeding: the outcome is decided by the text after the last comma. -/
theorem parse_list_fields (bad_list : Int) (alloc_ok : Nat → Bool)
    (halloc : ∀ n, alloc_ok n = true) (string : List Nat)
    (hopen : (c_str string).head? = some 123) :
    (LabPro_parse_list bad_list alloc_ok string).retval
      = (if 125 ∈ text_after_last_comma (c_str string).tail then LABPRO_OK else bad_list) ∧
    (LabPro_parse_list bad_list alloc_ok string).argc_list
      = (if 125 ∈ text_after_last_comma (c_str string).tail
          then (fields_before_last (c_str string).tail).length + 1 else 0) ∧
    (125 ∈ text_after_last_comma (c_str string).tail →
      (LabPro_parse_list bad_list alloc_ok string).argv_list
        = fields_before_last (c_str string).tail
          ++ [(text_after_last_comma (c_str string).tail).takeWhile (fun b => b != 125)]) := by
  have hmem : string = c_str string ++ string.dropWhile (fun b => b != 0) :=
    (List.takeWhile_append_dropWhile _ _).symm
  have hnz := c_str_ne_zero string
  have hzz := c_str_dropWhile string
  generalize string.dropWhile (fun b => b != 0) = z at hmem hzz
  generalize c_str string = text at hopen hmem hnz
  cases text with
  | nil => simp at hopen
  | cons x t =>
    simp only [List.head?_cons, Option.some.injEq] at hopen
    subst hopen
    subst hmem
    simp only [List.tail_cons]
    have hzt : ∀ b ∈ t, b ≠ 0 := fun b hb => hnz b (List.mem_cons_of_mem _ hb)
    have htext : c_str (123 :: t ++ z) = 123 :: t := by
      rw [c_str_append_of_ne_zero (123 :: t) z hnz, hzz, List.append_nil]
    have hstart : strstr (123 :: t ++ z) [123, 0] = some 0 := by
      rw [strstr_single 123 (by decide), htext]
      simp
    unfold LabPro_parse_list
    by_cases hclose : 125 ∈ t
    · have hguard : ¬ ((123 :: t ++ z).headD 0 ≠ 123 ∨ strstr (123 :: t ++ z) [125, 0] = none) := by
        intro h
        rcases h with h | h
        · exact h rfl
        · rw [strstr_single 125 (by decide), htext, if_pos (List.mem_cons_of_mem _ hclose)] at h
          cases h
      rw [if_neg hguard]
      have hstart2 : strstr (123 :: (t ++ z)) [123, 0] = some 0 := hstart
      simp only [halloc, Bool.not_true, Bool.false_eq_true, if_false, List.cons_append,
        hstart2, Option.getD_some, Nat.zero_add, List.drop_succ_cons, List.drop_zero]
      rw [parse_loop_fields bad_list alloc_ok halloc t.length t rfl hzt z hzz 0 []]
      by_cases hb : 125 ∈ text_after_last_comma t
      · simp [hb]
      · simp [hb]
    · have hguard : (123 :: t ++ z).headD 0 ≠ 123 ∨ strstr (123 :: t ++ z) [125, 0] = none := by
        refine Or.inr ?_
        rw [strstr_single 125 (by decide), htext, if_neg]
        intro h
        rcases List.mem_cons.mp h with h1 | h1
        · exact absurd h1 (by decide)
        · exact hclose h1
      have hb : 125 ∉ text_after_last_comma t :=
        fun h => hclose (mem_text_after_last_comma 125 t.length t rfl h)
      rw [if_pos hguard, if_neg hb, if_neg hb]
      exact ⟨rfl, rfl, fun h => absurd h hb⟩

/-- C29. All its allocations succeeding, and the malformed list error being
different from `LABPRO_OK`, `LabPro_parse_list` returns `LABPRO_OK` exactly when
the input text begins with `{` and the text after the last comma of what
follows the `{` (all of it when there is no comma) holds a `}`. In that case
the element count is 1 plus the number of commas of the input text, hence not
0, the elements before the last are the pieces between consecutive separators
in order, whatever they hold, and the last element is the text after the last
separator up to its first `}`. Otherwise the malformed list error is returned
with a count of 0. -/
theorem parse_list_last_comma (bad_list : Int) (alloc_ok : Nat → Bool) (string : List Nat)
    (halloc : ∀ n, alloc_ok n = true) (hbad : bad_list ≠ LABPRO_OK) :
    ((LabPro_parse_list bad_list alloc_ok string).retval = LABPRO_OK ↔
      (c_str string).head? = some 123 ∧ 125 ∈ text_after_last_comma (c_str string).tail) ∧
    ((LabPro_parse_list bad_list alloc_ok string).retval = LABPRO_OK →
      (LabPro_parse_list bad_list alloc_ok string).argc_list = 1 + (c_str string).count 44 ∧
      (LabPro_parse_list bad_list alloc_ok string).argc_list ≠ 0 ∧
      (LabPro_parse_list bad_list alloc_ok string).argv_list
        = fields_before_last (c_str string).tail
          ++ [(text_after_last_comma (c_str string).tail).takeWhile (fun b => b != 125)]) ∧
    ((LabPro_parse_list bad_list alloc_ok string).retval ≠ LABPRO_OK →
      (LabPro_parse_list bad_list alloc_ok string).retval = bad_list ∧
      (LabPro_parse_list bad_list alloc_ok string).argc_list = 0) := by
  by_cases hopen : (c_str string).head? = some 123
  · obtain ⟨h1, h2, h3⟩ := parse_list_fields bad_list alloc_ok halloc string hopen
    have hcount : (c_str string).count 44 = (c_str string).tail.count 44 := by
      cases hc : c_str string with
      | nil => rfl
      | cons x t =>
        rw [hc] at hopen
        simp only [List.head?_cons, Option.some.injEq] at hopen
        subst hopen
        simp
    by_cases hb : 125 ∈ text_after_last_comma (c_str string).tail
    · rw [if_pos hb] at h1 h2
      refine ⟨⟨fun _ => ⟨hopen, hb⟩, fun _ => h1⟩, fun _ => ⟨?_, ?_, h3 hb⟩,
        fun hne => absurd h1 hne⟩
      · rw [h2, fields_before_last_length _ _ rfl, hcount]
        omega
      · rw [h2]
        omega
    · rw [if_neg hb] at h1 h2
      refine ⟨⟨fun h => absurd (h1 ▸ h) hbad, fun h => absurd h.2 hb⟩,
        fun h => absurd (h1 ▸ h) hbad, fun _ => ⟨h1, h2⟩⟩
  · have hguard : string.headD 0 ≠ 123 ∨ strstr string [125, 0] = none :=
      Or.inl (fun hc => hopen ((headD_eq_brace_iff string).mp hc))
    have hres : LabPro_parse_list bad_list alloc_ok string
        = { retval := bad_list, argc_list := 0, argv_list := [] } := by
      unfold LabPro_parse_list
      rw [if_pos hguard]
    rw [hres]
    refine ⟨⟨fun h => absurd h hbad, fun h => absurd h.1 hopen⟩,
      fun h => absurd h hbad, fun _ => ⟨rfl, rfl⟩⟩

/-- C29 at sample inputs: `{a}b,c}` gives the two elements `a}b` and `c`; `{}`
gives one empty element; `{a},b`, whose text after the last comma has no `}`,
is refused with a count of 0. -/
theorem parse_list_last_comma_witness :
    (∀ n, alloc_always n = true) ∧ sample_bad_list ≠ LABPRO_OK ∧
    (LabPro_parse_list sample_bad_list alloc_always list_two_braces).retval = LABPRO_OK ∧
    (LabPro_parse_list sample_bad_list alloc_always list_two_braces).argc_list = 2 ∧
    (LabPro_parse_list sample_bad_list alloc_always list_two_braces).argv_list
      = [[97, 125, 98], [99]] ∧
    (LabPro_parse_list sample_bad_list alloc_always list_empty).retval = LABPRO_OK ∧
    (LabPro_parse_list sample_bad_list alloc_always list_empty).argc_list = 1 ∧
    (LabPro_parse_list sample_bad_list alloc_always list_empty).argv_list = [[]] ∧
    (LabPro_parse_list sample_bad_list alloc_always list_comma_after).retval = sample_bad_list ∧
    (LabPro_parse_list sample_bad_list alloc_always list_comma_after).argc_list = 0 := by
  have ha : ∀ n, alloc_always n = true := fun _ => rfl
  have hb : sample_bad_list ≠ LABPRO_OK := by decide
  have h1 := parse_list_last_comma sample_bad_list alloc_always list_two_braces ha hb
  have h2 := parse_list_last_comma sample_bad_list alloc_always list_empty ha hb
  have h3 := parse_list_last_comma sample_bad_list alloc_always list_comma_after ha hb
  have r1 := h1.1.mpr ⟨by decide, by decide⟩
  have r2 := h2.1.mpr ⟨by decide, by decide⟩
  have r3 : (LabPro_parse_list sample_bad_list alloc_always list_comma_after).retval
      ≠ LABPRO_OK := fun h => absurd (h3.1.mp h).2 (by decide)
  have e1 := h1.2.1 r1
  have e2 := h2.2.1 r2
  have e3 := h3.2.2 r3
  exact ⟨ha, hb, r1, e1.1.trans (by decide), e1.2.2.trans (by decide),
    r2, e2.1.trans (by decide), e2.2.2.trans (by decide), e3.1, e3.2⟩

end Liblabpro
